import Mathlib

/-!
Frozen-executable bootstrap (cx_Freeze `Common.c`).

A shallow embedding of the routines of `source/bases/Common.c` that locate the
running executable and start the initialization script, in the build for a
POSIX system (`MS_WINDOWS` undefined, so the symbolic-link loop of
`SetExecutableName` is compiled in and `osdefs.h` gives `SEP` as the slash).

Conventions of the embedding.

* A C string (`const char *`) is the list of its characters before the
  terminating NUL. Reading the byte at index `strlen` gives the terminator,
  which is `none` in the type `Byte`.
* A Python string object is the list of its characters. Creating a string
  object from valid arguments succeeds (the interpreter is not out of memory)
  and encoding one back to a C string returns the same characters.
* `FatalError(msg)` is the result `error msg`: the caller returns its
  value, which is `-1`, when the `FatalError` of the host returns at all.
* Of the reference counts only one consequence is modelled: the buffer the C
  variable `fileName` points into is released in every iteration of the loop
  of `SetExecutableName` that follows a link. A loop that ran all 25
  iterations leaves `fileName` pointing into released memory; the C language
  defines no behaviour for the reads that follow, and the result is
  `undefined`.
* Machine integers are natural numbers; the width of `size_t` is applied where
  a value can leave its range (the return value of a failed `readlink`).
* What the interpreter answers to the calls of `SetPathToSearch`,
  `GetImporter`, `PopulateInitScriptDict` and `ExecuteScript` is given by the
  structures `Interp` and `Runtime`; the calls made are recorded in order.
* `Common.c` is included by each host. `ExecuteScript` ends in a `ScriptEnd`,
  which the GUI host (`Win32GUI.c`) and the console host (`Console.c`) turn
  into a returned value, an exit of the process or an abort with their own
  `FatalError` and `FatalScriptError`.
-/

set_option autoImplicit false

namespace Thonny

/-! ## Strings and bytes -/

/-- A C string: the characters before the terminating NUL. -/
abbrev CStr := List Char

/-- A Python string object. -/
abbrev PyStr := List Char

/-- One byte of a raw buffer: `none` is the NUL byte. -/
abbrev Byte := Option Char

/-- The path separator `SEP` of `osdefs.h` on a POSIX system. -/
def SEP : Char := '/'

/-- The NUL character, for a Python string decoded from a buffer that holds one. -/
def NUL : Char := Char.ofNat 0

/-- The bytes a `char *` points at: the characters, then the terminator. -/
def CStr.bytes (s : CStr) : List Byte := s.map some ++ [none]

/-- The routine `strlen` of the C library. -/
def strlen (s : CStr) : Nat := s.length

/-- Width of `size_t` and `Py_ssize_t` in bits (LP64). -/
def SIZE_BITS : Nat := 64

/-- Conversion of a `ssize_t` to `size_t`, as in `linkSize = readlink(...)`. -/
def toSizeT (r : Int) : Nat := (r % (2 ^ SIZE_BITS : Int)).toNat

/-- Conversion of a `size_t` to `Py_ssize_t`, as in the size argument of
`PyUnicode_Decode`: values from `2 ^ 63` on come out negative. -/
def toPySsizeT (n : Nat) : Int :=
  if n % 2 ^ SIZE_BITS < 2 ^ (SIZE_BITS - 1) then (n % 2 ^ SIZE_BITS : Nat)
  else (n % 2 ^ SIZE_BITS : Nat) - (2 ^ SIZE_BITS : Int)

/-- The macro `cxString_FromStringAndSize(str, size)`: decode `size` bytes of
`str` into a string object. The interpreter rejects a negative size with an
exception and returns `NULL`, here `none`. -/
def cxString_FromStringAndSize (str : List Byte) (size : Int) : Option PyStr :=
  if size < 0 then none
  else some ((str.take size.toNat).map (fun b => b.getD NUL))

/-- The macro `cxString_FromString(str)`: decode `strlen(str)` bytes. -/
def cxString_FromString (str : CStr) : PyStr := str

/-- The function `cxString_ToString`: the C string of a string object. -/
def cxString_ToString (obj : PyStr) : CStr := obj

/-! ## `GetDirName` -/

/-- The loop of `GetDirName`,
`for (i = strlen(path); i > 0 && path[i] != SEP; --i);`,
started at index `i`: the index at which it stops. -/
def GetDirName.scan (path : CStr) : Nat → Nat
  | 0 => 0
  | i + 1 => if path[i + 1]? ≠ some SEP then GetDirName.scan path i else i + 1

/-- The function `GetDirName`: the directory name of `path`, or the fatal error
when the string object cannot be created. The index `i` is at most
`strlen(path)`, the length of a string in memory, and is passed on as it is. -/
def GetDirName (path : CStr) : Except String PyStr :=
  let i := GetDirName.scan path (strlen path)
  match cxString_FromStringAndSize path.bytes (i : Int) with
  | none => .error "cannot create string for directory name"
  | some dirName => .ok dirName

/-! ## The host system -/

/-- What `lstat(fileName, &statData)` reports: a negative return value, a file
that is not a symbolic link, or a symbolic link (`S_ISLNK`). -/
inductive StatResult where
  | error
  | notLink
  | link
  deriving DecidableEq, Repr

/-- The system the executable runs on.

* `MAXPATHLEN` is the constant of `osdefs.h`.
* `lstat` and `readlink` are the file system: `readlink path` is the text
  stored in the link at `path`, or `none` when the call returns `-1`.
* `stack` is what the array `linkData` holds before anything is written to it
  (indeterminate in C). -/
structure Host where
  MAXPATHLEN : Nat
  lstat : CStr → StatResult
  readlink : CStr → Option (List Char)
  stack : List Byte

/-- The system call `readlink(path, buf, bufsiz)`: the return value and the
buffer afterwards. At most `bufsiz` bytes are stored, no terminator is written,
and a failed call leaves the buffer as it was. -/
def sys_readlink (h : Host) (path : CStr) (buf : List Byte) (bufsiz : Nat) :
    Int × List Byte :=
  match h.readlink path with
  | none => (-1, buf)
  | some t => ((min t.length bufsiz : Nat), (t.take bufsiz).map some ++ buf.drop (min t.length bufsiz))

/-- A system call made by `SetExecutableName`, recorded in order. -/
inductive SysCall where
  | lstat (path : CStr)
  | readlink (path : CStr)
  deriving DecidableEq, Repr

/-! ## C library string routines on the buffer `temp` -/

/-- The call `strcpy(temp, src)`: the string now in `temp`. -/
def strcpy (src : CStr) : CStr := src

/-- The call `strcat(temp, src)`. -/
def strcat (temp src : CStr) : CStr := temp ++ src

/-- The call `strncat(temp, src, n)`: at most `n` bytes of `src` are appended,
stopping before a NUL byte. -/
def strncat (temp : CStr) (src : List Byte) (n : Nat) : CStr :=
  temp ++ ((src.take n).takeWhile Option.isSome).filterMap id

/-! ## `SetExecutableName` -/

/-- The variables the link loop of `SetExecutableName` works on: the global
`g_FileName`, the parameter `fileName` (reassigned by `cxString_ToString` at
the top of every iteration) and the array `linkData`. The flag `released`
tells that the object whose buffer `fileName` points into has been released
(`Py_DECREF` at lines 122 and 124, or 133 and 145), so that `fileName` may no
longer be read; `fileName` then still records which string the buffer held. -/
structure LoopVars where
  g_FileName : PyStr
  fileName : CStr
  linkData : List Byte
  released : Bool := false

/-- What a routine gives that can leave defined behaviour: the value it
computes, the message of the fatal error it reports, or nothing that the
language defines. -/
inductive Result (α : Type) where
  | ok (value : α)
  | error (message : String)
  | undefined
  deriving DecidableEq, Repr

/-- Put the calls already made in front of the calls of the rest of a run. -/
def after {α : Type} (calls : List SysCall) (r : List SysCall × α) : List SysCall × α :=
  (calls ++ r.1, r.2)

/-- Lines 122 to 149 of `SetExecutableName`: the new `g_FileName` computed from
what `readlink` left in `linkData` and `linkSize`, or the fatal error reported.
An absolute target replaces the name; a relative one is appended in `temp` to
the directory name of the current `g_FileName`. -/
def SetExecutableName.follow (h : Host) (g_FileName : PyStr) (linkData : List Byte)
    (linkSize : Nat) : Except String PyStr :=
  if linkData[0]? = some (some '/') then
    match cxString_FromStringAndSize linkData (toPySsizeT linkSize) with
    | none => .error "cannot create string for linked file name"
    | some g => .ok g
  else
    let fileName := cxString_ToString g_FileName
    match GetDirName fileName with
    | .error e => .error e
    | .ok dirName =>
      let tempStr := cxString_ToString dirName
      if (strlen tempStr + linkSize + 1) % 2 ^ SIZE_BITS > h.MAXPATHLEN then
        .error "cannot dereference link, path too large"
      else
        let temp := strncat (strcat (strcpy tempStr) "/".toList) linkData linkSize
        .ok (cxString_FromString temp)

/-- The loop `for (i = 0; i < 25; i++)` of `SetExecutableName` with `n`
iterations left: the system calls made, and either the fatal error reported or
the variables on leaving the loop (by `break` or because `i` reached 25).
The test `linkSize < 0` is the one of the source, on the unsigned `linkSize`.
On `break` the buffer of `fileName` is the one line 109 has just assigned;
after an iteration that followed a link it has been released. -/
def SetExecutableName.loop (h : Host) : Nat → LoopVars → List SysCall × Except String LoopVars
  | 0, v => ([], .ok v)
  | n + 1, v =>
    let fileName := cxString_ToString v.g_FileName
    match h.lstat fileName with
    | .error => ([.lstat fileName], .error "unable to stat file")
    | .notLink => ([.lstat fileName], .ok { v with fileName := fileName, released := false })
    | .link =>
      let r := sys_readlink h fileName v.linkData (h.MAXPATHLEN + 1)
      let linkSize : Nat := toSizeT r.1
      let linkData := r.2
      let calls := [SysCall.lstat fileName, SysCall.readlink fileName]
      if linkSize < 0 then (calls, .error "unable to stat file")
      else
        match SetExecutableName.follow h v.g_FileName linkData linkSize with
        | .error e => (calls, .error e)
        | .ok g =>
          after calls (SetExecutableName.loop h n
            { g_FileName := g, fileName := fileName, linkData := linkData, released := true })

/-- The loop `while (ptr > temp && *ptr != SEP && *ptr != '.') ptr--;` with
`ptr` at index `i` of `temp`: the index at which it stops. -/
def exclusiveZip.scan (temp : CStr) : Nat → Nat
  | 0 => 0
  | i + 1 =>
    if temp[i + 1]? ≠ some SEP ∧ temp[i + 1]? ≠ some '.' then exclusiveZip.scan temp i
    else i + 1

/-- Lines 158 to 165 of `SetExecutableName`: the exclusive zip file name
computed in `temp` from `fileName`. For an empty `fileName` the C code reads
the byte before `temp`; whatever it holds, `temp` is still empty when `.zip`
is appended, which is what index 0 gives here. -/
def exclusiveZip (fileName : CStr) : PyStr :=
  let temp := strcpy fileName
  let ptr := exclusiveZip.scan temp (strlen temp - 1)
  let temp := if temp[ptr]? = some '.' then temp.take ptr else temp
  cxString_FromString (strcat temp ".zip".toList)

/-- Lines 170 to 177 of `SetExecutableName`: the shared zip file name computed
in `temp` from `g_DirName`. -/
def sharedZip (g_DirName : PyStr) : PyStr :=
  let tempStr := cxString_ToString g_DirName
  let temp := strcpy tempStr
  cxString_FromString (temp ++ SEP :: "library.zip".toList)

/-- The four globals `SetExecutableName` sets. -/
structure Names where
  g_FileName : PyStr
  g_DirName : PyStr
  g_ExclusiveZipFileName : PyStr
  g_SharedZipFileName : PyStr
  deriving DecidableEq, Repr

/-- Lines 153 to 181 of `SetExecutableName`: the names derived after the loop
from the variable `fileName`. -/
def SetExecutableName.derive (v : LoopVars) : Except String Names :=
  match GetDirName v.fileName with
  | .error e => .error e
  | .ok g_DirName =>
    .ok { g_FileName := v.g_FileName
          g_DirName := g_DirName
          g_ExclusiveZipFileName := exclusiveZip v.fileName
          g_SharedZipFileName := sharedZip g_DirName }

/-- The function `SetExecutableName`: the system calls made, and the fatal
error reported (return value `-1`) or the globals set (return value `0`).
When the loop ends because `i` reached 25, lines 154 and 158 read `fileName`
from a buffer that has been released: the C language defines no behaviour for
that read, and the result is `undefined`. -/
def SetExecutableName (h : Host) (fileName : CStr) : List SysCall × Result Names :=
  let r := SetExecutableName.loop h 25
    { g_FileName := cxString_FromString fileName, fileName := fileName, linkData := h.stack }
  match r.2 with
  | .error e => (r.1, .error e)
  | .ok v =>
    if v.released then (r.1, .undefined)
    else
      match SetExecutableName.derive v with
      | .error e => (r.1, .error e)
      | .ok g => (r.1, .ok g)

/-- The `int` a routine returns: `0`, or the `-1` of `FatalError`; `none`
where no behaviour is defined. -/
def status {α : Type} (r : Result α) : Option Int :=
  match r with
  | .ok _ => some 0
  | .error _ => some (-1)
  | .undefined => none

/-! ## The interpreter -/

/-- A module loader: a `zipimporter` instance. -/
structure Loader where
  id : Nat
  deriving DecidableEq, Repr

/-- The embedded interpreter, as far as the bootstrap sees it.

* `insertOk i` tells whether the call `PyList_Insert(pathList, i, ...)` of
  `SetPathToSearch` succeeds.
* `importOk name` tells whether `PyImport_ImportModule(name)` succeeds.
* `zipimporter fileName` is the loader `zipimport.zipimporter(fileName)`
  returns, or `none` when the call raises. -/
structure Interp where
  insertOk : Nat → Bool
  importOk : String → Bool
  zipimporter : PyStr → Option Loader

/-- A compiled script: the code object `get_code` returns. -/
structure Code where
  id : Nat
  deriving DecidableEq, Repr

/-- A value stored in the dictionary of the initialization script: the
built-ins of the interpreter, a string object, or the `NULL` pointer. -/
inductive PyVal where
  | builtins
  | str (s : PyStr)
  | null
  deriving DecidableEq, Repr

/-- A dictionary with string keys: the keys with their values, in the order
the keys were first set. -/
abbrev Dict := List (String × PyVal)

/-- A call into the interpreter, recorded in order. -/
inductive PyCall where
  | sysGetObject (name : String)
  | listInsert (index : Nat) (item : PyStr)
  | importModule (name : String)
  | zipimporter (fileName : PyStr)
  | dictNew
  | dictSetItem (key : String) (item : PyVal)
  | get_code (importer : Loader) (name : String)
  | evalCode (code : Code) (globals locals : Dict)
  deriving DecidableEq, Repr

/-- The interpreter state the bootstrap works on: `sys.path` (`none` when `sys`
has no attribute `path`), the global `g_InitScriptZipFileName` (`none` is
`NULL`), and the calls the bootstrap made so far. -/
structure PyState where
  sysPath : Option (List PyStr)
  g_InitScriptZipFileName : Option PyStr
  calls : List PyCall
  deriving DecidableEq, Repr

/-- Record a call. -/
def PyState.call (s : PyState) (c : PyCall) : PyState :=
  { s with calls := s.calls ++ [c] }

/-- The list after a successful `PyList_Insert(list, index, item)`: an index
past the end appends. -/
def PyList_Insert (list : List PyStr) (index : Nat) (item : PyStr) : List PyStr :=
  list.insertIdx (min index list.length) item

/-- One `PyList_Insert` of `SetPathToSearch` on `sys.path`, with the message
reported when it fails. -/
def SetPathToSearch.insert (it : Interp) (index : Nat) (item : PyStr) (msg : String)
    (pathList : List PyStr) (s : PyState) : Except String (List PyStr) × PyState :=
  let s := s.call (.listInsert index item)
  if it.insertOk index then
    let pathList := PyList_Insert pathList index item
    (.ok pathList, { s with sysPath := some pathList })
  else (.error msg, s)

/-- The function `SetPathToSearch`. -/
def SetPathToSearch (it : Interp) (g : Names) (s : PyState) : Except String Unit × PyState :=
  let s := s.call (.sysGetObject "path")
  match s.sysPath with
  | none => (.error "cannot acquire sys.path", s)
  | some pathList =>
    match SetPathToSearch.insert it 0 g.g_FileName
        "cannot insert file name into sys.path" pathList s with
    | (.error e, s) => (.error e, s)
    | (.ok pathList, s) =>
    match SetPathToSearch.insert it 1 g.g_DirName
        "cannot insert directory name into sys.path" pathList s with
    | (.error e, s) => (.error e, s)
    | (.ok pathList, s) =>
    match SetPathToSearch.insert it 2 g.g_ExclusiveZipFileName
        "cannot insert exclusive zip name into sys.path" pathList s with
    | (.error e, s) => (.error e, s)
    | (.ok pathList, s) =>
    match SetPathToSearch.insert it 3 g.g_SharedZipFileName
        "cannot insert shared zip name into sys.path" pathList s with
    | (.error e, s) => (.error e, s)
    | (.ok _, s) => (.ok (), s)

/-- The function `GetImporterHelper`: call `zipimporter(fileName)`; on success
store `fileName` in `g_InitScriptZipFileName`, otherwise clear the error. -/
def GetImporterHelper (it : Interp) (fileName : PyStr) (s : PyState) :
    Option Loader × PyState :=
  let s := s.call (.zipimporter fileName)
  match it.zipimporter fileName with
  | some importer => (some importer, { s with g_InitScriptZipFileName := some fileName })
  | none => (none, s)

/-- The function `GetImporter`. -/
def GetImporter (it : Interp) (g : Names) (s : PyState) : Except String Loader × PyState :=
  let s := s.call (.importModule "zipimport")
  if it.importOk "zipimport" then
    let r := GetImporterHelper it g.g_FileName s
    let r :=
      match r with
      | (some importer, s) => (some importer, s)
      | (none, s) =>
        match GetImporterHelper it g.g_ExclusiveZipFileName s with
        | (some importer, s) => (some importer, s)
        | (none, s) => GetImporterHelper it g.g_SharedZipFileName s
    match r with
    | (none, s) => (.error "cannot get zipimporter instance", s)
    | (some importer, s) => (.ok importer, s)
  else (.error "cannot import zipimport module", s)

/-! ## `PopulateInitScriptDict` and `ExecuteScript` -/

/-- A Python object as far as the error handlers of the hosts look at it:
`None`, an integer (`PyInt_Check` holds), a string (`cxString_Check` holds),
or some other object. -/
inductive PyObj where
  | none
  | int (n : Int)
  | str (s : PyStr)
  | other (id : Nat)
  deriving DecidableEq, Repr

/-- The exception pending when `PyEval_EvalCode` returns `NULL`, as
`PyErr_Fetch` and `PyErr_NormalizeException` deliver it: whether it matches
`SystemExit`, and its value. -/
structure PyExc where
  isSystemExit : Bool
  value : PyObj
  deriving DecidableEq, Repr

/-- The interpreter as `ExecuteScript` sees it, in addition to `Interp`.

* `dictNewOk` tells whether `PyDict_New()` returns a dictionary.
* `setItemOk key` tells whether `PyDict_SetItemString(dict, key, ...)` succeeds.
* `get_code importer name` is the code object `importer.get_code(name)`
  returns, or `none` when the call raises.
* `evalCode code globals locals` is the exception `PyEval_EvalCode` leaves
  pending, or `none` when the script runs to its end.
* `scriptSysPath code globals path` is `sys.path` as the evaluation of the
  script leaves it when it was `path` before: the script is free to change
  it. -/
structure Runtime extends Interp where
  dictNewOk : Bool
  setItemOk : String → Bool
  get_code : Loader → String → Option Code
  evalCode : Code → Dict → Dict → Option PyExc
  scriptSysPath : Code → Dict → Option (List PyStr) → Option (List PyStr)

/-- The dictionary after a successful `PyDict_SetItemString(dict, key, item)`. -/
def PyDict_SetItemString (dict : Dict) (key : String) (item : PyVal) : Dict :=
  if dict.any (fun kv => kv.1 == key) then
    dict.map (fun kv => if kv.1 == key then (key, item) else kv)
  else dict ++ [(key, item)]

/-- The call `PyDict_New()`: a new empty dictionary, or `none` for `NULL`. -/
def PyDict_New (rt : Runtime) (s : PyState) : Option Dict × PyState :=
  (if rt.dictNewOk then some [] else none, s.call .dictNew)

/-- One `PyDict_SetItemString` of `PopulateInitScriptDict`, with the message
reported when it fails. -/
def PopulateInitScriptDict.set (rt : Runtime) (key : String) (item : PyVal) (msg : String)
    (dict : Dict) (s : PyState) : Except String Dict × PyState :=
  let s := s.call (.dictSetItem key item)
  if rt.setItemOk key then (.ok (PyDict_SetItemString dict key item), s)
  else (.error msg, s)

/-- A global string pointer as a dictionary value. -/
def PyVal.ofGlobal (g : Option PyStr) : PyVal :=
  match g with
  | some name => .str name
  | none => .null

/-- The function `PopulateInitScriptDict`, on the dictionary `PyDict_New()`
returned: the populated dictionary, or the fatal error reported. -/
def PopulateInitScriptDict (rt : Runtime) (g : Names) (dict : Option Dict) (s : PyState) :
    Except String Dict × PyState :=
  match dict with
  | none => (.error "unable to create temporary dictionary", s)
  | some dict =>
    match PopulateInitScriptDict.set rt "__builtins__" .builtins
        "unable to set __builtins__" dict s with
    | (.error e, s) => (.error e, s)
    | (.ok dict, s) =>
    match PopulateInitScriptDict.set rt "FILE_NAME" (.str g.g_FileName)
        "unable to set FILE_NAME" dict s with
    | (.error e, s) => (.error e, s)
    | (.ok dict, s) =>
    match PopulateInitScriptDict.set rt "DIR_NAME" (.str g.g_DirName)
        "unable to set DIR_NAME" dict s with
    | (.error e, s) => (.error e, s)
    | (.ok dict, s) =>
    match PopulateInitScriptDict.set rt "EXCLUSIVE_ZIP_FILE_NAME"
        (.str g.g_ExclusiveZipFileName) "unable to set EXCLUSIVE_ZIP_FILE_NAME" dict s with
    | (.error e, s) => (.error e, s)
    | (.ok dict, s) =>
    match PopulateInitScriptDict.set rt "SHARED_ZIP_FILE_NAME"
        (.str g.g_SharedZipFileName) "unable to set SHARED_ZIP_FILE_NAME" dict s with
    | (.error e, s) => (.error e, s)
    | (.ok dict, s) =>
    PopulateInitScriptDict.set rt "INITSCRIPT_ZIP_FILE_NAME"
      (PyVal.ofGlobal s.g_InitScriptZipFileName) "unable to set INITSCRIPT_ZIP_FILE_NAME" dict s

/-- How `ExecuteScript` ends: with `return 0`, with the `-1` of a
`FatalError(msg)`, or with `return FatalScriptError()` on the exception the
script left pending; `undefined` when `SetExecutableName` left defined
behaviour. -/
inductive ScriptEnd where
  | ok
  | fatal (msg : String)
  | scriptError (e : PyExc)
  | undefined
  deriving DecidableEq, Repr

/-- A run of `ExecuteScript`: the system calls made, the interpreter state at
the end, and how the run ended. -/
structure Run where
  sysCalls : List SysCall
  state : PyState
  outcome : ScriptEnd

/-- The function `ExecuteScript` of `Common.c`, started with `sys.path` as
given, `g_InitScriptZipFileName` still `NULL` and no call made. -/
def ExecuteScript (h : Host) (rt : Runtime) (fileName : CStr) (sysPath : Option (List PyStr)) :
    Run :=
  let s : PyState := { sysPath := sysPath, g_InitScriptZipFileName := none, calls := [] }
  match SetExecutableName h fileName with
  | (sysCalls, .undefined) => { sysCalls := sysCalls, state := s, outcome := .undefined }
  | (sysCalls, .error e) => { sysCalls := sysCalls, state := s, outcome := .fatal e }
  | (sysCalls, .ok g) =>
    match SetPathToSearch rt.toInterp g s with
    | (.error e, s) => { sysCalls := sysCalls, state := s, outcome := .fatal e }
    | (.ok _, s) =>
    match GetImporter rt.toInterp g s with
    | (.error e, s) => { sysCalls := sysCalls, state := s, outcome := .fatal e }
    | (.ok importer, s) =>
    match PyDict_New rt s with
    | (dict, s) =>
    match PopulateInitScriptDict rt g dict s with
    | (.error e, s) => { sysCalls := sysCalls, state := s, outcome := .fatal e }
    | (.ok dict, s) =>
    let s := s.call (.get_code importer "cx_Freeze__init__")
    match rt.get_code importer "cx_Freeze__init__" with
    | none =>
      { sysCalls := sysCalls, state := s,
        outcome := .fatal "unable to locate initialization module" }
    | some code =>
      let s := { s.call (.evalCode code dict dict) with
                 sysPath := rt.scriptSysPath code dict s.sysPath }
      match rt.evalCode code dict dict with
      | some e => { sysCalls := sysCalls, state := s, outcome := .scriptError e }
      | none => { sysCalls := sysCalls, state := s, outcome := .ok }

/-! ## The GUI host (`Win32GUI.c`) -/

/-- A message box shown with `MessageBox`: its text and its caption. -/
structure MessageBox where
  text : PyStr
  caption : PyStr
  deriving DecidableEq, Repr

/-- How a routine of a host ends: it returns a value to its caller, the
process ends inside it with an exit status (`Py_Exit`), or the process is
aborted inside it (`Py_FatalError`); `undefined` when the routine left defined
behaviour. -/
inductive Flow where
  | returned (value : Int)
  | exited (status : Int)
  | aborted
  | undefined
  deriving DecidableEq, Repr

/-- The interpreter as the error handlers of `Win32GUI.c` see it.

* `getattr obj name` is the result of `PyObject_GetAttrString(obj, name)`,
  `none` when it raises.
* `strOther id` is `PyObject_Str` of the object `other id`, `none` when it
  raises.
* `excepthook` and `origExcepthook` are `sys.excepthook` and
  `sys.__excepthook__`; `callHook hook e` tells whether calling the hook on
  the exception succeeds.
* `importTraceback` and `hasFormatException` tell whether the module
  `traceback` and its attribute `format_exception` are found;
  `format_exception e` is the list that function returns, `none` when it
  raises.
* `formatNoTraceback context e` is the text `cxString_Format` produces in
  `FatalPythonErrorNoTraceback`, `none` when formatting fails. -/
structure Gui where
  getattr : PyObj → String → Option PyObj
  strOther : Nat → Option PyStr
  excepthook : Option PyObj
  origExcepthook : Option PyObj
  callHook : PyObj → PyExc → Bool
  importTraceback : Bool
  hasFormatException : Bool
  format_exception : PyExc → Option (List PyObj)
  formatNoTraceback : String → PyExc → Option PyStr

/-- Width of the C type `long` in bits on Windows, where `Win32GUI.c` is built. -/
def LONG_BITS : Nat := 32

/-- The call `PyInt_AsLong(value)` on an integer object: its value when that
fits a C `long`; otherwise the interpreter sets `OverflowError` and the call
returns `-1`. -/
def PyInt_AsLong (n : Int) : Int :=
  if -(2 ^ (LONG_BITS - 1) : Int) ≤ n ∧ n < (2 ^ (LONG_BITS - 1) : Int) then n else -1

/-- The call `PyObject_Str(obj)`: the string form of the object, `none` when
computing it raises. -/
def PyObject_Str (gui : Gui) : PyObj → Option PyStr
  | .none => some "None".toList
  | .int n => some (toString n).toList
  | .str s => some s
  | .other id => gui.strOther id

/-- The function `FatalError` of `Win32GUI.c`: a message box with the caption
`cx_Freeze Fatal Error`, then `return -1`. -/
def Win32GUI.FatalError (a_Message : String) : Flow × List MessageBox :=
  (.returned (-1), [{ text := a_Message.toList, caption := "cx_Freeze Fatal Error".toList }])

/-- The function `DisplayMessageFromPythonObjects`: a message box, then
`return -1`. -/
def Win32GUI.DisplayMessageFromPythonObjects (caption message : PyStr) :
    Flow × List MessageBox :=
  (.returned (-1), [{ text := message, caption := caption }])

/-- The caption both handlers take from the exception value: its attribute
`caption` when that exists and is a string, the given default otherwise. -/
def Win32GUI.captionOf (gui : Gui) (value : PyObj) (dflt : String) : PyStr :=
  match gui.getattr value "caption" with
  | some (.str caption) => caption
  | _ => dflt.toList

/-- The function `FatalPythonErrorNoTraceback(origValue, contextMessage)`. -/
def Win32GUI.FatalPythonErrorNoTraceback (gui : Gui) (e : PyExc) (contextMessage : String) :
    Flow × List MessageBox :=
  match gui.formatNoTraceback contextMessage e with
  | none => Win32GUI.FatalError "Cannot format exception values."
  | some message =>
    Win32GUI.DisplayMessageFromPythonObjects
      "cx_Freeze: Python error in main script (traceback unavailable)".toList message

/-- The function `HandleSystemExitException`: `Py_Exit(0)` for the code
`None`, `Py_Exit` with the value of an integer code, and otherwise a message
box with the string form of the value followed by `Py_Exit(1)`. -/
def Win32GUI.HandleSystemExitException (gui : Gui) (e : PyExc) : Flow × List MessageBox :=
  let value := e.value
  let caption := Win32GUI.captionOf gui value "cx_Freeze: Application Terminated"
  let code := gui.getattr value "code"
  if code = some .none then (.exited 0, [])
  else
    let value := code.getD value
    match value with
    | .int n => (.exited (PyInt_AsLong n), [])
    | _ =>
      match PyObject_Str gui value with
      | none => Win32GUI.FatalError "Cannot get string representation of messsage."
      | some message =>
        (.exited 1, (Win32GUI.DisplayMessageFromPythonObjects caption message).2)

/-- The call `cxString_Join(emptyString, result)`: the strings of the list put
together, `none` when an item is not a string. -/
def cxString_Join : List PyObj → Option PyStr
  | [] => some []
  | .str s :: rest => (cxString_Join rest).map (fun t => s ++ t)
  | _ :: _ => none

/-- Lines 198 to 237 of `FatalScriptError`: the traceback is formatted with
`traceback.format_exception` and shown in a message box. -/
def Win32GUI.FatalScriptError.format (gui : Gui) (e : PyExc) : Flow × List MessageBox :=
  if !gui.importTraceback then
    Win32GUI.FatalPythonErrorNoTraceback gui e "Cannot import traceback module."
  else if !gui.hasFormatException then
    Win32GUI.FatalPythonErrorNoTraceback gui e "Cannot get format_exception method."
  else
    match gui.format_exception e with
    | none =>
      Win32GUI.FatalPythonErrorNoTraceback gui e
        "Exception raised when calling format_exception."
    | some result =>
      match cxString_Join result with
      | none => Win32GUI.FatalPythonErrorNoTraceback gui e "Cannot join exception strings."
      | some message =>
        Win32GUI.DisplayMessageFromPythonObjects
          (Win32GUI.captionOf gui e.value "cx_Freeze: Python error in main script") message

/-- The function `FatalScriptError` of `Win32GUI.c`. A hook is called when
`sys.excepthook` is set and is not `sys.__excepthook__`. -/
def Win32GUI.FatalScriptError (gui : Gui) (e : PyExc) : Flow × List MessageBox :=
  if e.isSystemExit then Win32GUI.HandleSystemExitException gui e
  else
    match gui.excepthook with
    | some hook =>
      if some hook ≠ gui.origExcepthook then
        if gui.callHook hook e then (.returned (-1), [])
        else Win32GUI.FatalPythonErrorNoTraceback gui e "Error in sys.excepthook."
      else Win32GUI.FatalScriptError.format gui e
    | none => Win32GUI.FatalScriptError.format gui e

/-- The function `ExecuteScript` as compiled into `Win32GUI.c`: the value it
returns to `WinMain`, or the exit status of the process when it ends inside,
and the message boxes shown. -/
def Win32GUI.ExecuteScript (h : Host) (rt : Runtime) (gui : Gui) (fileName : CStr)
    (sysPath : Option (List PyStr)) : Flow × List MessageBox :=
  match (Thonny.ExecuteScript h rt fileName sysPath).outcome with
  | .ok => (.returned 0, [])
  | .fatal msg => Win32GUI.FatalError msg
  | .scriptError e => Win32GUI.FatalScriptError gui e
  | .undefined => (.undefined, [])

/-! ## The console host (`Console.c`) -/

/-- The interpreter as the error handlers of `Console.c` see it:
`systemExitStatus e` is the status with which `PyErr_Print` ends the process
when the pending exception `e` is a `SystemExit`. -/
structure Console where
  systemExitStatus : PyExc → Int

/-- The function `FatalError` of `Console.c`: `Py_FatalError` aborts the
process, so the `return -1` after it is never reached. -/
def Console.FatalError (_message : String) : Flow := .aborted

/-- The function `FatalScriptError` of `Console.c`: `PyErr_Print` ends the
process on a `SystemExit` and prints any other exception, then `return -1`. -/
def Console.FatalScriptError (con : Console) (e : PyExc) : Flow :=
  if e.isSystemExit then .exited (con.systemExitStatus e) else .returned (-1)

/-- The function `ExecuteScript` as compiled into `Console.c`. -/
def Console.ExecuteScript (h : Host) (rt : Runtime) (con : Console) (fileName : CStr)
    (sysPath : Option (List PyStr)) : Flow :=
  match (Thonny.ExecuteScript h rt fileName sysPath).outcome with
  | .ok => .returned 0
  | .fatal msg => Console.FatalError msg
  | .scriptError e => Console.FatalScriptError con e
  | .undefined => .undefined

/-! ## The entry points `main` and `WinMain` -/

/-- What the preparation of the arguments meets before `Py_Initialize` in the
build for Python 3: whether `PyMem_Malloc` gives the array `wargv`, and for
each argument whether `PyMem_Malloc` gives its buffer and what `mbstowcs`
returns for it. In the build for Python 2 nothing is allocated, which is the
case `wargv := true`, `args := []`. -/
structure Startup where
  wargv : Bool
  args : List (Bool × Int)

/-- The loop `for (i = 0; i < argc; i++)` of `main`: the value `main` returns
from inside it, `none` when the loop runs to its end. The test `status < 0`
is the one of the source, on the unsigned `status`. -/
def Console.main.convert : List (Bool × Int) → Option Int
  | [] => none
  | (mallocOk, r) :: rest =>
    if !mallocOk then some 2
    else
      let status : Nat := toSizeT r
      if status < 0 then some 3 else Console.main.convert rest

/-- The function `main` of `Console.c`: the value it returns as the status of
the process, unless the process ends inside `ExecuteScript`. -/
def Console.main (h : Host) (rt : Runtime) (con : Console) (st : Startup) (fileName : CStr)
    (sysPath : Option (List PyStr)) : Flow :=
  if !st.wargv then .returned 2
  else
    match Console.main.convert st.args with
    | some r => .returned r
    | none =>
      match Console.ExecuteScript h rt con fileName sysPath with
      | .returned v => .returned (if v < 0 then 1 else 0)
      | .exited status => .exited status
      | .aborted => .aborted
      | .undefined => .undefined

/-- The loop `for (i = 0; i < __argc; i++)` of `WinMain`: the value `WinMain`
returns from inside it, `none` when the loop runs to its end. -/
def Win32GUI.WinMain.convert : List (Bool × Int) → Option Int
  | [] => none
  | (mallocOk, _) :: rest => if !mallocOk then some 2 else Win32GUI.WinMain.convert rest

/-- The function `WinMain` of `Win32GUI.c`: the value it returns as the status
of the process, unless the process ends inside `ExecuteScript`, and the
message boxes shown. -/
def Win32GUI.WinMain (h : Host) (rt : Runtime) (gui : Gui) (st : Startup) (fileName : CStr)
    (sysPath : Option (List PyStr)) : Flow × List MessageBox :=
  if !st.wargv then (.returned 2, [])
  else
    match Win32GUI.WinMain.convert st.args with
    | some r => (.returned r, [])
    | none =>
      match Win32GUI.ExecuteScript h rt gui fileName sysPath with
      | (.returned v, boxes) => (.returned (if v < 0 then 1 else 0), boxes)
      | (.exited status, boxes) => (.exited status, boxes)
      | (.aborted, boxes) => (.aborted, boxes)
      | (.undefined, boxes) => (.undefined, boxes)

/-! ## The shortcut launcher (`ShortcutLauncher/main.cpp`) -/

/-- A call `ShellExecute(NULL, operation, file, parameters, NULL, SW_SHOWDEFAULT)`. -/
structure ShellExecute where
  operation : List Char
  file : List Char
  parameters : List Char
  deriving DecidableEq, Repr

/-- The call `GetModuleFileNameW(hModule, lpFileName, nSize)`: the string left
in the buffer, which is the path of the module cut to `nSize - 1` characters. -/
def GetModuleFileNameW (modulePath : List Char) (nSize : Nat) : List Char :=
  modulePath.take (nSize - 1)

/-- The call `wcsnlen_s(str, n)`. -/
def wcsnlen_s (str : List Char) (n : Nat) : Nat := min str.length n

/-- The function `wWinMain` of the shortcut launcher: the `ShellExecute` call
it makes and the value it returns. The result is `none` where the C code
leaves defined behaviour: a module path of fewer than four characters puts the
index `wcsnlen_s(...) - 4` before the buffer, and `wcscat_s` ends the process
when the 1010 characters of the buffer do not hold the result. -/
def ShortcutLauncher.wWinMain (modulePath lpCmdLine : List Char) :
    Option (ShellExecute × Int) :=
  let lpFileName := GetModuleFileNameW modulePath 1000
  let n := wcsnlen_s lpFileName 1000
  if n < 4 then none
  else
    let lpFileName := lpFileName.take (n - 4)
    if lpFileName.length + "_shortcut.lnk".length + 1 > 1010 then none
    else
      some ({ operation := "open".toList, file := lpFileName ++ "_shortcut.lnk".toList,
              parameters := lpCmdLine }, 0)

/-! ## Icon resources (`util.c`) -/

/-- The structure `ICONDIRENTRY`. -/
structure ICONDIRENTRY where
  bWidth : Nat
  bHeight : Nat
  bColorCount : Nat
  bReserved : Nat
  wPlanes : Nat
  wBitCount : Nat
  dwBytesInRes : Nat
  dwImageOffset : Nat
  deriving DecidableEq, Repr

/-- The structure `ICONDIR` as read from the data of an icon file:
`idEntries i` is what the data holds at entry `i`. -/
structure ICONDIR where
  idReserved : Nat
  idType : Nat
  idCount : Nat
  idEntries : Nat → ICONDIRENTRY

/-- The structure `GRPICONDIRENTRY`. -/
structure GRPICONDIRENTRY where
  bWidth : Nat
  bHeight : Nat
  bColorCount : Nat
  bReserved : Nat
  wPlanes : Nat
  wBitCount : Nat
  dwBytesInRes : Nat
  nID : Nat
  deriving DecidableEq, Repr

/-- The structure `GRPICONDIR` with the entries allocated behind it. -/
structure GRPICONDIR where
  idReserved : Nat
  idType : Nat
  idCount : Nat
  idEntries : List GRPICONDIRENTRY
  deriving DecidableEq, Repr

/-- The value of `sizeof(GRPICONDIR)` under `#pragma pack(2)`: three `WORD`
fields and an array of no entries. -/
def sizeof_GRPICONDIR : Nat := 6

/-- The value of `sizeof(GRPICONDIRENTRY)` under `#pragma pack(2)`: four
`BYTE`, two `WORD`, one `DWORD` and one `WORD` field. -/
def sizeof_GRPICONDIRENTRY : Nat := 14

/-- The loop `for (i = 0; i < iconDir->idCount; i++)` of
`CreateGroupIconResource` from index `i` on, with `n` entries left: the
entries written. The field `nID` is a `WORD`. -/
def CreateGroupIconResource.entries (iconDir : ICONDIR) : Nat → Nat → List GRPICONDIRENTRY
  | _, 0 => []
  | i, n + 1 =>
    { bWidth := (iconDir.idEntries i).bWidth
      bHeight := (iconDir.idEntries i).bHeight
      bColorCount := (iconDir.idEntries i).bColorCount
      bReserved := (iconDir.idEntries i).bReserved
      wPlanes := (iconDir.idEntries i).wPlanes
      wBitCount := (iconDir.idEntries i).wBitCount
      dwBytesInRes := (iconDir.idEntries i).dwBytesInRes
      nID := (i + 1) % 2 ^ 16 } :: CreateGroupIconResource.entries iconDir (i + 1) n

/-- The function `CreateGroupIconResource`: the group icon directory (`none`
when `PyMem_Malloc` returns `NULL`) and the `DWORD` stored in `*resourceSize`. -/
def CreateGroupIconResource (mallocOk : Bool) (iconDir : ICONDIR) : Option GRPICONDIR × Nat :=
  let resourceSize := (sizeof_GRPICONDIR + sizeof_GRPICONDIRENTRY * iconDir.idCount) % 2 ^ 32
  if !mallocOk then (none, resourceSize)
  else
    (some { idReserved := iconDir.idReserved
            idType := iconDir.idType
            idCount := iconDir.idCount
            idEntries := CreateGroupIconResource.entries iconDir 0 iconDir.idCount },
      resourceSize)

/-- The resource types `ExtAddIcon` writes. -/
inductive ResType where
  | RT_GROUP_ICON
  | RT_ICON
  deriving DecidableEq, Repr

/-- A call of the resource functions of Windows, recorded in order:
`UpdateResource` with its type, the identifier given to `MAKEINTRESOURCE` and
the size of the data. -/
inductive ResourceCall where
  | BeginUpdateResource
  | UpdateResource (type : ResType) (id : Nat) (size : Nat)
  | EndUpdateResource (fDiscard : Bool)
  deriving DecidableEq, Repr

/-- What `ExtAddIcon` meets: whether `PyArg_ParseTuple` and
`BeginUpdateResource` succeed, the icon directory `GetFileData` reads (`none`
when it fails), whether `PyMem_Malloc` gives the group icon directory, whether
`UpdateResource` succeeds for a type and identifier, and whether
`EndUpdateResource` called with the given `fDiscard` succeeds. -/
structure ResourceApi where
  parseTuple : Bool
  BeginUpdateResource : Bool
  GetFileData : Option ICONDIR
  mallocOk : Bool
  UpdateResource : ResType → Nat → Bool
  EndUpdateResource : Bool → Bool

/-- The loop of `ExtAddIcon` that adds each icon as a resource, from index `i`
on with `n` icons left: the value of `succeeded` after it and the calls made.
The identifier is `MAKEINTRESOURCE(i + 1)`, a `WORD`. -/
def ExtAddIcon.icons (api : ResourceApi) (iconDir : ICONDIR) :
    Nat → Nat → Bool × List ResourceCall
  | _, 0 => (true, [])
  | i, n + 1 =>
    let id := (i + 1) % 2 ^ 16
    let call := ResourceCall.UpdateResource .RT_ICON id (iconDir.idEntries i).dwBytesInRes
    if api.UpdateResource .RT_ICON id then
      ((ExtAddIcon.icons api iconDir (i + 1) n).1,
        call :: (ExtAddIcon.icons api iconDir (i + 1) n).2)
    else (false, [call])

/-- The steps of `ExtAddIcon` between `BeginUpdateResource` and
`EndUpdateResource`: the value of `succeeded` after them and the calls made. -/
def ExtAddIcon.steps (api : ResourceApi) : Bool × List ResourceCall :=
  match api.GetFileData with
  | none => (false, [])
  | some iconDir =>
    match CreateGroupIconResource api.mallocOk iconDir with
    | (none, _) => (false, [])
    | (some _, resourceSize) =>
      let call := ResourceCall.UpdateResource .RT_GROUP_ICON 1 resourceSize
      if api.UpdateResource .RT_GROUP_ICON 1 then
        ((ExtAddIcon.icons api iconDir 0 iconDir.idCount).1,
          call :: (ExtAddIcon.icons api iconDir 0 iconDir.idCount).2)
      else (false, [call])

/-- The function `ExtAddIcon`: `some ()` when it returns `None`, `none` when
it returns `NULL`, and the calls of the resource functions it made. -/
def ExtAddIcon (api : ResourceApi) : Option Unit × List ResourceCall :=
  if !api.parseTuple then (none, [])
  else if !api.BeginUpdateResource then (none, [.BeginUpdateResource])
  else
    let succeeded := (ExtAddIcon.steps api).1
    let calls := .BeginUpdateResource :: (ExtAddIcon.steps api).2 ++
      [.EndUpdateResource (!succeeded)]
    let succeeded :=
      if !api.EndUpdateResource (!succeeded) then
        if succeeded then false else succeeded
      else succeeded
    if !succeeded then (none, calls) else (some (), calls)

/-! ## The Thonny runners (`ThonnyRunner37`, `ThonnyRunner310`) -/

/-- What a runner meets: whether `CommandLineToArgvW` returns the arguments,
whether `PyRun_String` returns a result, and the string form of the error
value when it does not. -/
structure Runner where
  CommandLineToArgvW : Bool
  PyRun_String : Bool
  error_msg : List Char

/-- The function `wWinMain` of `ThonnyRunner37/ThonnyRunner/thonny.cpp`: the
value returned and the message boxes shown. -/
def ThonnyRunner37.wWinMain (env : Runner) : Int × List MessageBox :=
  if !env.CommandLineToArgvW then
    (10, [{ text := "Unable to parse command line".toList, caption := "Error".toList }])
  else if !env.PyRun_String then
    (-1, [{ text := env.error_msg, caption := "Thonny startup error".toList }])
  else (1, [])

/-- The function `wWinMain` of `ThonnyRunner310/ThonnyRunner/thonny.cpp`,
which differs in the environment variables it clears and in the script it
runs. -/
def ThonnyRunner310.wWinMain (env : Runner) : Int × List MessageBox :=
  if !env.CommandLineToArgvW then
    (10, [{ text := "Unable to parse command line".toList, caption := "Error".toList }])
  else if !env.PyRun_String then
    (-1, [{ text := env.error_msg, caption := "Thonny startup error".toList }])
  else (1, [])

/-! ## Reading the recorded calls -/

/-- The step of `ExecuteScript` a call into the interpreter belongs to:
1 for `SetPathToSearch`, 2 for `GetImporter`, 3 for the dictionary, 4 for
`get_code`, 5 for the evaluation of the script. -/
def PyCall.stage : PyCall → Nat
  | .sysGetObject _ => 1
  | .listInsert _ _ => 1
  | .importModule _ => 2
  | .zipimporter _ => 2
  | .dictNew => 3
  | .dictSetItem _ _ => 3
  | .get_code _ _ => 4
  | .evalCode _ _ _ => 5

/-- Whether a system call is a `readlink`. -/
def SysCall.isReadlink : SysCall → Bool
  | .readlink _ => true
  | .lstat _ => false

/-- Whether a system call is an `lstat`. -/
def SysCall.isLstat : SysCall → Bool
  | .lstat _ => true
  | .readlink _ => false

/-- Whether a call is the `PySys_GetObject("path")` with which an invocation
of `SetPathToSearch` begins. -/
def PyCall.isSysPathLookup : PyCall → Bool
  | .sysGetObject name => name == "path"
  | _ => false

/-- Whether a call is a `get_code`. -/
def PyCall.isGetCode : PyCall → Bool
  | .get_code _ _ => true
  | _ => false

/-- The state `ExecuteScript` starts in. -/
def PyState.initial (sysPath : Option (List PyStr)) : PyState :=
  { sysPath := sysPath, g_InitScriptZipFileName := none, calls := [] }

/-! ## The words of the specification -/

/-- The containing directory of the specification: the path up to but not including
its last separator, empty when it has none. -/
def specDirName (p : List Char) : List Char :=
  ((p.reverse.dropWhile (fun c => c != SEP)).drop 1).reverse

/-- The extension stripping of the specification: when the part of the path after
its last separator holds a dot, everything from the last dot on is removed;
otherwise the path is kept. -/
def specStripExtension (p : List Char) : List Char :=
  let base := (p.reverse.takeWhile (fun c => c != SEP)).reverse
  if '.' ∈ base then ((p.reverse.dropWhile (fun c => c != '.')).drop 1).reverse else p

/-- The removal of the file extension in the words of the claim on the
shortcut launcher: when the part of a Windows path after its last backslash or
slash holds a dot, everything from the last dot on is removed. -/
def winRemoveExtension (p : List Char) : List Char :=
  let base := (p.reverse.takeWhile (fun c => c != '\\' && c != '/')).reverse
  if '.' ∈ base then ((p.reverse.dropWhile (fun c => c != '.')).drop 1).reverse else p

/-- The link step of the specification: an absolute target replaces the current
path, a relative one is joined with the containing directory of the current path. -/
def joinLink (c t : List Char) : List Char :=
  if t.head? = some '/' then t else specDirName c ++ '/' :: t

/-- Following `k` symbolic links from `p` in the file system of `h`: the path
reached, when each of the `k` paths on the way is a link that can be read. -/
def followLinks (h : Host) : Nat → CStr → Option CStr
  | 0, p => some p
  | k + 1, p =>
    match h.lstat p, h.readlink p with
    | .link, some t => followLinks h k (joinLink p t)
    | _, _ => none

/-- A file system as a POSIX system presents it: `MAXPATHLEN` bounds the
length of every path `lstat` accepts and fits the signed size type, and no
link holds an empty target. -/
structure Host.Posix (h : Host) : Prop where
  maxpathlen : h.MAXPATHLEN + 1 < 2 ^ 63
  lstat_length : ∀ p, h.lstat p ≠ .error → p.length ≤ h.MAXPATHLEN
  readlink_ne : ∀ p, h.readlink p ≠ some []

/-! ## Concrete hosts -/

/-- A file system in which `/usr/bin/app` is a link to `../lib/app/run`, that
path is a link to `/opt/app/run.bin`, and the latter is a regular file. -/
def chainHost : Host where
  MAXPATHLEN := 4096
  lstat := fun p =>
    if p = "/usr/bin/app".toList then .link
    else if p = "/usr/bin/../lib/app/run".toList then .link
    else if p = "/opt/app/run.bin".toList then .notLink
    else .error
  readlink := fun p =>
    if p = "/usr/bin/app".toList then some "../lib/app/run".toList
    else if p = "/usr/bin/../lib/app/run".toList then some "/opt/app/run.bin".toList
    else none
  stack := []

/-- A file system in which `/l` is a link to itself. -/
def cycleHost : Host where
  MAXPATHLEN := 4096
  lstat := fun p => if p = "/l".toList then .link else .error
  readlink := fun p => if p = "/l".toList then some "/l".toList else none
  stack := []

/-- A file system in which `/d/l` is a link whose target is 4095 letters long,
the longest a link can hold. -/
def longLinkHost : Host where
  MAXPATHLEN := 4096
  lstat := fun p => if p = "/d/l".toList then .link else .error
  readlink := fun p => if p = "/d/l".toList then some (List.replicate 4095 'a') else none
  stack := []

/-- A file system in which `/l` is a link that `readlink` fails to read (an
input/output error), on a run that finds the bytes `x`, NUL at the start of
`linkData`. -/
def unreadableLinkHost : Host where
  MAXPATHLEN := 4096
  lstat := fun p => if p = "/l".toList then .link else .notLink
  readlink := fun _ => none
  stack := [some 'x', none]

/-- An interpreter in which every call succeeds and only `/a/b/library.zip`
holds modules. -/
def sharedOnlyInterp : Interp where
  insertOk := fun _ => true
  importOk := fun _ => true
  zipimporter := fun p => if p = "/a/b/library.zip".toList then some ⟨3⟩ else none

/-- The names `SetExecutableName` derives from `/a/b/app.bin`. -/
def appNames : Names where
  g_FileName := "/a/b/app.bin".toList
  g_DirName := "/a/b".toList
  g_ExclusiveZipFileName := "/a/b/app.zip".toList
  g_SharedZipFileName := "/a/b/library.zip".toList

/-- An interpreter in which every call succeeds but no candidate holds modules. -/
def noArchiveRuntime : Runtime where
  insertOk := fun _ => true
  importOk := fun _ => true
  zipimporter := fun _ => none
  dictNewOk := true
  setItemOk := fun _ => true
  get_code := fun _ _ => none
  evalCode := fun _ _ _ => none
  scriptSysPath := fun _ _ path => path

/-- An interpreter in which every call succeeds, modules are found only in
`/a/b/library.zip`, and the initialization script ends as given: normally for
`none`, with the exception `e` pending for `some e`. The script puts
`/a/b/lib` in front of `sys.path`. -/
def sharedRuntime (ending : Option PyExc) : Runtime where
  toInterp := sharedOnlyInterp
  dictNewOk := true
  setItemOk := fun _ => true
  get_code := fun importer name =>
    if name = "cx_Freeze__init__" then some { id := importer.id } else none
  evalCode := fun _ _ _ => ending
  scriptSysPath := fun _ _ path => path.map (fun l => "/a/b/lib".toList :: l)

/-- An interpreter for the GUI handlers in which the objects 1 to 4 are
`SystemExit` values with the codes 7, `bye`, `None` and `2 ^ 31`, no other
attribute is found, no hook is installed, and the module `traceback` is
missing. -/
def bareGui : Gui where
  getattr := fun obj name =>
    if name = "code" then
      if obj = .other 1 then some (.int 7)
      else if obj = .other 2 then some (.str "bye".toList)
      else if obj = .other 3 then some .none
      else if obj = .other 4 then some (.int (2 ^ 31))
      else none
    else none
  strOther := fun _ => none
  excepthook := none
  origExcepthook := none
  callHook := fun _ _ => true
  importTraceback := false
  hasFormatException := false
  format_exception := fun _ => none
  formatNoTraceback := fun _ _ => none

/-- The number `k` of the link `/a/l...l` (written with `k` letters `l`,
`1 ≤ k ≤ 25`) in `chain25Host`. -/
def chain25Host.linkNo (p : CStr) : Option Nat :=
  if p.take 3 = "/a/".toList ∧ p.drop 3 = List.replicate (p.length - 3) 'l' ∧
      4 ≤ p.length ∧ p.length ≤ 28 then some (p.length - 3) else none

/-- A file system with a chain of exactly 25 links: `/a/l` points to `/a/ll`,
and so on up to the link written with 25 letters, which points to the regular
file `/b/app`. -/
def chain25Host : Host where
  MAXPATHLEN := 4096
  lstat := fun p =>
    if p = "/b/app".toList then .notLink
    else if (chain25Host.linkNo p).isSome then .link else .error
  readlink := fun p =>
    match chain25Host.linkNo p with
    | some k =>
      if k < 25 then some ("/a/".toList ++ List.replicate (k + 1) 'l')
      else some "/b/app".toList
    | none => none
  stack := []

/-- An interpreter for the GUI handlers in which no hook is installed, the
object 5 has the string attribute `caption` with the value `My App` and no
other attribute is found. With `traceback = true` the module `traceback`
formats every exception as two lines; with `traceback = false` the module is
missing from the frozen application. -/
def captionGui (traceback : Bool) : Gui where
  getattr := fun obj name =>
    if name = "caption" ∧ obj = .other 5 then some (.str "My App".toList) else none
  strOther := fun _ => none
  excepthook := none
  origExcepthook := none
  callHook := fun _ _ => true
  importTraceback := traceback
  hasFormatException := traceback
  format_exception := fun _ =>
    if traceback then
      some [.str "Traceback (most recent call last):\n".toList, .str "ValueError: boom\n".toList]
    else none
  formatNoTraceback := fun contextMessage _ =>
    some (contextMessage ++ "\nException: No module named traceback" ++
      "\nOriginal Exception: boom").toList

/-- The steps of `ExtAddIcon` between `BeginUpdateResource` and
`EndUpdateResource` in the words of the claim: the icon file is read, the
group icon resource is built and added, and every icon image is added. -/
def ExtAddIcon.stepsSucceed (api : ResourceApi) : Bool :=
  match api.GetFileData with
  | none => false
  | some iconDir =>
    api.mallocOk && api.UpdateResource .RT_GROUP_ICON 1 &&
      (List.range iconDir.idCount).all (fun i => api.UpdateResource .RT_ICON ((i + 1) % 2 ^ 16))

/-- An icon file with two images, of 16 and 32 pixels. -/
def twoIcons : ICONDIR where
  idReserved := 0
  idType := 1
  idCount := 2
  idEntries := fun i =>
    if i = 0 then
      { bWidth := 16, bHeight := 16, bColorCount := 0, bReserved := 0, wPlanes := 1,
        wBitCount := 32, dwBytesInRes := 1128, dwImageOffset := 38 }
    else
      { bWidth := 32, bHeight := 32, bColorCount := 0, bReserved := 0, wPlanes := 1,
        wBitCount := 32, dwBytesInRes := 4264, dwImageOffset := 1166 }

/-- Resource functions that all succeed on the icon file `twoIcons`, except
that `UpdateResource` fails for the icon with the identifier `failing`. -/
def twoIconsApi (failing : Nat) : ResourceApi where
  parseTuple := true
  BeginUpdateResource := true
  GetFileData := some twoIcons
  mallocOk := true
  UpdateResource := fun type id => !(type = .RT_ICON ∧ id = failing)
  EndUpdateResource := fun _ => true

/-! ## Lemmas on `GetDirName` -/

theorem cxString_FromStringAndSize_bytes (s : CStr) (i : Nat) (h : i ≤ s.length) :
    cxString_FromStringAndSize s.bytes (i : Int) = some (s.take i) := by
  have h0 : ¬ ((i : Int) < 0) := by omega
  simp only [cxString_FromStringAndSize, h0, if_false, CStr.bytes, Int.toNat_ofNat]
  rw [List.take_append_of_le_length (by simpa using h), ← List.map_take, List.map_map]
  have hid : ((fun b : Byte => b.getD NUL) ∘ some) = id := by
    funext c; rfl
  rw [hid, List.map_id]

theorem GetDirName_scan_le (path : CStr) (i : Nat) : GetDirName.scan path i ≤ i := by
  induction i with
  | zero => simp [GetDirName.scan]
  | succ n ih =>
    unfold GetDirName.scan
    split
    · exact Nat.le_succ_of_le ih
    · exact Nat.le_refl _

theorem GetDirName_eq (path : CStr) :
    GetDirName path = .ok (path.take (GetDirName.scan path path.length)) := by
  simp only [GetDirName, strlen]
  rw [cxString_FromStringAndSize_bytes _ _ (GetDirName_scan_le _ _)]

theorem GetDirName_scan_noSep (path : CStr) (h : SEP ∉ path) (i : Nat) :
    GetDirName.scan path i = 0 := by
  induction i with
  | zero => rfl
  | succ n ih =>
    unfold GetDirName.scan
    have : path[n + 1]? ≠ some SEP := by
      intro hc
      exact h (List.getElem?_mem hc)
    simp [this, ih]

theorem GetDirName_scan_split (d b : List Char) (h : SEP ∉ b) (k : Nat) :
    GetDirName.scan (d ++ SEP :: b) (d.length + k) = d.length := by
  induction k with
  | zero =>
    cases hd : d.length with
    | zero => simp [GetDirName.scan]
    | succ n =>
      have : (d ++ SEP :: b)[n + 1]? = some SEP := by
        rw [← hd, List.getElem?_append_right (Nat.le_refl _)]; simp
      simp [GetDirName.scan, this]
  | succ k ih =>
    have hne : (d ++ SEP :: b)[d.length + k + 1]? ≠ some SEP := by
      intro hc
      rw [List.getElem?_append_right (by omega)] at hc
      have : d.length + k + 1 - d.length = k + 1 := by omega
      rw [this] at hc
      simp only [List.getElem?_cons_succ] at hc
      exact h (List.getElem?_mem hc)
    rw [← Nat.add_assoc]
    unfold GetDirName.scan
    simp only [hne, ne_eq, not_false_eq_true, if_true]
    exact ih

theorem GetDirName_of_noSep (p : CStr) (h : SEP ∉ p) : GetDirName p = .ok [] := by
  rw [GetDirName_eq, GetDirName_scan_noSep p h]; rfl

theorem GetDirName_of_split (d b : List Char) (hb : SEP ∉ b) :
    GetDirName (d ++ SEP :: b) = .ok d := by
  rw [GetDirName_eq]
  have : (d ++ SEP :: b).length = d.length + (b.length + 1) := by simp
  rw [this, GetDirName_scan_split d b hb]
  simp

theorem exists_last_sep (p : List Char) (h : SEP ∈ p) :
    ∃ d b : List Char, p = d ++ SEP :: b ∧ SEP ∉ b := by
  have hr : SEP ∈ p.reverse := List.mem_reverse.mpr h
  obtain ⟨as, bs, hp, has⟩ := List.eq_append_cons_of_mem hr
  refine ⟨bs.reverse, as.reverse, ?_, ?_⟩
  · have := congrArg List.reverse hp
    simpa using this
  · simpa using has

theorem specDirName_noSep (p : List Char) (h : SEP ∉ p) : specDirName p = [] := by
  have : p.reverse.dropWhile (fun c => c != SEP) = [] := by
    rw [List.dropWhile_eq_nil_iff]
    intro x hx
    have hx2 : x ∈ p := List.mem_reverse.mp hx
    have : x ≠ SEP := fun e => h (e ▸ hx2)
    simpa using this
  simp [specDirName, this]

theorem specDirName_split (d b : List Char) (h : SEP ∉ b) :
    specDirName (d ++ SEP :: b) = d := by
  have hb : ∀ a ∈ b.reverse, (fun c => c != SEP) a = true := by
    intro x hx
    have hx2 : x ∈ b := List.mem_reverse.mp hx
    have : x ≠ SEP := fun e => h (e ▸ hx2)
    simpa using this
  have : (d ++ SEP :: b).reverse = b.reverse ++ SEP :: d.reverse := by simp
  rw [specDirName, this, List.dropWhile_append_of_pos hb]
  simp

theorem GetDirName_eq_spec (p : CStr) : GetDirName p = .ok (specDirName p) := by
  by_cases h : SEP ∈ p
  · obtain ⟨d, b, hp, hb⟩ := exists_last_sep p h
    rw [hp, GetDirName_of_split d b hb, specDirName_split d b hb]
  · rw [GetDirName_of_noSep p h, specDirName_noSep p h]

/-! ## Lemmas on the link loop -/

theorem toSizeT_ofNat (n : Nat) (hn : n < 2 ^ 64) : toSizeT (n : Int) = n := by
  unfold toSizeT SIZE_BITS
  have : ((n : Int) % (2 ^ 64 : Int)) = (n : Int) := by
    apply Int.emod_eq_of_lt <;> omega
  rw [this]
  simp

theorem toPySsizeT_ofNat (n : Nat) (hn : n < 2 ^ 63) : toPySsizeT n = (n : Int) := by
  unfold toPySsizeT SIZE_BITS
  have h1 : n % 2 ^ 64 = n := Nat.mod_eq_of_lt (by omega)
  rw [h1, if_pos (by simpa using hn)]

theorem sys_readlink_some (h : Host) (c : CStr) (buf : List Byte) (bufsiz : Nat)
    (t : List Char) (hr : h.readlink c = some t) (ht : t.length ≤ bufsiz) :
    sys_readlink h c buf bufsiz = ((t.length : Int), t.map some ++ buf.drop t.length) := by
  simp [sys_readlink, hr, Nat.min_eq_left ht, List.take_of_length_le ht]

theorem cxString_FromStringAndSize_map (t : List Char) (rest : List Byte) :
    cxString_FromStringAndSize (t.map some ++ rest) (t.length : Int) = some t := by
  have h0 : ¬ ((t.length : Int) < 0) := by omega
  simp only [cxString_FromStringAndSize, h0, if_false, Int.toNat_ofNat]
  rw [List.take_append_of_le_length (by simp), List.take_of_length_le (by simp), List.map_map]
  have hid : ((fun b : Byte => b.getD NUL) ∘ some) = id := by
    funext c; rfl
  rw [hid, List.map_id]

theorem strncat_map (temp t : List Char) (rest : List Byte) :
    strncat temp (t.map some ++ rest) t.length = temp ++ t := by
  unfold strncat
  rw [List.take_append_of_le_length (by simp), List.take_of_length_le (by simp)]
  have h1 : (t.map some).takeWhile Option.isSome = t.map some := by
    rw [List.takeWhile_eq_self_iff]
    intro x hx
    obtain ⟨c, _, rfl⟩ := List.mem_map.mp hx
    rfl
  rw [h1, List.filterMap_map]
  simp

theorem head_map_append (t : List Char) (rest : List Byte) (ht : t ≠ []) :
    (t.map some ++ rest)[0]? = some (some '/') ↔ t.head? = some '/' := by
  cases t with
  | nil => exact absurd rfl ht
  | cons a l => simp

theorem follow_abs (h : Host) (c t : List Char) (rest : List Byte)
    (ht : t ≠ []) (habs : t.head? = some '/') (hl : t.length < 2 ^ 63) :
    SetExecutableName.follow h c (t.map some ++ rest) t.length = .ok t := by
  unfold SetExecutableName.follow
  rw [if_pos ((head_map_append t rest ht).mpr habs), toPySsizeT_ofNat _ hl,
    cxString_FromStringAndSize_map]

theorem follow_rel (h : Host) (c t : List Char) (rest : List Byte)
    (ht : t ≠ []) (hrel : t.head? ≠ some '/')
    (hl : (specDirName c).length + t.length + 1 < 2 ^ 64) :
    SetExecutableName.follow h c (t.map some ++ rest) t.length =
      if (specDirName c).length + t.length + 1 > h.MAXPATHLEN then
        .error "cannot dereference link, path too large"
      else .ok (specDirName c ++ '/' :: t) := by
  unfold SetExecutableName.follow
  rw [if_neg (fun e => hrel ((head_map_append t rest ht).mp e))]
  simp only [cxString_ToString, GetDirName_eq_spec, strlen, SIZE_BITS]
  rw [Nat.mod_eq_of_lt hl]
  split
  · rfl
  · simp [strncat_map, strcat, strcpy, cxString_FromString]

theorem follow_eq_joinLink (h : Host) (c t : List Char) (rest : List Byte)
    (ht : t ≠ []) (hlen : (joinLink c t).length ≤ h.MAXPATHLEN)
    (hmax : h.MAXPATHLEN + 1 < 2 ^ 63) :
    SetExecutableName.follow h c (t.map some ++ rest) t.length = .ok (joinLink c t) := by
  unfold joinLink
  unfold joinLink at hlen
  by_cases habs : t.head? = some '/'
  · rw [if_pos habs] at hlen
    rw [if_pos habs, follow_abs h c t rest ht habs (by omega)]
  · rw [if_neg habs] at hlen
    simp only [List.length_append, List.length_cons] at hlen
    rw [if_neg habs, follow_rel h c t rest ht habs (by omega), if_neg (by omega)]

theorem specDirName_length_le (p : List Char) : (specDirName p).length ≤ p.length := by
  unfold specDirName
  have h1 := (List.dropWhile_sublist (fun c => c != SEP) (l := p.reverse)).length_le
  simp only [List.length_reverse, List.length_drop] at *
  omega

theorem loop_link (h : Host) (n : Nat) (v : LoopVars) (t : List Char)
    (hs : h.lstat v.g_FileName = .link) (hr : h.readlink v.g_FileName = some t)
    (ht : t ≠ []) (hlen : (joinLink v.g_FileName t).length ≤ h.MAXPATHLEN)
    (hmax : h.MAXPATHLEN + 1 < 2 ^ 63) :
    SetExecutableName.loop h (n + 1) v =
      after [SysCall.lstat v.g_FileName, SysCall.readlink v.g_FileName]
        (SetExecutableName.loop h n
          { g_FileName := joinLink v.g_FileName t, fileName := v.g_FileName,
            linkData := t.map some ++ v.linkData.drop t.length, released := true }) := by
  have htl : t.length ≤ h.MAXPATHLEN + 1 := by
    unfold joinLink at hlen
    split at hlen
    · omega
    · simp only [List.length_append, List.length_cons] at hlen; omega
  rw [SetExecutableName.loop]
  simp only [cxString_ToString, hs, sys_readlink_some h _ _ _ t hr htl,
    toSizeT_ofNat t.length (by omega), Nat.not_lt_zero, if_false,
    follow_eq_joinLink h _ t _ ht hlen hmax]

theorem loop_notLink (h : Host) (n : Nat) (v : LoopVars)
    (hs : h.lstat v.g_FileName = .notLink) :
    SetExecutableName.loop h (n + 1) v =
      ([SysCall.lstat v.g_FileName],
        .ok { v with fileName := v.g_FileName, released := false }) := by
  rw [SetExecutableName.loop]
  simp only [cxString_ToString, hs]

theorem after_after {α : Type} (c1 c2 : List SysCall) (r : List SysCall × α) :
    after c1 (after c2 r) = after (c1 ++ c2) r := by
  simp [after]

theorem followLinks_lstat (h : Host) (k : Nat) (p q : CStr)
    (hf : followLinks h k p = some q) (hq : h.lstat q ≠ .error) : h.lstat p ≠ .error := by
  cases k with
  | zero =>
    simp only [followLinks, Option.some.injEq] at hf
    exact hf ▸ hq
  | succ k =>
    unfold followLinks at hf
    split at hf
    · next hl _ => rw [hl]; decide
    · exact absurd hf (by simp)

/-- Following `k` readable links takes the loop through `k` iterations. -/
theorem loop_followLinks (h : Host) (hp : h.Posix) (k : Nat) :
    ∀ (n : Nat) (v : LoopVars) (q : CStr), followLinks h k v.g_FileName = some q →
      h.lstat q ≠ .error →
      ∃ (calls : List SysCall) (v2 : LoopVars),
        SetExecutableName.loop h (k + n) v = after calls (SetExecutableName.loop h n v2) ∧
        v2.g_FileName = q ∧ (k = 0 → v2 = v) ∧ (1 ≤ k → v2.released = true) ∧
        calls.countP SysCall.isReadlink = k := by
  induction k with
  | zero =>
    intro n v q hf _
    simp only [followLinks, Option.some.injEq] at hf
    exact ⟨[], v, by simp [after], hf, fun _ => rfl, fun hk => absurd hk (by omega), rfl⟩
  | succ k ih =>
    intro n v q hf hq
    unfold followLinks at hf
    split at hf
    · next t hl hr =>
      have hnext := followLinks_lstat h k _ q hf hq
      have hlen := hp.lstat_length _ hnext
      have ht : t ≠ [] := fun e => hp.readlink_ne v.g_FileName (e ▸ hr)
      obtain ⟨calls, v2, hloop, hv2, hk0, hk1, hcount⟩ := ih n
        { g_FileName := joinLink v.g_FileName t, fileName := v.g_FileName,
          linkData := t.map some ++ v.linkData.drop t.length, released := true } q hf hq
      refine ⟨[SysCall.lstat v.g_FileName, SysCall.readlink v.g_FileName] ++ calls, v2, ?_,
        hv2, fun e => absurd e (by omega), fun _ => ?_, ?_⟩
      · have : k + 1 + n = (k + n) + 1 := by omega
        rw [this, loop_link h (k + n) v t hl hr ht hlen hp.maxpathlen, hloop, after_after]
      · cases k with
        | zero => rw [hk0 rfl]
        | succ k => exact hk1 (by omega)
      · simp only [List.countP_append, List.countP_cons, List.countP_nil, SysCall.isReadlink,
          hcount, if_true, if_false, Bool.false_eq_true]
        omega
    · exact absurd hf (by simp)

theorem derive_ok (v : LoopVars) :
    SetExecutableName.derive v = .ok
      { g_FileName := v.g_FileName
        g_DirName := specDirName v.fileName
        g_ExclusiveZipFileName := exclusiveZip v.fileName
        g_SharedZipFileName := sharedZip (specDirName v.fileName) } := by
  simp [SetExecutableName.derive, GetDirName_eq_spec]

theorem SetExecutableName_of_loop (h : Host) (P : CStr) (calls : List SysCall) (v : LoopVars)
    (hl : SetExecutableName.loop h 25
      { g_FileName := P, fileName := P, linkData := h.stack } = (calls, .ok v))
    (hv : v.released = false) :
    SetExecutableName h P = (calls, .ok
      { g_FileName := v.g_FileName
        g_DirName := specDirName v.fileName
        g_ExclusiveZipFileName := exclusiveZip v.fileName
        g_SharedZipFileName := sharedZip (specDirName v.fileName) }) := by
  simp [SetExecutableName, cxString_FromString, hl, hv, derive_ok]

/-- A loop that ends with `fileName` released leaves `SetExecutableName`
without a defined result. -/
theorem SetExecutableName_of_released (h : Host) (P : CStr) (calls : List SysCall)
    (v : LoopVars)
    (hl : SetExecutableName.loop h 25
      { g_FileName := P, fileName := P, linkData := h.stack } = (calls, .ok v))
    (hv : v.released = true) :
    SetExecutableName h P = (calls, .undefined) := by
  simp [SetExecutableName, cxString_FromString, hl, hv]

/-- When the loop hands on a `fileName` that may be read, it is the text of
`g_FileName`. -/
theorem loop_fileName (h : Host) (n : Nat) :
    ∀ (v v2 : LoopVars) (calls : List SysCall),
      SetExecutableName.loop h n v = (calls, .ok v2) →
      (v.released = false → v.fileName = v.g_FileName) →
      v2.released = false → v2.fileName = v2.g_FileName := by
  induction n with
  | zero =>
    intro v v2 calls hl hv hr
    simp only [SetExecutableName.loop, Prod.mk.injEq, Except.ok.injEq] at hl
    rw [← hl.2] at hr ⊢
    exact hv hr
  | succ n ih =>
    intro v v2 calls hl hv hr
    rw [SetExecutableName.loop] at hl
    simp only [Nat.not_lt_zero, if_false] at hl
    split at hl
    · simp at hl
    · simp only [Prod.mk.injEq, Except.ok.injEq] at hl
      rw [← hl.2]
      rfl
    · split at hl
      · simp at hl
      · simp only [after, Prod.mk.injEq] at hl
        exact ih _ v2 _ (Prod.ext rfl hl.2) (fun hf => absurd hf (by simp)) hr

/-- A chain of at most 24 readable links that ends in a path that is not a
link: the loop leaves by `break` with `fileName` and `g_FileName` at that
path. -/
theorem SetExecutableName_of_break (h : Host) (hp : h.Posix) (P q : CStr) (k : Nat)
    (hk : k ≤ 24) (hf : followLinks h k P = some q) (hq : h.lstat q = .notLink) :
    ∃ calls, SetExecutableName h P = (calls, .ok
      { g_FileName := q
        g_DirName := specDirName q
        g_ExclusiveZipFileName := exclusiveZip q
        g_SharedZipFileName := sharedZip (specDirName q) }) := by
  obtain ⟨n, hn⟩ : ∃ n, 25 = k + (n + 1) := ⟨24 - k, by omega⟩
  have hq2 : h.lstat q ≠ .error := by rw [hq]; decide
  obtain ⟨calls, v2, hloop, hv2, _, _⟩ := loop_followLinks h hp k (n + 1)
    { g_FileName := P, fileName := P, linkData := h.stack } q hf hq2
  have hl : SetExecutableName.loop h 25
      { g_FileName := P, fileName := P, linkData := h.stack } =
      (calls ++ [SysCall.lstat v2.g_FileName],
        .ok { v2 with fileName := v2.g_FileName, released := false }) := by
    rw [hn, hloop, loop_notLink h n v2 (hv2 ▸ hq)]
    rfl
  have hS := SetExecutableName_of_loop h P _ _ hl rfl
  simp only [hv2] at hS
  exact ⟨_, hS⟩

/-- A chain of 25 readable links: the loop ends because `i` reached 25, with
`g_FileName` at the path reached and `fileName` released, and
`SetExecutableName` has no defined result. -/
theorem SetExecutableName_exhausted (h : Host) (hp : h.Posix) (P q : CStr)
    (hf : followLinks h 25 P = some q) (hq : h.lstat q ≠ .error) :
    ∃ calls v, SetExecutableName.loop h 25
        { g_FileName := P, fileName := P, linkData := h.stack } = (calls, .ok v) ∧
      v.g_FileName = q ∧ v.released = true ∧
      calls.countP SysCall.isReadlink = 25 ∧
      SetExecutableName h P = (calls, .undefined) := by
  obtain ⟨calls, v2, hloop, hv2, _, hrel, hcount⟩ := loop_followLinks h hp 25 0
    { g_FileName := P, fileName := P, linkData := h.stack } q hf hq
  have hl : SetExecutableName.loop h 25
      { g_FileName := P, fileName := P, linkData := h.stack } = (calls ++ [], .ok v2) := by
    rw [show (25 : Nat) = 25 + 0 from rfl, hloop]; rfl
  exact ⟨_, v2, hl, hv2, hrel (by decide), by simpa using hcount,
    SetExecutableName_of_released h P _ v2 hl (hrel (by decide))⟩

/-- The names of every run of `SetExecutableName` that has a result are
derived from the `FILE_NAME` it stores. -/
theorem SetExecutableName_ok_names (h : Host) (P : CStr) (g : Names)
    (hS : (SetExecutableName h P).2 = .ok g) :
    g.g_DirName = specDirName g.g_FileName ∧
    g.g_ExclusiveZipFileName = exclusiveZip g.g_FileName ∧
    g.g_SharedZipFileName = sharedZip g.g_DirName := by
  rcases hl : SetExecutableName.loop h 25
    { g_FileName := P, fileName := P, linkData := h.stack } with ⟨calls, e | v⟩
  · simp [SetExecutableName, cxString_FromString, hl] at hS
  · cases hr : v.released with
    | true => simp [SetExecutableName, cxString_FromString, hl, hr] at hS
    | false =>
      have hfile := loop_fileName h 25 _ v calls hl (fun _ => rfl) hr
      simp only [SetExecutableName, cxString_FromString, hl, hr, derive_ok, Bool.false_eq_true,
        if_false, Result.ok.injEq] at hS
      subst hS
      simp [hfile]

/-! ## Lemmas on the archive names -/

theorem exclusiveZip_scan_none (p : CStr) (h1 : SEP ∉ p) (h2 : '.' ∉ p) (i : Nat) :
    exclusiveZip.scan p i = 0 := by
  induction i with
  | zero => rfl
  | succ n ih =>
    unfold exclusiveZip.scan
    have a1 : p[n + 1]? ≠ some SEP := fun hc => h1 (List.getElem?_mem hc)
    have a2 : p[n + 1]? ≠ some '.' := fun hc => h2 (List.getElem?_mem hc)
    rw [if_pos ⟨a1, a2⟩, ih]

theorem exclusiveZip_scan_split (d e : List Char) (x : Char) (hx : x = SEP ∨ x = '.')
    (h1 : SEP ∉ e) (h2 : '.' ∉ e) (k : Nat) :
    exclusiveZip.scan (d ++ x :: e) (d.length + k) = d.length := by
  induction k with
  | zero =>
    cases hd : d.length with
    | zero => simp [exclusiveZip.scan]
    | succ n =>
      have hget : (d ++ x :: e)[n + 1]? = some x := by
        rw [← hd, List.getElem?_append_right (Nat.le_refl _)]; simp
      have : ¬ ((d ++ x :: e)[n + 1]? ≠ some SEP ∧ (d ++ x :: e)[n + 1]? ≠ some '.') := by
        rw [hget]
        rcases hx with rfl | rfl <;> simp
      simp only [Nat.add_zero, exclusiveZip.scan, if_neg this]
  | succ k ih =>
    have hget : (d ++ x :: e)[d.length + k + 1]? = e[k]? := by
      rw [List.getElem?_append_right (by omega)]
      have : d.length + k + 1 - d.length = k + 1 := by omega
      rw [this, List.getElem?_cons_succ]
    have a1 : (d ++ x :: e)[d.length + k + 1]? ≠ some SEP := by
      rw [hget]; exact fun hc => h1 (List.getElem?_mem hc)
    have a2 : (d ++ x :: e)[d.length + k + 1]? ≠ some '.' := by
      rw [hget]; exact fun hc => h2 (List.getElem?_mem hc)
    rw [← Nat.add_assoc]
    unfold exclusiveZip.scan
    rw [if_pos ⟨a1, a2⟩]
    exact ih

theorem exclusiveZip_split (d e : List Char) (x : Char) (hx : x = SEP ∨ x = '.')
    (h1 : SEP ∉ e) (h2 : '.' ∉ e) :
    exclusiveZip (d ++ x :: e) =
      (if x = '.' then d else d ++ x :: e) ++ ".zip".toList := by
  have hlen : strlen (strcpy (d ++ x :: e)) - 1 = d.length + e.length := by
    simp [strlen, strcpy]
  have hget : (d ++ x :: e)[d.length]? = some x := by
    rw [List.getElem?_append_right (Nat.le_refl _)]; simp
  unfold exclusiveZip
  simp only [hlen]
  simp only [strcpy, exclusiveZip_scan_split d e x hx h1 h2, hget, Option.some.injEq,
    cxString_FromString, strcat]
  split <;> simp

theorem exclusiveZip_none (p : List Char) (h1 : SEP ∉ p) (h2 : '.' ∉ p) :
    exclusiveZip p = p ++ ".zip".toList := by
  unfold exclusiveZip
  simp only [strcpy, exclusiveZip_scan_none p h1 h2, cxString_FromString, strcat]
  have : p[0]? ≠ some '.' := fun hc => h2 (List.getElem?_mem hc)
  rw [if_neg this]

theorem exists_last_stop (p : List Char) (h : SEP ∈ p ∨ '.' ∈ p) :
    ∃ (d : List Char) (x : Char) (e : List Char), p = d ++ x :: e ∧ (x = SEP ∨ x = '.') ∧
      SEP ∉ e ∧ '.' ∉ e := by
  induction p with
  | nil => simp at h
  | cons a l ih =>
    by_cases hl : SEP ∈ l ∨ '.' ∈ l
    · obtain ⟨d, x, e, hp, hx, h1, h2⟩ := ih hl
      exact ⟨a :: d, x, e, by rw [hp]; rfl, hx, h1, h2⟩
    · have hl1 : SEP ∉ l := fun m => hl (Or.inl m)
      have hl2 : '.' ∉ l := fun m => hl (Or.inr m)
      refine ⟨[], a, l, rfl, ?_, hl1, hl2⟩
      rcases h with h | h
      · rcases List.mem_cons.mp h with e | m
        · exact Or.inl e.symm
        · exact absurd m hl1
      · rcases List.mem_cons.mp h with e | m
        · exact Or.inr e.symm
        · exact absurd m hl2

theorem specStripExtension_dot (d e : List Char) (h1 : SEP ∉ e) (h2 : '.' ∉ e) :
    specStripExtension (d ++ '.' :: e) = d := by
  have hr : (d ++ '.' :: e).reverse = e.reverse ++ '.' :: d.reverse := by simp
  have p1 : ∀ a ∈ e.reverse, (fun c => c != SEP) a = true := by
    intro a ha
    have : a ≠ SEP := fun q => h1 (q ▸ List.mem_reverse.mp ha)
    simpa using this
  have p2 : ∀ a ∈ e.reverse, (fun c => c != '.') a = true := by
    intro a ha
    have : a ≠ '.' := fun q => h2 (q ▸ List.mem_reverse.mp ha)
    simpa using this
  have hdot : ('.' != SEP) = true := by decide
  unfold specStripExtension
  simp only [hr, List.takeWhile_append_of_pos p1, List.dropWhile_append_of_pos p2]
  have hmem : '.' ∈ (e.reverse ++ List.takeWhile (fun c => c != SEP) ('.' :: d.reverse)).reverse := by
    rw [List.takeWhile_cons, hdot]
    simp
  rw [if_pos hmem]
  simp

theorem specStripExtension_sep (d e : List Char) (h1 : SEP ∉ e) (h2 : '.' ∉ e) :
    specStripExtension (d ++ SEP :: e) = d ++ SEP :: e := by
  have hr : (d ++ SEP :: e).reverse = e.reverse ++ SEP :: d.reverse := by simp
  have p1 : ∀ a ∈ e.reverse, (fun c => c != SEP) a = true := by
    intro a ha
    have : a ≠ SEP := fun q => h1 (q ▸ List.mem_reverse.mp ha)
    simpa using this
  unfold specStripExtension
  simp only [hr, List.takeWhile_append_of_pos p1]
  have hnil : List.takeWhile (fun c => c != SEP) (SEP :: d.reverse) = [] := by
    rw [List.takeWhile_cons]; simp
  rw [hnil, if_neg (by simpa using h2)]

theorem specStripExtension_none (p : List Char) (h2 : '.' ∉ p) :
    specStripExtension p = p := by
  unfold specStripExtension
  have : '.' ∉ (p.reverse.takeWhile (fun c => c != SEP)).reverse := by
    intro m
    exact h2 (List.mem_reverse.mp ((List.takeWhile_sublist _).subset (List.mem_reverse.mp m)))
  simp only [if_neg this]

theorem exclusiveZip_eq_spec (p : List Char) :
    exclusiveZip p = specStripExtension p ++ ".zip".toList := by
  by_cases h : SEP ∈ p ∨ '.' ∈ p
  · obtain ⟨d, x, e, hp, hx, h1, h2⟩ := exists_last_stop p h
    subst hp
    rw [exclusiveZip_split d e x hx h1 h2]
    rcases hx with rfl | rfl
    · rw [if_neg (by decide), specStripExtension_sep d e h1 h2]
    · rw [if_pos rfl, specStripExtension_dot d e h1 h2]
  · have h1 : SEP ∉ p := fun m => h (Or.inl m)
    have h2 : '.' ∉ p := fun m => h (Or.inr m)
    rw [exclusiveZip_none p h1 h2, specStripExtension_none p h2]

theorem specDirName_append_noSep (d x : List Char) (hx : SEP ∉ x) :
    specDirName (d ++ x) = specDirName d := by
  have p1 : ∀ a ∈ x.reverse, (fun c => c != SEP) a = true := by
    intro a ha
    have : a ≠ SEP := fun q => hx (q ▸ List.mem_reverse.mp ha)
    simpa using this
  unfold specDirName
  rw [List.reverse_append, List.dropWhile_append_of_pos p1]

/-- The exclusive zip file name keeps everything up to the last separator. -/
theorem exclusiveZip_form (p : List Char) :
    ∃ q x : List Char, p = q ++ x ∧ SEP ∉ x ∧ exclusiveZip p = q ++ ".zip".toList := by
  by_cases h : SEP ∈ p ∨ '.' ∈ p
  · obtain ⟨d, x, e, hp, hx, h1, h2⟩ := exists_last_stop p h
    subst hp
    rcases hx with rfl | rfl
    · exact ⟨d ++ SEP :: e, [], by simp, by simp,
        by rw [exclusiveZip_split d e SEP (Or.inl rfl) h1 h2, if_neg (by decide)]⟩
    · refine ⟨d, '.' :: e, rfl, ?_, by
        rw [exclusiveZip_split d e '.' (Or.inr rfl) h1 h2, if_pos rfl]⟩
      intro m
      rcases List.mem_cons.mp m with q | m
      · exact absurd q (by decide)
      · exact h1 m
  · have h1 : SEP ∉ p := fun m => h (Or.inl m)
    have h2 : '.' ∉ p := fun m => h (Or.inr m)
    exact ⟨p, [], by simp, by simp, exclusiveZip_none p h1 h2⟩

theorem specDirName_exclusiveZip (p : List Char) :
    specDirName (exclusiveZip p) = specDirName p := by
  obtain ⟨q, x, hp, hx, he⟩ := exclusiveZip_form p
  rw [he, specDirName_append_noSep q _ (by decide)]
  conv_rhs => rw [hp, specDirName_append_noSep q x hx]

theorem specDirName_sharedZip (d : List Char) : specDirName (sharedZip d) = d := by
  unfold sharedZip
  simp only [cxString_FromString, cxString_ToString, strcpy]
  exact specDirName_split d _ (by decide)

theorem SetExecutableName_notLink (h : Host) (p : CStr) (hs : h.lstat p = .notLink) :
    SetExecutableName h p = ([SysCall.lstat p], .ok
      { g_FileName := p
        g_DirName := specDirName p
        g_ExclusiveZipFileName := exclusiveZip p
        g_SharedZipFileName := sharedZip (specDirName p) }) :=
  SetExecutableName_of_loop h p _ _ (loop_notLink h 24 _ hs) rfl

/-! ## Lemmas on `ExecuteScript` -/

theorem SetPathToSearch_calls (it : Interp) (g : Names) (s : PyState) :
    ∃ extra : List PyCall, (SetPathToSearch it g s).2.calls = s.calls ++ extra ∧
      (∀ c ∈ extra, c.stage = 1) ∧
      (SetPathToSearch it g s).2.g_InitScriptZipFileName = s.g_InitScriptZipFileName := by
  cases hp : s.sysPath <;> cases h0 : it.insertOk 0 <;> cases h1 : it.insertOk 1 <;>
    cases h2 : it.insertOk 2 <;> cases h3 : it.insertOk 3 <;>
    simp [SetPathToSearch, SetPathToSearch.insert, PyState.call, hp, h0, h1, h2, h3,
      PyCall.stage]

theorem GetImporter_calls (it : Interp) (g : Names) (s : PyState) :
    ∃ extra : List PyCall, (GetImporter it g s).2.calls = s.calls ++ extra ∧
      (∀ c ∈ extra, c.stage = 2) ∧ (GetImporter it g s).2.sysPath = s.sysPath := by
  cases hi : it.importOk "zipimport" <;> cases hf : it.zipimporter g.g_FileName <;>
    cases he : it.zipimporter g.g_ExclusiveZipFileName <;>
    cases hs : it.zipimporter g.g_SharedZipFileName <;>
    simp [GetImporter, GetImporterHelper, PyState.call, hi, hf, he, hs, PyCall.stage]

theorem PopulateInitScriptDict_set_calls (rt : Runtime) (key : String) (item : PyVal)
    (msg : String) (dict : Dict) (s : PyState) :
    (PopulateInitScriptDict.set rt key item msg dict s).2 = s.call (.dictSetItem key item) := by
  unfold PopulateInitScriptDict.set
  split <;> rfl

theorem PopulateInitScriptDict_calls (rt : Runtime) (g : Names) (dict : Option Dict)
    (s : PyState) :
    ∃ extra : List PyCall, (PopulateInitScriptDict rt g dict s).2.calls = s.calls ++ extra ∧
      (∀ c ∈ extra, c.stage = 3) ∧
      (PopulateInitScriptDict rt g dict s).2.sysPath = s.sysPath := by
  cases dict with
  | none => exact ⟨[], by simp [PopulateInitScriptDict], by simp, rfl⟩
  | some d =>
    cases h0 : rt.setItemOk "__builtins__" <;> cases h1 : rt.setItemOk "FILE_NAME" <;>
      cases h2 : rt.setItemOk "DIR_NAME" <;>
      cases h3 : rt.setItemOk "EXCLUSIVE_ZIP_FILE_NAME" <;>
      cases h4 : rt.setItemOk "SHARED_ZIP_FILE_NAME" <;>
      cases h5 : rt.setItemOk "INITSCRIPT_ZIP_FILE_NAME" <;>
      simp [PopulateInitScriptDict, PopulateInitScriptDict.set, PyState.call, h0, h1, h2, h3,
        h4, h5, PyCall.stage]

/-- The ways through `ExecuteScript`: no defined behaviour in
`SetExecutableName`, the first step that fails, or none. -/
theorem ExecuteScript_cases (h : Host) (rt : Runtime) (fileName : CStr)
    (sysPath : Option (List PyStr)) :
    (∃ sc, SetExecutableName h fileName = (sc, .undefined) ∧
      ExecuteScript h rt fileName sysPath =
        { sysCalls := sc, state := PyState.initial sysPath, outcome := .undefined }) ∨
    (∃ sc e, SetExecutableName h fileName = (sc, .error e) ∧
      ExecuteScript h rt fileName sysPath =
        { sysCalls := sc, state := PyState.initial sysPath, outcome := .fatal e }) ∨
    (∃ sc g e s1, SetExecutableName h fileName = (sc, .ok g) ∧
      SetPathToSearch rt.toInterp g (PyState.initial sysPath) = (.error e, s1) ∧
      ExecuteScript h rt fileName sysPath =
        { sysCalls := sc, state := s1, outcome := .fatal e }) ∨
    (∃ sc g s1 e s2, SetExecutableName h fileName = (sc, .ok g) ∧
      SetPathToSearch rt.toInterp g (PyState.initial sysPath) = (.ok (), s1) ∧
      GetImporter rt.toInterp g s1 = (.error e, s2) ∧
      ExecuteScript h rt fileName sysPath =
        { sysCalls := sc, state := s2, outcome := .fatal e }) ∨
    (∃ sc g s1 importer s2 e s3, SetExecutableName h fileName = (sc, .ok g) ∧
      SetPathToSearch rt.toInterp g (PyState.initial sysPath) = (.ok (), s1) ∧
      GetImporter rt.toInterp g s1 = (.ok importer, s2) ∧
      PopulateInitScriptDict rt g (PyDict_New rt s2).1 (PyDict_New rt s2).2 = (.error e, s3) ∧
      ExecuteScript h rt fileName sysPath =
        { sysCalls := sc, state := s3, outcome := .fatal e }) ∨
    (∃ sc g s1 importer s2 dict s3, SetExecutableName h fileName = (sc, .ok g) ∧
      SetPathToSearch rt.toInterp g (PyState.initial sysPath) = (.ok (), s1) ∧
      GetImporter rt.toInterp g s1 = (.ok importer, s2) ∧
      PopulateInitScriptDict rt g (PyDict_New rt s2).1 (PyDict_New rt s2).2 = (.ok dict, s3) ∧
      ((rt.get_code importer "cx_Freeze__init__" = none ∧
        ExecuteScript h rt fileName sysPath =
          { sysCalls := sc, state := s3.call (.get_code importer "cx_Freeze__init__"),
            outcome := .fatal "unable to locate initialization module" }) ∨
       (∃ code, rt.get_code importer "cx_Freeze__init__" = some code ∧
        ((∃ e, rt.evalCode code dict dict = some e ∧
          ExecuteScript h rt fileName sysPath =
            { sysCalls := sc,
              state :=
                { (s3.call (.get_code importer "cx_Freeze__init__")).call
                    (.evalCode code dict dict) with
                  sysPath := rt.scriptSysPath code dict s3.sysPath },
              outcome := .scriptError e }) ∨
         (rt.evalCode code dict dict = none ∧
          ExecuteScript h rt fileName sysPath =
            { sysCalls := sc,
              state :=
                { (s3.call (.get_code importer "cx_Freeze__init__")).call
                    (.evalCode code dict dict) with
                  sysPath := rt.scriptSysPath code dict s3.sysPath },
              outcome := .ok }))))) := by
  rcases hS : SetExecutableName h fileName with ⟨sc, g | e | _⟩
  rotate_left
  · right
    left
    exact ⟨sc, e, rfl, by simp [ExecuteScript, hS, PyState.initial]⟩
  · left
    exact ⟨sc, rfl, by simp [ExecuteScript, hS, PyState.initial]⟩
  right
  right
  rcases hP : SetPathToSearch rt.toInterp g (PyState.initial sysPath) with ⟨e | u, s1⟩
  · left
    have hP2 := hP
    simp only [PyState.initial] at hP2
    exact ⟨sc, g, e, s1, rfl, hP, by simp [ExecuteScript, hS, hP2]⟩
  right
  have hP2 := hP
  simp only [PyState.initial] at hP2
  rcases hG : GetImporter rt.toInterp g s1 with ⟨e | importer, s2⟩
  · left
    exact ⟨sc, g, s1, e, s2, rfl, hP, hG, by simp [ExecuteScript, hS, hP2, hG]⟩
  right
  rcases hD : PopulateInitScriptDict rt g (PyDict_New rt s2).1 (PyDict_New rt s2).2
    with ⟨e | dict, s3⟩
  · left
    exact ⟨sc, g, s1, importer, s2, e, s3, rfl, hP, hG, hD, by
      simp [ExecuteScript, hS, hP2, hG, hD]⟩
  right
  refine ⟨sc, g, s1, importer, s2, dict, s3, rfl, hP, hG, hD, ?_⟩
  cases hc : rt.get_code importer "cx_Freeze__init__" with
  | none =>
    left
    exact ⟨rfl, by simp [ExecuteScript, hS, hP2, hG, hD, hc]⟩
  | some code =>
    right
    refine ⟨code, rfl, ?_⟩
    cases he : rt.evalCode code dict dict with
    | some e =>
      left
      exact ⟨e, rfl, by simp [ExecuteScript, hS, hP2, hG, hD, hc, he, PyState.call]⟩
    | none =>
      right
      exact ⟨rfl, by simp [ExecuteScript, hS, hP2, hG, hD, hc, he, PyState.call]⟩

theorem GetImporter_ok_cases (it : Interp) (g : Names) (s s2 : PyState) (importer : Loader)
    (hG : GetImporter it g s = (.ok importer, s2)) :
    (it.zipimporter g.g_FileName = some importer ∧
      s2.g_InitScriptZipFileName = some g.g_FileName) ∨
    (it.zipimporter g.g_FileName = none ∧
      it.zipimporter g.g_ExclusiveZipFileName = some importer ∧
      s2.g_InitScriptZipFileName = some g.g_ExclusiveZipFileName) ∨
    (it.zipimporter g.g_FileName = none ∧ it.zipimporter g.g_ExclusiveZipFileName = none ∧
      it.zipimporter g.g_SharedZipFileName = some importer ∧
      s2.g_InitScriptZipFileName = some g.g_SharedZipFileName) := by
  cases hi : it.importOk "zipimport" <;> cases hf : it.zipimporter g.g_FileName <;>
    cases he : it.zipimporter g.g_ExclusiveZipFileName <;>
    cases hs : it.zipimporter g.g_SharedZipFileName <;>
    simp [GetImporter, GetImporterHelper, PyState.call, hi, hf, he, hs] at hG ⊢ <;>
    (obtain ⟨h1, h2⟩ := hG; subst h2; simp [h1])

theorem GetImporter_none (it : Interp) (g : Names) (s : PyState)
    (hi : it.importOk "zipimport" = true) (hf : it.zipimporter g.g_FileName = none)
    (he : it.zipimporter g.g_ExclusiveZipFileName = none)
    (hs : it.zipimporter g.g_SharedZipFileName = none) :
    (GetImporter it g s).1 = .error "cannot get zipimporter instance" := by
  simp [GetImporter, GetImporterHelper, hi, hf, he, hs]

theorem GetImporter_error_of_none (it : Interp) (g : Names) (s : PyState)
    (hf : it.zipimporter g.g_FileName = none)
    (he : it.zipimporter g.g_ExclusiveZipFileName = none)
    (hs : it.zipimporter g.g_SharedZipFileName = none) :
    ∃ e, (GetImporter it g s).1 = .error e := by
  cases hi : it.importOk "zipimport" <;>
    simp [GetImporter, GetImporterHelper, hi, hf, he, hs]

/-- When `GetImporter` is reached and fails, the calls of the run belong to
`SetPathToSearch` and `GetImporter`. -/
theorem ExecuteScript_GetImporter_error (h : Host) (rt : Runtime) (fileName : CStr)
    (sysPath : Option (List PyStr)) (sc : List SysCall) (g : Names) (s1 s2 : PyState)
    (e : String) (hS : SetExecutableName h fileName = (sc, .ok g))
    (hP : SetPathToSearch rt.toInterp g (PyState.initial sysPath) = (.ok (), s1))
    (hG : GetImporter rt.toInterp g s1 = (.error e, s2)) :
    ExecuteScript h rt fileName sysPath = { sysCalls := sc, state := s2, outcome := .fatal e } ∧
    ∀ c ∈ s2.calls, c.stage ≤ 2 := by
  simp only [PyState.initial] at hP
  refine ⟨by simp [ExecuteScript, hS, hP, hG], ?_⟩
  obtain ⟨x1, hx1, hx1s, _⟩ := SetPathToSearch_calls rt.toInterp g (PyState.initial sysPath)
  obtain ⟨x2, hx2, hx2s, _⟩ := GetImporter_calls rt.toInterp g s1
  simp only [PyState.initial] at hx1
  rw [hP] at hx1
  rw [hG] at hx2
  simp only at hx1 hx2
  rw [hx2, hx1]
  intro c hc
  simp only [List.nil_append, List.mem_append] at hc
  rcases hc with hc | hc
  · have := hx1s c hc; omega
  · have := hx2s c hc; omega

theorem ExecuteScript_SetPathToSearch_error (h : Host) (rt : Runtime) (fileName : CStr)
    (sysPath : Option (List PyStr)) (sc : List SysCall) (g : Names) (s1 : PyState)
    (e : String) (hS : SetExecutableName h fileName = (sc, .ok g))
    (hP : SetPathToSearch rt.toInterp g (PyState.initial sysPath) = (.error e, s1)) :
    ExecuteScript h rt fileName sysPath = { sysCalls := sc, state := s1, outcome := .fatal e } ∧
    ∀ c ∈ s1.calls, c.stage ≤ 1 := by
  simp only [PyState.initial] at hP
  refine ⟨by simp [ExecuteScript, hS, hP], ?_⟩
  obtain ⟨x1, hx1, hx1s, _⟩ := SetPathToSearch_calls rt.toInterp g (PyState.initial sysPath)
  simp only [PyState.initial] at hx1
  rw [hP] at hx1
  simp only at hx1
  rw [hx1]
  intro c hc
  simp only [List.nil_append] at hc
  have := hx1s c hc; omega

theorem ExecuteScript_SetExecutableName_error (h : Host) (rt : Runtime) (fileName : CStr)
    (sysPath : Option (List PyStr)) (sc : List SysCall) (e : String)
    (hS : SetExecutableName h fileName = (sc, .error e)) :
    ExecuteScript h rt fileName sysPath =
      { sysCalls := sc, state := PyState.initial sysPath, outcome := .fatal e } := by
  simp [ExecuteScript, hS, PyState.initial]

theorem ExecuteScript_Populate_error (h : Host) (rt : Runtime) (fileName : CStr)
    (sysPath : Option (List PyStr)) (sc : List SysCall) (g : Names) (s1 s2 s3 : PyState)
    (importer : Loader) (e : String) (hS : SetExecutableName h fileName = (sc, .ok g))
    (hP : SetPathToSearch rt.toInterp g (PyState.initial sysPath) = (.ok (), s1))
    (hG : GetImporter rt.toInterp g s1 = (.ok importer, s2))
    (hD : PopulateInitScriptDict rt g (PyDict_New rt s2).1 (PyDict_New rt s2).2 =
      (.error e, s3)) :
    ExecuteScript h rt fileName sysPath = { sysCalls := sc, state := s3, outcome := .fatal e } ∧
    ∀ c ∈ s3.calls, c.stage ≤ 3 := by
  simp only [PyState.initial] at hP
  refine ⟨by simp [ExecuteScript, hS, hP, hG, hD], ?_⟩
  obtain ⟨x1, hx1, hx1s, _⟩ := SetPathToSearch_calls rt.toInterp g (PyState.initial sysPath)
  obtain ⟨x2, hx2, hx2s, _⟩ := GetImporter_calls rt.toInterp g s1
  obtain ⟨x3, hx3, hx3s, _⟩ :=
    PopulateInitScriptDict_calls rt g (PyDict_New rt s2).1 (PyDict_New rt s2).2
  simp only [PyState.initial] at hx1
  rw [hP] at hx1
  rw [hG] at hx2
  rw [hD] at hx3
  simp only [PyDict_New, PyState.call] at hx1 hx2 hx3
  rw [hx3, hx2, hx1]
  intro c hc
  simp only [List.nil_append, List.mem_append, List.mem_singleton] at hc
  rcases hc with ((hc | hc) | hc) | hc
  · have := hx1s c hc; omega
  · have := hx2s c hc; omega
  · rw [hc]; decide
  · have := hx3s c hc; omega

theorem Win32GUI_FatalError_eq (msg : String) :
    Win32GUI.FatalError msg =
      (.returned (-1), [{ text := msg.toList, caption := "cx_Freeze Fatal Error".toList }]) :=
  rfl

theorem calls_after_Populate (rt : Runtime) (sysPath : Option (List PyStr)) (g : Names)
    (s1 s2 s3 : PyState) (importer : Loader) (r : Except String Dict)
    (hP : SetPathToSearch rt.toInterp g (PyState.initial sysPath) = (.ok (), s1))
    (hG : GetImporter rt.toInterp g s1 = (.ok importer, s2))
    (hD : PopulateInitScriptDict rt g (PyDict_New rt s2).1 (PyDict_New rt s2).2 = (r, s3)) :
    (∀ c ∈ s3.calls, c.stage ≤ 3) ∧ PyCall.dictNew ∈ s3.calls := by
  obtain ⟨x1, hx1, hx1s, _⟩ := SetPathToSearch_calls rt.toInterp g (PyState.initial sysPath)
  obtain ⟨x2, hx2, hx2s, _⟩ := GetImporter_calls rt.toInterp g s1
  obtain ⟨x3, hx3, hx3s, _⟩ :=
    PopulateInitScriptDict_calls rt g (PyDict_New rt s2).1 (PyDict_New rt s2).2
  rw [hP] at hx1
  rw [hG] at hx2
  rw [hD] at hx3
  simp only [PyDict_New, PyState.call, PyState.initial] at hx1 hx2 hx3
  rw [hx3, hx2, hx1]
  refine ⟨fun c hc => ?_, by simp⟩
  simp only [List.nil_append, List.mem_append, List.mem_singleton] at hc
  rcases hc with ((hc | hc) | hc) | hc
  · have := hx1s c hc; omega
  · have := hx2s c hc; omega
  · rw [hc]; decide
  · have := hx3s c hc; omega

theorem PopulateInitScriptDict_ok (rt : Runtime) (g : Names) (s s3 : PyState) (dict : Dict)
    (hD : PopulateInitScriptDict rt g (PyDict_New rt s).1 (PyDict_New rt s).2 = (.ok dict, s3)) :
    dict = [("__builtins__", .builtins), ("FILE_NAME", .str g.g_FileName),
      ("DIR_NAME", .str g.g_DirName),
      ("EXCLUSIVE_ZIP_FILE_NAME", .str g.g_ExclusiveZipFileName),
      ("SHARED_ZIP_FILE_NAME", .str g.g_SharedZipFileName),
      ("INITSCRIPT_ZIP_FILE_NAME", PyVal.ofGlobal s.g_InitScriptZipFileName)] := by
  cases hn : rt.dictNewOk with
  | false => simp [PyDict_New, hn, PopulateInitScriptDict] at hD
  | true =>
    cases h0 : rt.setItemOk "__builtins__" <;> cases h1 : rt.setItemOk "FILE_NAME" <;>
      cases h2 : rt.setItemOk "DIR_NAME" <;>
      cases h3 : rt.setItemOk "EXCLUSIVE_ZIP_FILE_NAME" <;>
      cases h4 : rt.setItemOk "SHARED_ZIP_FILE_NAME" <;>
      cases h5 : rt.setItemOk "INITSCRIPT_ZIP_FILE_NAME" <;>
      simp [PyDict_New, hn, PopulateInitScriptDict, PopulateInitScriptDict.set, PyState.call,
        h0, h1, h2, h3, h4, h5, PyDict_SetItemString] at hD
    exact hD.1.symm

theorem FatalPythonErrorNoTraceback_returned (gui : Gui) (e : PyExc) (ctx : String) :
    (Win32GUI.FatalPythonErrorNoTraceback gui e ctx).1 = .returned (-1) := by
  unfold Win32GUI.FatalPythonErrorNoTraceback
  split <;> rfl

theorem FatalScriptError_returned (gui : Gui) (e : PyExc) (v : Int)
    (hv : (Win32GUI.FatalScriptError gui e).1 = .returned v) : v = -1 := by
  unfold Win32GUI.FatalScriptError at hv
  split at hv
  · unfold Win32GUI.HandleSystemExitException at hv
    simp only at hv
    split at hv
    · simp at hv
    · split at hv
      · simp at hv
      · split at hv
        · simpa [Win32GUI.FatalError] using hv.symm
        · simp at hv
  · have hfmt : (Win32GUI.FatalScriptError.format gui e).1 = .returned (-1) := by
      unfold Win32GUI.FatalScriptError.format
      split
      · exact FatalPythonErrorNoTraceback_returned _ _ _
      · split
        · exact FatalPythonErrorNoTraceback_returned _ _ _
        · split
          · exact FatalPythonErrorNoTraceback_returned _ _ _
          · split
            · exact FatalPythonErrorNoTraceback_returned _ _ _
            · rfl
    split at hv
    · split at hv
      · split at hv
        · simpa using hv.symm
        · rw [FatalPythonErrorNoTraceback_returned] at hv
          simpa using hv.symm
      · rw [hfmt] at hv
        simpa using hv.symm
    · rw [hfmt] at hv
      simpa using hv.symm

theorem ExecuteScript_ok_of_steps (h : Host) (rt : Runtime) (fileName : CStr)
    (sysPath : Option (List PyStr)) (g : Names) (s1 s2 s3 : PyState) (importer : Loader)
    (dict : Dict) (code : Code) (hS : (SetExecutableName h fileName).2 = .ok g)
    (hP : SetPathToSearch rt.toInterp g (PyState.initial sysPath) = (.ok (), s1))
    (hG : GetImporter rt.toInterp g s1 = (.ok importer, s2))
    (hD : PopulateInitScriptDict rt g (PyDict_New rt s2).1 (PyDict_New rt s2).2 =
      (.ok dict, s3))
    (hc : rt.get_code importer "cx_Freeze__init__" = some code)
    (he : rt.evalCode code dict dict = none) :
    (ExecuteScript h rt fileName sysPath).outcome = .ok := by
  rcases hS2 : SetExecutableName h fileName with ⟨sc, r⟩
  rw [hS2] at hS
  simp only at hS
  subst hS
  simp only [PyState.initial] at hP
  simp [ExecuteScript, hS2, hP, hG, hD, hc, he]

theorem ExecuteScript_ok_steps (h : Host) (rt : Runtime) (fileName : CStr)
    (sysPath : Option (List PyStr))
    (hok : (ExecuteScript h rt fileName sysPath).outcome = .ok) :
    ∃ (g : Names) (s1 s2 s3 : PyState) (importer : Loader) (dict : Dict) (code : Code),
      (SetExecutableName h fileName).2 = .ok g ∧
      SetPathToSearch rt.toInterp g (PyState.initial sysPath) = (.ok (), s1) ∧
      GetImporter rt.toInterp g s1 = (.ok importer, s2) ∧
      PopulateInitScriptDict rt g (PyDict_New rt s2).1 (PyDict_New rt s2).2 = (.ok dict, s3) ∧
      rt.get_code importer "cx_Freeze__init__" = some code ∧
      rt.evalCode code dict dict = none := by
  rcases ExecuteScript_cases h rt fileName sysPath with
    ⟨sc, hS, hrun⟩ |
    ⟨sc, e, hS, hrun⟩ | ⟨sc, g, e, s1, hS, hP, hrun⟩ | ⟨sc, g, s1, e, s2, hS, hP, hG, hrun⟩ |
    ⟨sc, g, s1, importer, s2, e, s3, hS, hP, hG, hD, hrun⟩ |
    ⟨sc, g, s1, importer, s2, dict, s3, hS, hP, hG, hD, hrest⟩
  · rw [hrun] at hok; simp at hok
  · rw [hrun] at hok; simp at hok
  · rw [hrun] at hok; simp at hok
  · rw [hrun] at hok; simp at hok
  · rw [hrun] at hok; simp at hok
  · rcases hrest with ⟨_, hrun⟩ | ⟨c2, hcode, ⟨e, _, hrun⟩ | ⟨he, _⟩⟩
    · rw [hrun] at hok; simp at hok
    · rw [hrun] at hok; simp at hok
    · exact ⟨g, s1, s2, s3, importer, dict, c2, by rw [hS], hP, hG, hD, hcode, he⟩

/-! ## Lemmas on the number of system calls -/

theorem loop_counts (h : Host) (n : Nat) :
    ∀ v : LoopVars,
      (SetExecutableName.loop h n v).1.countP SysCall.isReadlink ≤ n ∧
      (SetExecutableName.loop h n v).1.countP SysCall.isLstat ≤ n := by
  induction n with
  | zero => intro v; simp [SetExecutableName.loop]
  | succ n ih =>
    intro v
    rw [SetExecutableName.loop]
    simp only [Nat.not_lt_zero, if_false]
    split
    · simp [SysCall.isReadlink, SysCall.isLstat]
    · simp [SysCall.isReadlink, SysCall.isLstat]
    · split
      · simp [SysCall.isReadlink, SysCall.isLstat]
      · next g _ =>
        have := ih ⟨g, cxString_ToString v.g_FileName,
          (sys_readlink h (cxString_ToString v.g_FileName) v.linkData (h.MAXPATHLEN + 1)).2,
          true⟩
        simp only [after, List.countP_append, List.countP_cons, List.countP_nil,
          SysCall.isReadlink, SysCall.isLstat, if_true, if_false, Bool.false_eq_true]
        simp only [cxString_ToString] at this ⊢
        omega

theorem SetExecutableName_calls (h : Host) (fileName : CStr) :
    (SetExecutableName h fileName).1 =
      (SetExecutableName.loop h 25
        { g_FileName := cxString_FromString fileName, fileName := fileName,
          linkData := h.stack }).1 := by
  unfold SetExecutableName
  simp only
  split
  · rfl
  · split
    · rfl
    · split <;> rfl

/-! ## Lemmas on the handling of `SystemExit` -/

theorem HandleSystemExit_int (gui : Gui) (e : PyExc) (n : Int) (hse : e.isSystemExit = true)
    (hcode : gui.getattr e.value "code" = some (.int n)) :
    Win32GUI.FatalScriptError gui e = (.exited (PyInt_AsLong n), []) := by
  simp [Win32GUI.FatalScriptError, Win32GUI.HandleSystemExitException, hse, hcode]

theorem PyInt_AsLong_fits (n : Int) (hlo : -(2 ^ 31 : Int) ≤ n) (hhi : n < (2 ^ 31 : Int)) :
    PyInt_AsLong n = n := by
  unfold PyInt_AsLong LONG_BITS
  rw [if_pos ⟨by simpa using hlo, by simpa using hhi⟩]

theorem Win32GUI_ExecuteScript_scriptError (h : Host) (rt : Runtime) (gui : Gui)
    (fileName : CStr) (sysPath : Option (List PyStr)) (e : PyExc)
    (ho : (ExecuteScript h rt fileName sysPath).outcome = .scriptError e) :
    Win32GUI.ExecuteScript h rt gui fileName sysPath = Win32GUI.FatalScriptError gui e := by
  simp [Win32GUI.ExecuteScript, ho]

/-! ## Lemmas on the order of the recorded calls -/

theorem SetPathToSearch_lookup_count (it : Interp) (g : Names) (sysPath : Option (List PyStr)) :
    (SetPathToSearch it g (PyState.initial sysPath)).2.calls.countP PyCall.isSysPathLookup = 1 ∧
    (SetPathToSearch it g (PyState.initial sysPath)).2.calls.countP PyCall.isGetCode = 0 ∧
    ∀ c ∈ (SetPathToSearch it g (PyState.initial sysPath)).2.calls, c.stage = 1 := by
  cases hp : sysPath <;> cases h0 : it.insertOk 0 <;> cases h1 : it.insertOk 1 <;>
    cases h2 : it.insertOk 2 <;> cases h3 : it.insertOk 3 <;>
    simp [SetPathToSearch, SetPathToSearch.insert, PyState.call, PyState.initial, h0, h1, h2,
      h3, PyCall.stage, PyCall.isSysPathLookup, PyCall.isGetCode, List.countP_cons]

/-- After a successful `SetExecutableName` the calls of a run are those of the
one invocation of `SetPathToSearch`, followed by calls of the later steps. -/
theorem ExecuteScript_after_path (h : Host) (rt : Runtime) (fileName : CStr)
    (sysPath : Option (List PyStr)) (g : Names)
    (hS : (SetExecutableName h fileName).2 = .ok g) :
    ∃ post : List PyCall,
      (ExecuteScript h rt fileName sysPath).state.calls =
        (SetPathToSearch rt.toInterp g (PyState.initial sysPath)).2.calls ++ post ∧
      (∀ c ∈ post, 2 ≤ c.stage) ∧
      (post.countP PyCall.isGetCode ≤ 1) := by
  have stage_count : ∀ (l : List PyCall) (k : Nat), k ≠ 4 → (∀ c ∈ l, c.stage = k) →
      l.countP PyCall.isGetCode = 0 := by
    intro l k hk hl
    rw [List.countP_eq_zero]
    intro c hc hg
    have := hl c hc
    cases c <;> simp [PyCall.isGetCode, PyCall.stage] at hg this
    exact hk this.symm
  rcases ExecuteScript_cases h rt fileName sysPath with
    ⟨sc, hS2, hrun⟩ |
    ⟨sc, e, hS2, hrun⟩ | ⟨sc, g2, e, s1, hS2, hP, hrun⟩ |
    ⟨sc, g2, s1, e, s2, hS2, hP, hG, hrun⟩ |
    ⟨sc, g2, s1, importer, s2, e, s3, hS2, hP, hG, hD, hrun⟩ |
    ⟨sc, g2, s1, importer, s2, dict, s3, hS2, hP, hG, hD, hrest⟩
  · rw [hS2] at hS; simp at hS
  · rw [hS2] at hS; simp at hS
  all_goals
    have hg : g2 = g := by rw [hS2] at hS; simpa using hS
    subst hg
  · rw [hrun, hP]
    exact ⟨[], by simp, by simp, by simp⟩
  · obtain ⟨x2, hx2, hx2s, hx2p⟩ := GetImporter_calls rt.toInterp g2 s1
    rw [hG] at hx2 hx2p
    simp only at hx2 hx2p
    rw [hrun, hP]
    refine ⟨x2, hx2, fun c hc => by rw [hx2s c hc], ?_⟩
    rw [stage_count x2 2 (by decide) hx2s]; exact Nat.zero_le _
  all_goals
    obtain ⟨x2, hx2, hx2s, hx2p⟩ := GetImporter_calls rt.toInterp g2 s1
    obtain ⟨x3, hx3, hx3s, hx3p⟩ :=
      PopulateInitScriptDict_calls rt g2 (PyDict_New rt s2).1 (PyDict_New rt s2).2
    rw [hG] at hx2 hx2p
    rw [hD] at hx3 hx3p
    simp only [PyDict_New, PyState.call] at hx2 hx2p hx3 hx3p
    have c2 := stage_count x2 2 (by decide) hx2s
    have c3 := stage_count x3 3 (by decide) hx3s
    have hpost : ∀ c ∈ x2 ++ [PyCall.dictNew] ++ x3, 2 ≤ c.stage := by
      intro c hc
      simp only [List.mem_append, List.mem_singleton] at hc
      rcases hc with (hc | hc) | hc
      · rw [hx2s c hc]
      · rw [hc]; decide
      · rw [hx3s c hc]; decide
  · rw [hrun, hP]
    refine ⟨x2 ++ [PyCall.dictNew] ++ x3, by rw [hx3, hx2]; simp, hpost, ?_⟩
    simp [List.countP_append, c2, c3, PyCall.isGetCode, List.countP_cons]
  · rcases hrest with ⟨_, hrun⟩ | ⟨code, _, ⟨e, _, hrun⟩ | ⟨_, hrun⟩⟩
    · rw [hrun, hP]
      refine ⟨x2 ++ [PyCall.dictNew] ++ x3 ++ [PyCall.get_code importer "cx_Freeze__init__"],
        by simp [PyState.call, hx3, hx2], ?_, ?_⟩
      · intro c hc
        rcases List.mem_append.mp hc with hc | hc
        · exact hpost c hc
        · rw [List.mem_singleton.mp hc]; simp [PyCall.stage]
      · simp [List.countP_append, c2, c3, PyCall.isGetCode, List.countP_cons]
    all_goals
      rw [hrun, hP]
      refine ⟨x2 ++ [PyCall.dictNew] ++ x3 ++
          [PyCall.get_code importer "cx_Freeze__init__", PyCall.evalCode code dict dict],
        by simp [PyState.call, hx3, hx2], ?_, ?_⟩
      · intro c hc
        rcases List.mem_append.mp hc with hc | hc
        · exact hpost c hc
        · simp only [List.mem_cons, List.mem_singleton, List.not_mem_nil, or_false] at hc
          rcases hc with hc | hc <;> (rw [hc]; simp [PyCall.stage])
      · simp [List.countP_append, c2, c3, PyCall.isGetCode, List.countP_cons]

/-- The run of `ExecuteScript` once the dictionary is populated. -/
theorem ExecuteScript_of_populated (h : Host) (rt : Runtime) (fileName : CStr)
    (sysPath : Option (List PyStr)) (g : Names) (s1 s2 s3 : PyState) (importer : Loader)
    (dict : Dict) (hS : (SetExecutableName h fileName).2 = .ok g)
    (hP : SetPathToSearch rt.toInterp g (PyState.initial sysPath) = (.ok (), s1))
    (hG : GetImporter rt.toInterp g s1 = (.ok importer, s2))
    (hD : PopulateInitScriptDict rt g (PyDict_New rt s2).1 (PyDict_New rt s2).2 =
      (.ok dict, s3)) :
    (rt.get_code importer "cx_Freeze__init__" = none →
      (ExecuteScript h rt fileName sysPath).outcome =
        .fatal "unable to locate initialization module" ∧
      (ExecuteScript h rt fileName sysPath).state.calls =
        s3.calls ++ [.get_code importer "cx_Freeze__init__"]) ∧
    (∀ code, rt.get_code importer "cx_Freeze__init__" = some code →
      (ExecuteScript h rt fileName sysPath).state.calls =
        s3.calls ++ [.get_code importer "cx_Freeze__init__", .evalCode code dict dict]) := by
  rcases hS2 : SetExecutableName h fileName with ⟨sc, r⟩
  rw [hS2] at hS
  simp only at hS
  subst hS
  simp only [PyState.initial] at hP
  refine ⟨fun hc => ?_, fun code hc => ?_⟩
  · simp [ExecuteScript, hS2, hP, hG, hD, hc, PyState.call]
  · cases he : rt.evalCode code dict dict <;>
      simp [ExecuteScript, hS2, hP, hG, hD, hc, he, PyState.call]

theorem filter_isGetCode_of_stage (l : List PyCall) (hl : ∀ c ∈ l, c.stage ≤ 3) :
    l.filter PyCall.isGetCode = [] := by
  rw [List.filter_eq_nil_iff]
  intro c hc hg
  have := hl c hc
  cases c <;> simp [PyCall.isGetCode, PyCall.stage] at hg this

/-- In every run of `ExecuteScript` the calls of `get_code` are none or one,
and that one carries the name `cx_Freeze__init__`. -/
theorem ExecuteScript_get_code_calls (h : Host) (rt : Runtime) (fileName : CStr)
    (sysPath : Option (List PyStr)) :
    (ExecuteScript h rt fileName sysPath).state.calls.filter PyCall.isGetCode = [] ∨
    ∃ importer, (ExecuteScript h rt fileName sysPath).state.calls.filter PyCall.isGetCode =
      [.get_code importer "cx_Freeze__init__"] := by
  rcases ExecuteScript_cases h rt fileName sysPath with
    ⟨sc, _, hE⟩ |
    ⟨sc, e, _, hE⟩ | ⟨sc, g, e, s1, _, hP, hE⟩ | ⟨sc, g, s1, e, s2, _, hP, hG, hE⟩ |
    ⟨sc, g, s1, importer, s2, e, s3, _, hP, hG, hD, hE⟩ |
    ⟨sc, g, s1, importer, s2, dict, s3, hS, hP, hG, hD, hrest⟩
  · left
    rw [hE]
    rfl
  · left
    rw [hE]
    rfl
  · left
    rw [hE]
    obtain ⟨x1, hx1, hx1s, _⟩ := SetPathToSearch_calls rt.toInterp g (PyState.initial sysPath)
    rw [hP] at hx1
    simp only [PyState.initial] at hx1
    apply filter_isGetCode_of_stage
    intro c hc
    simp only [hx1, List.nil_append] at hc
    have := hx1s c hc
    omega
  · left
    rw [hE]
    obtain ⟨x1, hx1, hx1s, _⟩ := SetPathToSearch_calls rt.toInterp g (PyState.initial sysPath)
    obtain ⟨x2, hx2, hx2s, _⟩ := GetImporter_calls rt.toInterp g s1
    rw [hP] at hx1
    rw [hG] at hx2
    simp only [PyState.initial] at hx1 hx2
    apply filter_isGetCode_of_stage
    intro c hc
    simp only [hx2, hx1, List.nil_append, List.mem_append] at hc
    rcases hc with hc | hc
    · have := hx1s c hc; omega
    · have := hx2s c hc; omega
  · left
    rw [hE]
    exact filter_isGetCode_of_stage _ (calls_after_Populate rt sysPath g s1 s2 s3 importer _
      hP hG hD).1
  · right
    refine ⟨importer, ?_⟩
    have hs3 := filter_isGetCode_of_stage _ (calls_after_Populate rt sysPath g s1 s2 s3
      importer _ hP hG hD).1
    have hS2 : (SetExecutableName h fileName).2 = .ok g := by rw [hS]
    obtain ⟨hnone, hsome⟩ := ExecuteScript_of_populated h rt fileName sysPath g s1 s2 s3
      importer dict hS2 hP hG hD
    cases hc : rt.get_code importer "cx_Freeze__init__" with
    | none =>
      rw [(hnone hc).2, List.filter_append, hs3]
      rfl
    | some code =>
      rw [hsome code hc, List.filter_append, hs3]
      rfl

/-- Without a custom hook `FatalScriptError` goes on to format the traceback. -/
theorem FatalScriptError_no_hook (gui : Gui) (e : PyExc) (hse : e.isSystemExit = false)
    (hhook : gui.excepthook = none ∨ gui.excepthook = gui.origExcepthook) :
    Win32GUI.FatalScriptError gui e = Win32GUI.FatalScriptError.format gui e := by
  unfold Win32GUI.FatalScriptError
  rw [hse]
  rcases hhook with hh | hh
  · rw [hh]
    rfl
  · cases hk : gui.excepthook with
    | none => rfl
    | some hook =>
      rw [hk] at hh
      simp [hh]

theorem FatalPythonErrorNoTraceback_captions (gui : Gui) (e : PyExc) (ctx : String) :
    ∀ box ∈ (Win32GUI.FatalPythonErrorNoTraceback gui e ctx).2,
      box.caption = "cx_Freeze: Python error in main script (traceback unavailable)".toList ∨
      box.caption = "cx_Freeze Fatal Error".toList := by
  unfold Win32GUI.FatalPythonErrorNoTraceback
  split
  · intro box hbox
    simp only [Win32GUI.FatalError, List.mem_singleton] at hbox
    right
    rw [hbox]
  · intro box hbox
    simp only [Win32GUI.DisplayMessageFromPythonObjects, List.mem_singleton] at hbox
    left
    rw [hbox]

/-! ## Lemmas on the entry points -/

theorem Console_main_convert_none (args : List (Bool × Int)) (hargs : ∀ a ∈ args, a.1 = true) :
    Console.main.convert args = none := by
  induction args with
  | nil => rfl
  | cons a rest ih =>
    obtain ⟨mallocOk, r⟩ := a
    have h1 : mallocOk = true := hargs (mallocOk, r) (List.mem_cons_self _ _)
    have h2 := ih (fun a ha => hargs a (List.mem_cons_of_mem _ ha))
    simp [Console.main.convert, h1, h2]

theorem WinMain_convert_none (args : List (Bool × Int)) (hargs : ∀ a ∈ args, a.1 = true) :
    Win32GUI.WinMain.convert args = none := by
  induction args with
  | nil => rfl
  | cons a rest ih =>
    obtain ⟨mallocOk, r⟩ := a
    have h1 : mallocOk = true := hargs (mallocOk, r) (List.mem_cons_self _ _)
    have h2 := ih (fun a ha => hargs a (List.mem_cons_of_mem _ ha))
    simp [Win32GUI.WinMain.convert, h1, h2]

theorem Console_main_of_returned (h : Host) (rt : Runtime) (con : Console) (st : Startup)
    (fileName : CStr) (sysPath : Option (List PyStr)) (hw : st.wargv = true)
    (hargs : ∀ a ∈ st.args, a.1 = true) (v : Int)
    (hv : Console.ExecuteScript h rt con fileName sysPath = .returned v) :
    Console.main h rt con st fileName sysPath = .returned (if v < 0 then 1 else 0) := by
  simp only [Console.main, hw, Console_main_convert_none st.args hargs, hv, Bool.not_true,
    Bool.false_eq_true, if_false]

theorem WinMain_of_returned (h : Host) (rt : Runtime) (gui : Gui) (st : Startup)
    (fileName : CStr) (sysPath : Option (List PyStr)) (hw : st.wargv = true)
    (hargs : ∀ a ∈ st.args, a.1 = true) (v : Int) (boxes : List MessageBox)
    (hv : Win32GUI.ExecuteScript h rt gui fileName sysPath = (.returned v, boxes)) :
    Win32GUI.WinMain h rt gui st fileName sysPath =
      (.returned (if v < 0 then 1 else 0), boxes) := by
  simp only [Win32GUI.WinMain, hw, WinMain_convert_none st.args hargs, hv, Bool.not_true,
    Bool.false_eq_true, if_false]

/-! ## Lemmas on the shortcut launcher -/

theorem winRemoveExtension_dot (d e : List Char) (h1 : '\\' ∉ e) (h2 : '/' ∉ e)
    (h3 : '.' ∉ e) : winRemoveExtension (d ++ '.' :: e) = d := by
  have hr : (d ++ '.' :: e).reverse = e.reverse ++ '.' :: d.reverse := by simp
  have p1 : ∀ a ∈ e.reverse, (fun c => c != '\\' && c != '/') a = true := by
    intro a ha
    have ha1 : a ≠ '\\' := fun q => h1 (q ▸ List.mem_reverse.mp ha)
    have ha2 : a ≠ '/' := fun q => h2 (q ▸ List.mem_reverse.mp ha)
    simp [ha1, ha2]
  have p2 : ∀ a ∈ e.reverse, (fun c => c != '.') a = true := by
    intro a ha
    have : a ≠ '.' := fun q => h3 (q ▸ List.mem_reverse.mp ha)
    simpa using this
  have hdot : ('.' != '\\' && '.' != '/') = true := by decide
  unfold winRemoveExtension
  simp only [hr, List.takeWhile_append_of_pos p1, List.dropWhile_append_of_pos p2]
  have hmem : '.' ∈ (e.reverse ++
      List.takeWhile (fun c => c != '\\' && c != '/') ('.' :: d.reverse)).reverse := by
    rw [List.takeWhile_cons, hdot]
    simp
  rw [if_pos hmem]
  simp

theorem wWinMain_eq (modulePath lpCmdLine : List Char)
    (hlen : 4 ≤ (GetModuleFileNameW modulePath 1000).length) :
    ShortcutLauncher.wWinMain modulePath lpCmdLine =
      some ({ operation := "open".toList,
              file := (GetModuleFileNameW modulePath 1000).take
                ((GetModuleFileNameW modulePath 1000).length - 4) ++ "_shortcut.lnk".toList,
              parameters := lpCmdLine }, 0) := by
  have hle : (GetModuleFileNameW modulePath 1000).length ≤ 999 := by
    simp only [GetModuleFileNameW, List.length_take]
    omega
  have hn : wcsnlen_s (GetModuleFileNameW modulePath 1000) 1000 =
      (GetModuleFileNameW modulePath 1000).length := by
    simp only [wcsnlen_s]
    omega
  have h13 : "_shortcut.lnk".length = 13 := by decide
  unfold ShortcutLauncher.wWinMain
  simp only [hn, h13]
  rw [if_neg (by omega), if_neg]
  simp only [List.length_take]
  omega

/-! ## Lemmas on the icon resources -/

theorem ExtAddIcon_icons_ok (api : ResourceApi) (iconDir : ICONDIR) (n : Nat) :
    ∀ i, (ExtAddIcon.icons api iconDir i n).1 = true ↔
      ∀ k, k < n → api.UpdateResource .RT_ICON ((i + k + 1) % 2 ^ 16) = true := by
  induction n with
  | zero =>
    intro i
    simp [ExtAddIcon.icons]
  | succ n ih =>
    intro i
    unfold ExtAddIcon.icons
    cases hu : api.UpdateResource .RT_ICON ((i + 1) % 2 ^ 16) with
    | false =>
      simp only [hu, Bool.false_eq_true, if_false, false_iff]
      intro hall
      have := hall 0 (Nat.succ_pos n)
      rw [Nat.add_zero, hu] at this
      cases this
    | true =>
      simp only [hu, if_true]
      rw [ih (i + 1)]
      constructor
      · intro hall k hk
        cases k with
        | zero => exact hu
        | succ k =>
          have := hall k (by omega)
          rw [show i + (k + 1) + 1 = i + 1 + k + 1 by omega]
          exact this
      · intro hall k hk
        have := hall (k + 1) (by omega)
        rw [show i + 1 + k + 1 = i + (k + 1) + 1 by omega]
        exact this

theorem ExtAddIcon_icons_calls (api : ResourceApi) (iconDir : ICONDIR) (n : Nat) :
    ∀ i, ∀ c ∈ (ExtAddIcon.icons api iconDir i n).2, ∃ type id size,
      c = ResourceCall.UpdateResource type id size := by
  induction n with
  | zero =>
    intro i c hc
    simp [ExtAddIcon.icons] at hc
  | succ n ih =>
    intro i c hc
    unfold ExtAddIcon.icons at hc
    simp only at hc
    split at hc
    · rcases List.mem_cons.mp hc with hc | hc
      · exact ⟨_, _, _, hc⟩
      · exact ih (i + 1) c hc
    · rcases List.mem_cons.mp hc with hc | hc
      · exact ⟨_, _, _, hc⟩
      · cases hc

theorem ExtAddIcon_steps_ok (api : ResourceApi) :
    (ExtAddIcon.steps api).1 = true ↔ ExtAddIcon.stepsSucceed api = true := by
  unfold ExtAddIcon.steps ExtAddIcon.stepsSucceed
  cases hd : api.GetFileData with
  | none => simp
  | some iconDir =>
    cases hm : api.mallocOk with
    | false => simp [CreateGroupIconResource]
    | true =>
      cases hg : api.UpdateResource .RT_GROUP_ICON 1 with
      | false => simp [CreateGroupIconResource, hg]
      | true =>
        simp only [CreateGroupIconResource, Bool.not_true, Bool.false_eq_true, if_false, hg,
          if_true, ExtAddIcon_icons_ok, Nat.zero_add, Bool.and_self, Bool.true_and,
          List.all_eq_true, List.mem_range]

theorem ExtAddIcon_steps_calls (api : ResourceApi) :
    ∀ c ∈ (ExtAddIcon.steps api).2, ∃ type id size,
      c = ResourceCall.UpdateResource type id size := by
  intro c hc
  unfold ExtAddIcon.steps at hc
  split at hc
  · cases hc
  · split at hc
    · cases hc
    · simp only at hc
      split at hc
      · rcases List.mem_cons.mp hc with hc | hc
        · exact ⟨_, _, _, hc⟩
        · exact ExtAddIcon_icons_calls _ _ _ _ c hc
      · rcases List.mem_cons.mp hc with hc | hc
        · exact ⟨_, _, _, hc⟩
        · cases hc

/-! ## Lemmas on the lengths of the names -/

theorem specDirName_length_lt (p : List Char) (hp : 1 ≤ p.length) :
    (specDirName p).length + 1 ≤ p.length := by
  have h1 := GetDirName_eq p
  rw [GetDirName_eq_spec] at h1
  have h2 : specDirName p = p.take (GetDirName.scan p p.length) := by
    injection h1
  obtain ⟨n, hn⟩ : ∃ n, p.length = n + 1 := ⟨p.length - 1, by omega⟩
  have h3 : GetDirName.scan p (n + 1) = GetDirName.scan p n := by
    have hnone : p[n + 1]? = none := List.getElem?_eq_none (by omega)
    simp [GetDirName.scan, hnone]
  have h4 := GetDirName_scan_le p n
  rw [h2, hn, h3, List.length_take]
  omega

theorem exclusiveZip_length_le (p : List Char) : (exclusiveZip p).length ≤ p.length + 4 := by
  obtain ⟨q, x, hp, _, he⟩ := exclusiveZip_form p
  have h4 : ".zip".toList.length = 4 := by decide
  rw [he, List.length_append, h4]
  have : p.length = q.length + x.length := by rw [hp, List.length_append]
  omega

theorem sharedZip_length (d : List Char) : (sharedZip d).length = d.length + 12 := by
  have h11 : "library.zip".toList.length = 11 := by decide
  simp only [sharedZip, cxString_ToString, strcpy, cxString_FromString, List.length_append,
    List.length_cons, h11]

/-! ## Lemmas on the guard of the relative join -/

theorem follow_join (h : Host) (c t : List Char) (rest : List Byte)
    (hjoin : (t.map some ++ rest)[0]? ≠ some (some '/'))
    (hl : (specDirName c).length + t.length + 1 < 2 ^ 64) :
    SetExecutableName.follow h c (t.map some ++ rest) t.length =
      if (specDirName c).length + t.length + 1 > h.MAXPATHLEN then
        .error "cannot dereference link, path too large"
      else .ok (specDirName c ++ '/' :: t) := by
  unfold SetExecutableName.follow
  rw [if_neg hjoin]
  simp only [cxString_ToString, GetDirName_eq_spec, strlen, SIZE_BITS]
  rw [Nat.mod_eq_of_lt hl]
  split
  · rfl
  · simp [strncat_map, strcat, strcpy, cxString_FromString]

theorem sys_readlink_take (h : Host) (c : CStr) (buf : List Byte) (bufsiz : Nat)
    (t : List Char) (hr : h.readlink c = some t) :
    sys_readlink h c buf bufsiz =
      (((t.take bufsiz).length : Int),
        (t.take bufsiz).map some ++ buf.drop (t.take bufsiz).length) := by
  simp [sys_readlink, hr, List.length_take, Nat.min_comm]

theorem follow_after_readlink (h : Host) (c t : List Char) (buf : List Byte)
    (hr : h.readlink c = some t) (hM : h.MAXPATHLEN + 1 < 2 ^ 63) (hc : c.length < 2 ^ 63)
    (hjoin : (sys_readlink h c buf (h.MAXPATHLEN + 1)).2[0]? ≠ some (some '/')) :
    SetExecutableName.follow h c (sys_readlink h c buf (h.MAXPATHLEN + 1)).2
        (toSizeT (sys_readlink h c buf (h.MAXPATHLEN + 1)).1) =
      if (specDirName c).length + t.length + 1 > h.MAXPATHLEN then
        .error "cannot dereference link, path too large"
      else .ok (specDirName c ++ '/' :: t) := by
  have hsr := sys_readlink_take h c buf (h.MAXPATHLEN + 1) t hr
  rw [hsr] at hjoin
  rw [hsr]
  have hdl := specDirName_length_le c
  have htl : (t.take (h.MAXPATHLEN + 1)).length ≤ h.MAXPATHLEN + 1 := by
    rw [List.length_take]
    omega
  simp only []
  rw [toSizeT_ofNat _ (by omega), follow_join h c _ _ hjoin (by omega)]
  by_cases hlong : t.length ≤ h.MAXPATHLEN + 1
  · rw [List.take_of_length_le hlong]
  · have hlen : (t.take (h.MAXPATHLEN + 1)).length = h.MAXPATHLEN + 1 := by
      rw [List.length_take]
      omega
    rw [if_pos (by omega), if_pos (by omega)]

/-! ## Lemmas on the group icon resource -/

theorem CreateGroupIconResource_entries_length (iconDir : ICONDIR) (n : Nat) :
    ∀ i, (CreateGroupIconResource.entries iconDir i n).length = n := by
  induction n with
  | zero =>
    intro i
    rfl
  | succ n ih =>
    intro i
    simp [CreateGroupIconResource.entries, ih]

theorem CreateGroupIconResource_entries_get (iconDir : ICONDIR) (n : Nat) :
    ∀ i j, j < n → (CreateGroupIconResource.entries iconDir i n)[j]? =
      some { bWidth := (iconDir.idEntries (i + j)).bWidth
             bHeight := (iconDir.idEntries (i + j)).bHeight
             bColorCount := (iconDir.idEntries (i + j)).bColorCount
             bReserved := (iconDir.idEntries (i + j)).bReserved
             wPlanes := (iconDir.idEntries (i + j)).wPlanes
             wBitCount := (iconDir.idEntries (i + j)).wBitCount
             dwBytesInRes := (iconDir.idEntries (i + j)).dwBytesInRes
             nID := (i + j + 1) % 2 ^ 16 } := by
  induction n with
  | zero =>
    intro i j hj
    omega
  | succ n ih =>
    intro i j hj
    cases j with
    | zero => simp [CreateGroupIconResource.entries]
    | succ j =>
      simp only [CreateGroupIconResource.entries, List.getElem?_cons_succ]
      rw [ih (i + 1) j (by omega), show i + 1 + j = i + (j + 1) by omega]

theorem ExtAddIcon_icons_get (api : ResourceApi) (iconDir : ICONDIR) (n : Nat) :
    ∀ i j c, (ExtAddIcon.icons api iconDir i n).2[j]? = some c →
      j < n ∧ c = ResourceCall.UpdateResource .RT_ICON ((i + j + 1) % 2 ^ 16)
        (iconDir.idEntries (i + j)).dwBytesInRes := by
  induction n with
  | zero =>
    intro i j c hc
    simp [ExtAddIcon.icons] at hc
  | succ n ih =>
    intro i j c hc
    unfold ExtAddIcon.icons at hc
    simp only at hc
    cases j with
    | zero =>
      split at hc <;> simp only [List.getElem?_cons_zero, Option.some.injEq] at hc <;>
        exact ⟨Nat.succ_pos n, hc.symm⟩
    | succ j =>
      split at hc
      · simp only [List.getElem?_cons_succ] at hc
        obtain ⟨h1, h2⟩ := ih (i + 1) j c hc
        refine ⟨by omega, ?_⟩
        rw [h2, show i + 1 + j = i + (j + 1) by omega]
      · simp at hc

/-! ## Claims -/

/-- C1: `GetDirName` returns the part of the path before its last separator,
the separator excluded (`d` for a path `d ++ SEP :: b` whose tail `b` holds
no separator), and the empty string for a path without separator. -/
theorem GetDirName_last_separator (p : CStr) :
    (SEP ∉ p → GetDirName p = .ok []) ∧
    (∀ d b : List Char, p = d ++ SEP :: b → SEP ∉ b → GetDirName p = .ok d) :=
  ⟨GetDirName_of_noSep p, fun d b hp hb => hp ▸ GetDirName_of_split d b hb⟩

/-- Witness of C1 on `app` and on `/a/b/app.bin`. -/
theorem GetDirName_last_separator_witness :
    (SEP ∉ "app".toList ∧ GetDirName "app".toList = .ok []) ∧
    ("/a/b/app.bin".toList = "/a/b".toList ++ SEP :: "app.bin".toList ∧
      SEP ∉ "app.bin".toList ∧ GetDirName "/a/b/app.bin".toList = .ok "/a/b".toList) :=
  ⟨⟨by decide, (GetDirName_last_separator "app".toList).1 (by decide)⟩,
   ⟨by decide, by decide,
    (GetDirName_last_separator "/a/b/app.bin".toList).2 "/a/b".toList "app.bin".toList
      (by decide) (by decide)⟩⟩


/-- C2 holds on the code for chains of at most 24 links and fails for 25. On a
POSIX file system, when following links from `P` goes through `k` symbolic
links, each read successfully, and reaches a path `q` that is not a link:
for `k ≤ 24` `SetExecutableName` returns `0` and the `FILE_NAME` it stores is
`q` (for `k = 0` that is `P` itself); for `k = 25` the loop follows all 25
links and ends because `i` reached 25, `g_FileName` is `q`, and the names are
then computed from `fileName`, whose buffer has been released, so that no
result is defined. -/
theorem SetExecutableName_follows_chain (h : Host) (hp : h.Posix) (P q : CStr) (k : Nat)
    (hf : followLinks h k P = some q) (hq : h.lstat q = .notLink) :
    (k ≤ 24 →
      ∃ names : Names, (SetExecutableName h P).2 = .ok names ∧
        status (SetExecutableName h P).2 = some 0 ∧ names.g_FileName = q ∧
        (k = 0 → names.g_FileName = P)) ∧
    (k = 25 →
      (∃ v : LoopVars,
        (SetExecutableName.loop h 25
          { g_FileName := P, fileName := P, linkData := h.stack }).2 = .ok v ∧
        v.g_FileName = q ∧ v.released = true) ∧
      (SetExecutableName h P).2 = .undefined ∧
      status (SetExecutableName h P).2 = none) := by
  constructor
  · intro hk24
    obtain ⟨calls, hS⟩ := SetExecutableName_of_break h hp P q k hk24 hf hq
    refine ⟨_, by rw [hS], by rw [hS]; rfl, rfl, fun hk0 => ?_⟩
    subst hk0
    simp only [followLinks, Option.some.injEq] at hf
    exact hf.symm
  · intro hk25
    subst hk25
    obtain ⟨calls, v, hl, hv, hr, _, hS⟩ := SetExecutableName_exhausted h hp P q hf
      (by rw [hq]; decide)
    exact ⟨⟨v, by rw [hl], hv, hr⟩, by rw [hS], by rw [hS]; rfl⟩

theorem chainHost_posix : chainHost.Posix where
  maxpathlen := by decide
  lstat_length := by
    intro p hp
    simp only [chainHost] at hp ⊢
    split_ifs at hp with h1 h2 h3
    · rw [h1]; decide
    · rw [h2]; decide
    · rw [h3]; decide
    · exact absurd rfl hp
  readlink_ne := by
    intro p
    simp only [chainHost]
    split_ifs <;> simp

theorem chain25Host_posix : chain25Host.Posix where
  maxpathlen := by decide
  lstat_length := by
    intro p hp
    simp only [chain25Host] at hp ⊢
    split_ifs at hp with h1 h2
    · rw [h1]; decide
    · unfold chain25Host.linkNo at h2
      split_ifs at h2 with h3
      · omega
      · simp at h2
    · exact absurd rfl hp
  readlink_ne := by
    intro p
    simp only [chain25Host]
    cases chain25Host.linkNo p with
    | none => simp
    | some k =>
      simp only
      split_ifs
      · intro e
        have := congrArg List.length (Option.some.inj e)
        simp at this
      · decide

/-- Witness of C2: the two links of `chainHost` lead from `/usr/bin/app` to the
regular file `/opt/app/run.bin`, which is stored; the 25 links of
`chain25Host` lead from `/a/l` to the regular file `/b/app`, and no result is
defined. -/
theorem SetExecutableName_follows_chain_witness :
    (∃ names : Names, (SetExecutableName chainHost "/usr/bin/app".toList).2 = .ok names ∧
      status (SetExecutableName chainHost "/usr/bin/app".toList).2 = some 0 ∧
      names.g_FileName = "/opt/app/run.bin".toList ∧
      (2 = 0 → names.g_FileName = "/usr/bin/app".toList)) ∧
    ((∃ v : LoopVars,
        (SetExecutableName.loop chain25Host 25
          { g_FileName := "/a/l".toList, fileName := "/a/l".toList,
            linkData := chain25Host.stack }).2 = .ok v ∧
        v.g_FileName = "/b/app".toList ∧ v.released = true) ∧
      (SetExecutableName chain25Host "/a/l".toList).2 = .undefined ∧
      status (SetExecutableName chain25Host "/a/l".toList).2 = none) :=
  ⟨(SetExecutableName_follows_chain chainHost chainHost_posix "/usr/bin/app".toList
      "/opt/app/run.bin".toList 2 (by rfl) (by rfl)).1 (by decide),
   (SetExecutableName_follows_chain chain25Host chain25Host_posix "/a/l".toList
      "/b/app".toList 25 (by rfl) (by rfl)).2 rfl⟩


/-- C3 fails on the code: nothing follows the loop that would report a chain
that is cyclic or longer than 25 links. On a POSIX file system, when the path
`q` reached after 25 readable links is a link again, the loop has made 25
calls of `readlink` and reports no error, it ends because `i` reached 25 with
`g_FileName` at `q`, and `SetExecutableName` goes on to compute the names from
`fileName`, whose buffer has been released: it reports no fatal error of its
own and no result is defined. -/
theorem SetExecutableName_long_chain (h : Host) (hp : h.Posix) (P q : CStr)
    (hf : followLinks h 25 P = some q) (hq : h.lstat q = .link) :
    (∃ v : LoopVars,
      (SetExecutableName.loop h 25
        { g_FileName := P, fileName := P, linkData := h.stack }).2 = .ok v ∧
      v.g_FileName = q ∧ v.released = true) ∧
    (SetExecutableName h P).1.countP SysCall.isReadlink = 25 ∧
    (SetExecutableName h P).2 = .undefined ∧
    (∀ e, (SetExecutableName h P).2 ≠ .error e) ∧
    status (SetExecutableName h P).2 = none := by
  obtain ⟨calls, v, hl, hv, hr, hcount, hS⟩ := SetExecutableName_exhausted h hp P q hf
    (by rw [hq]; decide)
  exact ⟨⟨v, by rw [hl], hv, hr⟩, by rw [hS]; exact hcount, by rw [hS],
    fun e => by rw [hS]; simp, by rw [hS]; rfl⟩

theorem cycleHost_posix : cycleHost.Posix where
  maxpathlen := by decide
  lstat_length := by
    intro p hp
    simp only [cycleHost] at hp ⊢
    split_ifs at hp with h1
    · rw [h1]; decide
    · exact absurd rfl hp
  readlink_ne := by
    intro p
    simp only [cycleHost]
    split_ifs <;> simp

/-- Witness of C3 on the link `/l` to itself: 25 links are read and no result
is defined. -/
theorem SetExecutableName_long_chain_witness :
    (∃ v : LoopVars,
      (SetExecutableName.loop cycleHost 25
        { g_FileName := "/l".toList, fileName := "/l".toList,
          linkData := cycleHost.stack }).2 = .ok v ∧
      v.g_FileName = "/l".toList ∧ v.released = true) ∧
    (SetExecutableName cycleHost "/l".toList).1.countP SysCall.isReadlink = 25 ∧
    (SetExecutableName cycleHost "/l".toList).2 = .undefined ∧
    (∀ e, (SetExecutableName cycleHost "/l".toList).2 ≠ .error e) ∧
    status (SetExecutableName cycleHost "/l".toList).2 = none :=
  SetExecutableName_long_chain cycleHost cycleHost_posix "/l".toList "/l".toList
    (by rfl) (by rfl)

/-- C4 as stated fails: in the directory `/d` a relative target of 4095
letters makes the step report the fatal error instead of giving the joined
path as the new current path. -/
theorem follow_long_relative_target :
    GetDirName "/d/l".toList = .ok "/d".toList ∧
    (List.replicate 4095 'a').head? ≠ some '/' ∧
    SetExecutableName.follow longLinkHost "/d/l".toList
        (sys_readlink longLinkHost "/d/l".toList longLinkHost.stack
          (longLinkHost.MAXPATHLEN + 1)).2
        (toSizeT (sys_readlink longLinkHost "/d/l".toList longLinkHost.stack
          (longLinkHost.MAXPATHLEN + 1)).1) =
      .error "cannot dereference link, path too large" := by
  have hr : longLinkHost.readlink "/d/l".toList = some (List.replicate 4095 'a') := by rfl
  have hM : longLinkHost.MAXPATHLEN = 4096 := rfl
  have hlen : (List.replicate 4095 'a').length = 4095 := List.length_replicate _ _
  have hne : List.replicate 4095 'a' ≠ [] := by
    intro e; rw [e] at hlen; exact absurd hlen (by decide)
  have hhead : (List.replicate 4095 'a').head? ≠ some '/' := by
    rw [show (4095 : Nat) = 4094 + 1 from rfl, List.replicate_succ]; decide
  have hd : specDirName "/d/l".toList = "/d".toList := by rfl
  refine ⟨by rfl, hhead, ?_⟩
  rw [sys_readlink_some _ _ _ _ _ hr (by rw [hlen, hM]; decide)]
  simp only []
  rw [hlen, toSizeT_ofNat _ (by decide)]
  have key := follow_rel longLinkHost "/d/l".toList _
    (List.drop (List.replicate 4095 'a').length longLinkHost.stack) hne hhead
    (by rw [hd, hlen]; decide)
  rw [hlen] at key
  rw [key, hd, hM, if_pos (by decide)]

/-- C4, amended: in one link step with current path `c` and the non-empty
target `t` that `readlink` delivered, an absolute `t` becomes the new current
path; a relative `t` gives `GetDirName(c)`, a slash and `t` provided that text
is at most `MAXPATHLEN` long, and the fatal error otherwise. -/
theorem follow_step (h : Host) (c t : List Char) (buf : List Byte)
    (hr : h.readlink c = some t) (ht : t ≠ []) (htl : t.length ≤ h.MAXPATHLEN + 1)
    (hmax : h.MAXPATHLEN + 1 < 2 ^ 63) (hc : c.length < 2 ^ 63) :
    ∃ d : PyStr, GetDirName c = .ok d ∧
      SetExecutableName.follow h c (sys_readlink h c buf (h.MAXPATHLEN + 1)).2
          (toSizeT (sys_readlink h c buf (h.MAXPATHLEN + 1)).1) =
        if t.head? = some '/' then .ok t
        else if d.length + 1 + t.length ≤ h.MAXPATHLEN then .ok (d ++ '/' :: t)
        else .error "cannot dereference link, path too large" := by
  refine ⟨specDirName c, GetDirName_eq_spec c, ?_⟩
  rw [sys_readlink_some h c buf _ t hr htl]
  simp only []
  rw [toSizeT_ofNat _ (by omega)]
  have hd := specDirName_length_le c
  by_cases habs : t.head? = some '/'
  · rw [if_pos habs, follow_abs h c t _ ht habs (by omega)]
  · rw [if_neg habs, follow_rel h c t _ ht habs (by omega)]
    by_cases hfit : (specDirName c).length + 1 + t.length ≤ h.MAXPATHLEN
    · rw [if_pos hfit, if_neg (by omega)]
    · rw [if_neg hfit, if_pos (by omega)]

/-- Witness of the amended C4 on the first link of `chainHost`. -/
theorem follow_step_witness :
    ∃ d : PyStr, GetDirName "/usr/bin/app".toList = .ok d ∧
      SetExecutableName.follow chainHost "/usr/bin/app".toList
          (sys_readlink chainHost "/usr/bin/app".toList [] (chainHost.MAXPATHLEN + 1)).2
          (toSizeT (sys_readlink chainHost "/usr/bin/app".toList []
            (chainHost.MAXPATHLEN + 1)).1) =
        if "../lib/app/run".toList.head? = some '/' then .ok "../lib/app/run".toList
        else if d.length + 1 + "../lib/app/run".toList.length ≤ chainHost.MAXPATHLEN then
          .ok (d ++ '/' :: "../lib/app/run".toList)
        else .error "cannot dereference link, path too large" :=
  follow_step chainHost "/usr/bin/app".toList "../lib/app/run".toList [] (by rfl)
    (by decide) (by decide) (by decide) (by decide)

/-- C5 fails on the code for an unreadable link: `readlink` returns `-1`, the
unsigned `linkSize` is never below zero, and `SetExecutableName` goes on with
what `linkData` held, stats the path `/x` built from it and returns `0`. -/
theorem SetExecutableName_unreadable_link :
    unreadableLinkHost.lstat "/l".toList = .link ∧
    unreadableLinkHost.readlink "/l".toList = none ∧
    SetExecutableName unreadableLinkHost "/l".toList =
      ([SysCall.lstat "/l".toList, SysCall.readlink "/l".toList, SysCall.lstat "/x".toList],
        .ok { g_FileName := "/x".toList, g_DirName := [],
              g_ExclusiveZipFileName := "/x.zip".toList,
              g_SharedZipFileName := "/library.zip".toList }) :=
  ⟨rfl, rfl, rfl⟩

/-- C6: for a non-empty canonical path `p` (one that is not a link) the
exclusive zip file name `SetExecutableName` stores is `p` without the part
from the last dot after the last separator on, followed by `.zip`; the
directory in front of the last separator is copied as it is, dots included;
`/a/b/app.bin` and `/a/b/app` both give `/a/b/app.zip`. -/
theorem SetExecutableName_exclusiveZip :
    (∀ (h : Host) (p : CStr), p ≠ [] → h.lstat p = .notLink →
      ∃ names : Names, (SetExecutableName h p).2 = .ok names ∧
        names.g_ExclusiveZipFileName = specStripExtension p ++ ".zip".toList) ∧
    (∀ d b : List Char, SEP ∉ b →
      exclusiveZip (d ++ SEP :: b) = d ++ SEP :: (specStripExtension b ++ ".zip".toList)) ∧
    exclusiveZip "/a/b/app.bin".toList = "/a/b/app.zip".toList ∧
    exclusiveZip "/a/b/app".toList = "/a/b/app.zip".toList := by
  refine ⟨fun h p _ hs => ⟨_, by rw [SetExecutableName_notLink h p hs],
    exclusiveZip_eq_spec p⟩, fun d b hb => ?_, rfl, rfl⟩
  by_cases hdot : '.' ∈ b
  · obtain ⟨d2, x, e, hp, hx, h1, h2⟩ := exists_last_stop b (Or.inr hdot)
    subst hp
    rcases hx with rfl | rfl
    · exact absurd (by simp) hb
    · have h3 : d ++ SEP :: (d2 ++ '.' :: e) = (d ++ SEP :: d2) ++ '.' :: e := by simp
      rw [h3, exclusiveZip_split _ e '.' (Or.inr rfl) h1 h2, if_pos rfl,
        specStripExtension_dot d2 e h1 h2]
      simp
  · rw [exclusiveZip_split d b SEP (Or.inl rfl) hb hdot, if_neg (by decide),
      specStripExtension_none b hdot]
    simp

/-- Witness of C6 on `/opt/app/run.bin`, a regular file of `chainHost`. -/
theorem SetExecutableName_exclusiveZip_witness :
    ∃ names : Names,
      (SetExecutableName chainHost "/opt/app/run.bin".toList).2 = .ok names ∧
      names.g_ExclusiveZipFileName = specStripExtension "/opt/app/run.bin".toList ++ ".zip".toList :=
  SetExecutableName_exclusiveZip.1 chainHost "/opt/app/run.bin".toList (by decide)
    (by rfl)

/-- C7: the shared zip file name `SetExecutableName` stores is `GetDirName(p)`,
one separator and `library.zip`, for every canonical path `p` (one that is not
a link), and in every successful run it is the stored `DIR_NAME` followed by
the separator and `library.zip`; `/a/b/app.bin` gives `/a/b/library.zip`. -/
theorem SetExecutableName_sharedZip :
    (∀ (h : Host) (p : CStr), h.lstat p = .notLink →
      ∃ (names : Names) (d : PyStr), (SetExecutableName h p).2 = .ok names ∧
        GetDirName p = .ok d ∧
        names.g_SharedZipFileName = d ++ SEP :: "library.zip".toList) ∧
    (∀ (h : Host) (P : CStr) (names : Names), (SetExecutableName h P).2 = .ok names →
      names.g_SharedZipFileName = names.g_DirName ++ SEP :: "library.zip".toList) ∧
    (∃ d : PyStr, GetDirName "/a/b/app.bin".toList = .ok d ∧
      sharedZip d = "/a/b/library.zip".toList) := by
  refine ⟨fun h p hs => ⟨_, specDirName p, by rw [SetExecutableName_notLink h p hs],
    GetDirName_eq_spec p, rfl⟩, fun h P names hn => ?_, ⟨"/a/b".toList, rfl, rfl⟩⟩
  rw [(SetExecutableName_ok_names h P names hn).2.2]
  rfl

/-- Witness of C7 on `/opt/app/run.bin`, a regular file of `chainHost`. -/
theorem SetExecutableName_sharedZip_witness :
    ∃ (names : Names) (d : PyStr),
      (SetExecutableName chainHost "/opt/app/run.bin".toList).2 = .ok names ∧
      GetDirName "/opt/app/run.bin".toList = .ok d ∧
      names.g_SharedZipFileName = d ++ SEP :: "library.zip".toList :=
  SetExecutableName_sharedZip.1 chainHost "/opt/app/run.bin".toList (by rfl)

/-- C8: for a non-empty canonical path `p` (one that is not a link) both
archives lie in the directory of the executable: `GetDirName` of the exclusive
and of the shared zip file name both equal `GetDirName(p)`. -/
theorem SetExecutableName_archives_colocated (h : Host) (p : CStr) (_hne : p ≠ [])
    (hs : h.lstat p = .notLink) :
    ∃ (names : Names) (d : PyStr), (SetExecutableName h p).2 = .ok names ∧
      GetDirName p = .ok d ∧
      GetDirName names.g_ExclusiveZipFileName = .ok d ∧
      GetDirName names.g_SharedZipFileName = .ok d := by
  refine ⟨_, specDirName p, by rw [SetExecutableName_notLink h p hs],
    GetDirName_eq_spec p, ?_, ?_⟩
  · rw [GetDirName_eq_spec, specDirName_exclusiveZip]
  · rw [GetDirName_eq_spec, specDirName_sharedZip]

/-- Witness of C8 on `/opt/app/run.bin`, a regular file of `chainHost`. -/
theorem SetExecutableName_archives_colocated_witness :
    ∃ (names : Names) (d : PyStr),
      (SetExecutableName chainHost "/opt/app/run.bin".toList).2 = .ok names ∧
      GetDirName "/opt/app/run.bin".toList = .ok d ∧
      GetDirName names.g_ExclusiveZipFileName = .ok d ∧
      GetDirName names.g_SharedZipFileName = .ok d :=
  SetExecutableName_archives_colocated chainHost "/opt/app/run.bin".toList (by decide)
    (by rfl)

/-- C9: when `SetPathToSearch` succeeds on a `sys.path` holding the list `L`
(empty or not), `sys.path` afterwards is `FILE_NAME`, `DIR_NAME`,
`EXCLUSIVE_ZIP_FILE_NAME`, `SHARED_ZIP_FILE_NAME` followed by `L`, so that
entry `i` of `L` is entry `i + 4` of the new list; and it succeeds exactly
when the four insertions do. -/
theorem SetPathToSearch_prepends (it : Interp) (g : Names) (s : PyState) (L : List PyStr)
    (hL : s.sysPath = some L) :
    ((SetPathToSearch it g s).1 = .ok () ↔
      (it.insertOk 0 = true ∧ it.insertOk 1 = true ∧ it.insertOk 2 = true ∧
        it.insertOk 3 = true)) ∧
    ((SetPathToSearch it g s).1 = .ok () →
      (SetPathToSearch it g s).2.sysPath =
        some ([g.g_FileName, g.g_DirName, g.g_ExclusiveZipFileName, g.g_SharedZipFileName] ++ L) ∧
      ∀ i : Nat,
        ([g.g_FileName, g.g_DirName, g.g_ExclusiveZipFileName, g.g_SharedZipFileName] ++ L)[i + 4]?
          = L[i]?) := by
  have e1 : ∀ (a : PyStr) (l : List PyStr), PyList_Insert l 0 a = a :: l := by
    intro a l; simp [PyList_Insert]
  have e2 : ∀ (a b : PyStr) (l : List PyStr), PyList_Insert (a :: l) 1 b = a :: b :: l := by
    intro a b l; simp [PyList_Insert]
  have e3 : ∀ (a b c : PyStr) (l : List PyStr),
      PyList_Insert (a :: b :: l) 2 c = a :: b :: c :: l := by
    intro a b c l; simp [PyList_Insert]
  have e4 : ∀ (a b c d : PyStr) (l : List PyStr),
      PyList_Insert (a :: b :: c :: l) 3 d = a :: b :: c :: d :: l := by
    intro a b c d l; simp [PyList_Insert]
  cases h0 : it.insertOk 0 <;> cases h1 : it.insertOk 1 <;> cases h2 : it.insertOk 2 <;>
    cases h3 : it.insertOk 3 <;>
    simp [SetPathToSearch, SetPathToSearch.insert, PyState.call, hL, h0, h1, h2, h3,
      e1, e2, e3, e4]

/-- Witness of C9 on a `sys.path` with one entry. -/
theorem SetPathToSearch_prepends_witness :
    (SetPathToSearch sharedOnlyInterp appNames ⟨some ["/usr/lib".toList], none, []⟩).2.sysPath =
      some (["/a/b/app.bin".toList, "/a/b".toList, "/a/b/app.zip".toList,
        "/a/b/library.zip".toList] ++ ["/usr/lib".toList]) :=
  ((SetPathToSearch_prepends sharedOnlyInterp appNames ⟨some ["/usr/lib".toList], none, []⟩
    ["/usr/lib".toList] rfl).2 (by rfl)).1

/-- C10: `GetImporter` probes the executable, then the exclusive archive, then
the shared archive, and stops at the first that gives a loader: the calls it
adds are the import of `zipimport` followed by one `zipimporter` call when the
executable binds, by two (executable, exclusive) when only then the exclusive
archive binds, and by all three otherwise; without `zipimport` nothing is
probed. -/
theorem GetImporter_probe_order (it : Interp) (g : Names) (s : PyState) :
    (it.importOk "zipimport" = false →
      (GetImporter it g s).2.calls = s.calls ++ [.importModule "zipimport"]) ∧
    (it.importOk "zipimport" = true →
      (it.zipimporter g.g_FileName ≠ none →
        (GetImporter it g s).2.calls =
          s.calls ++ [.importModule "zipimport", .zipimporter g.g_FileName]) ∧
      (it.zipimporter g.g_FileName = none →
        it.zipimporter g.g_ExclusiveZipFileName ≠ none →
        (GetImporter it g s).2.calls =
          s.calls ++ [.importModule "zipimport", .zipimporter g.g_FileName,
            .zipimporter g.g_ExclusiveZipFileName]) ∧
      (it.zipimporter g.g_FileName = none →
        it.zipimporter g.g_ExclusiveZipFileName = none →
        (GetImporter it g s).2.calls =
          s.calls ++ [.importModule "zipimport", .zipimporter g.g_FileName,
            .zipimporter g.g_ExclusiveZipFileName,
            .zipimporter g.g_SharedZipFileName])) := by
  refine ⟨fun hi => ?_, fun hi => ⟨fun hf => ?_, fun hf he => ?_, fun hf he => ?_⟩⟩
  · simp [GetImporter, hi, PyState.call]
  · obtain ⟨l, hl⟩ := Option.ne_none_iff_exists'.mp hf
    simp [GetImporter, GetImporterHelper, hi, hl, PyState.call]
  · obtain ⟨l, hl⟩ := Option.ne_none_iff_exists'.mp he
    simp [GetImporter, GetImporterHelper, hi, hf, hl, PyState.call]
  · cases hs : it.zipimporter g.g_SharedZipFileName <;>
      simp [GetImporter, GetImporterHelper, hi, hf, he, hs, PyState.call]

/-- Witness of C10: with modules only in the shared archive all three
candidates are probed, in order. -/
theorem GetImporter_probe_order_witness :
    (GetImporter sharedOnlyInterp appNames ⟨none, none, []⟩).2.calls =
      [] ++ [.importModule "zipimport", .zipimporter "/a/b/app.bin".toList,
        .zipimporter "/a/b/app.zip".toList, .zipimporter "/a/b/library.zip".toList] :=
  ((GetImporter_probe_order sharedOnlyInterp appNames ⟨none, none, []⟩).2 (by rfl)).2.2
    (by rfl) (by rfl)

/-- C11: when no loader binds to the executable, the exclusive archive or the
shared archive, `GetImporter` (with `zipimport` imported) reports the fatal
error `cannot get zipimporter instance`; every run of `ExecuteScript` in which
`SetExecutableName` stays within defined behaviour then ends in a fatal error,
which the GUI host shows and returns as `-1`, and in no run is `get_code`
called or code evaluated. -/
theorem ExecuteScript_no_loader (h : Host) (rt : Runtime) (gui : Gui) (fileName : CStr)
    (sysPath : Option (List PyStr))
    (hno : ∀ g, (SetExecutableName h fileName).2 = .ok g →
      rt.zipimporter g.g_FileName = none ∧ rt.zipimporter g.g_ExclusiveZipFileName = none ∧
      rt.zipimporter g.g_SharedZipFileName = none) :
    (∀ g s, (SetExecutableName h fileName).2 = .ok g → rt.importOk "zipimport" = true →
      (GetImporter rt.toInterp g s).1 = .error "cannot get zipimporter instance") ∧
    (∀ g s1, (SetExecutableName h fileName).2 = .ok g →
      SetPathToSearch rt.toInterp g (PyState.initial sysPath) = (.ok (), s1) →
      rt.importOk "zipimport" = true →
      (ExecuteScript h rt fileName sysPath).outcome =
        .fatal "cannot get zipimporter instance") ∧
    ((SetExecutableName h fileName).2 ≠ .undefined →
      ∃ msg, (ExecuteScript h rt fileName sysPath).outcome = .fatal msg ∧
        Win32GUI.ExecuteScript h rt gui fileName sysPath =
          (.returned (-1),
            [{ text := msg.toList, caption := "cx_Freeze Fatal Error".toList }])) ∧
    (∀ c ∈ (ExecuteScript h rt fileName sysPath).state.calls,
      (∀ importer name, c ≠ .get_code importer name) ∧
      (∀ code globals locals, c ≠ .evalCode code globals locals)) := by
  have key : ((SetExecutableName h fileName).2 ≠ .undefined →
      ∃ msg, (ExecuteScript h rt fileName sysPath).outcome = .fatal msg) ∧
      ∀ c ∈ (ExecuteScript h rt fileName sysPath).state.calls, c.stage ≤ 2 := by
    rcases hS : SetExecutableName h fileName with ⟨sc, g | e | _⟩
    rotate_left
    · rw [ExecuteScript_SetExecutableName_error h rt fileName sysPath sc e hS]
      exact ⟨fun _ => ⟨e, rfl⟩, by simp [PyState.initial]⟩
    · refine ⟨fun hdef => absurd rfl hdef, ?_⟩
      have hrun : ExecuteScript h rt fileName sysPath =
          { sysCalls := sc, state := PyState.initial sysPath, outcome := .undefined } := by
        simp [ExecuteScript, hS, PyState.initial]
      rw [hrun]
      simp [PyState.initial]
    · obtain ⟨hf, he, hs⟩ := hno g (by rw [hS])
      rcases hP : SetPathToSearch rt.toInterp g (PyState.initial sysPath) with ⟨e | u, s1⟩
      · obtain ⟨hrun, hst⟩ :=
          ExecuteScript_SetPathToSearch_error h rt fileName sysPath sc g s1 e hS hP
        rw [hrun]
        exact ⟨fun _ => ⟨e, rfl⟩, fun c hc => Nat.le_trans (hst c hc) (by decide)⟩
      · obtain ⟨e, hE⟩ := GetImporter_error_of_none rt.toInterp g s1 hf he hs
        rcases hG : GetImporter rt.toInterp g s1 with ⟨r, s2⟩
        rw [hG] at hE
        simp only at hE
        subst hE
        obtain ⟨hrun, hst⟩ :=
          ExecuteScript_GetImporter_error h rt fileName sysPath sc g s1 s2 e hS hP hG
        rw [hrun]
        exact ⟨fun _ => ⟨e, rfl⟩, hst⟩
  refine ⟨fun g s hg hi => ?_, fun g s1 hg hP hi => ?_, fun hdef => ?_, fun c hc => ?_⟩
  · obtain ⟨hf, he, hs⟩ := hno g hg
    exact GetImporter_none rt.toInterp g s hi hf he hs
  · obtain ⟨hf, he, hs⟩ := hno g hg
    rcases hS : SetExecutableName h fileName with ⟨sc, r⟩
    rw [hS] at hg
    simp only at hg
    subst hg
    have hE := GetImporter_none rt.toInterp g s1 hi hf he hs
    rcases hG : GetImporter rt.toInterp g s1 with ⟨r, s2⟩
    rw [hG] at hE
    simp only at hE
    subst hE
    rw [(ExecuteScript_GetImporter_error h rt fileName sysPath sc g s1 s2 _ hS hP hG).1]
  · obtain ⟨msg, hm⟩ := key.1 hdef
    exact ⟨msg, hm, by simp [Win32GUI.ExecuteScript, hm, Win32GUI.FatalError]⟩
  · have := key.2 c hc
    refine ⟨fun importer name hcn => ?_, fun code globals locals hcn => ?_⟩
    · rw [hcn] at this; simp [PyCall.stage] at this
    · rw [hcn] at this; simp [PyCall.stage] at this

/-- Witness of C11: `/a/b/app.bin` started where no archive holds modules. -/
theorem ExecuteScript_no_loader_witness :
    (ExecuteScript unreadableLinkHost noArchiveRuntime "/a/b/app.bin".toList
        (some [])).outcome = .fatal "cannot get zipimporter instance" :=
  (ExecuteScript_no_loader unreadableLinkHost noArchiveRuntime bareGui
    "/a/b/app.bin".toList (some []) (fun _ _ => ⟨rfl, rfl, rfl⟩)).2.1 appNames _ rfl rfl rfl

/-- C12: when `GetImporter` succeeds, `g_InitScriptZipFileName` is the first of
executable, exclusive archive, shared archive to which `zipimporter` binds
(every candidate before it failed) and the loader returned is the one
`zipimporter` gave for that candidate. -/
theorem GetImporter_records_first_binding (it : Interp) (g : Names) (s s2 : PyState)
    (importer : Loader) (hG : GetImporter it g s = (.ok importer, s2)) :
    (it.zipimporter g.g_FileName = some importer ∧
      s2.g_InitScriptZipFileName = some g.g_FileName) ∨
    (it.zipimporter g.g_FileName = none ∧
      it.zipimporter g.g_ExclusiveZipFileName = some importer ∧
      s2.g_InitScriptZipFileName = some g.g_ExclusiveZipFileName) ∨
    (it.zipimporter g.g_FileName = none ∧ it.zipimporter g.g_ExclusiveZipFileName = none ∧
      it.zipimporter g.g_SharedZipFileName = some importer ∧
      s2.g_InitScriptZipFileName = some g.g_SharedZipFileName) :=
  GetImporter_ok_cases it g s s2 importer hG

/-- Witness of C12: with modules only in the shared archive, the loader and
the recorded name are those of `/a/b/library.zip`. -/
theorem GetImporter_records_first_binding_witness :
    (sharedOnlyInterp.zipimporter appNames.g_FileName = some { id := 3 } ∧
      (GetImporter sharedOnlyInterp appNames (PyState.initial none)).2.g_InitScriptZipFileName =
        some appNames.g_FileName) ∨
    (sharedOnlyInterp.zipimporter appNames.g_FileName = none ∧
      sharedOnlyInterp.zipimporter appNames.g_ExclusiveZipFileName = some { id := 3 } ∧
      (GetImporter sharedOnlyInterp appNames (PyState.initial none)).2.g_InitScriptZipFileName =
        some appNames.g_ExclusiveZipFileName) ∨
    (sharedOnlyInterp.zipimporter appNames.g_FileName = none ∧
      sharedOnlyInterp.zipimporter appNames.g_ExclusiveZipFileName = none ∧
      sharedOnlyInterp.zipimporter appNames.g_SharedZipFileName = some { id := 3 } ∧
      (GetImporter sharedOnlyInterp appNames (PyState.initial none)).2.g_InitScriptZipFileName =
        some appNames.g_SharedZipFileName) :=
  GetImporter_records_first_binding sharedOnlyInterp appNames (PyState.initial none) _
    { id := 3 } rfl

/-- C13: whenever `ExecuteScript` evaluates the initialization script, the
dictionary passed as globals is also the one passed as locals, it was created
by `PyDict_New` in this run, and it holds exactly the six keys `__builtins__`,
`FILE_NAME`, `DIR_NAME`, `EXCLUSIVE_ZIP_FILE_NAME`, `SHARED_ZIP_FILE_NAME` and
`INITSCRIPT_ZIP_FILE_NAME`, bound to the built-ins, the four names
`SetExecutableName` derived, and the candidate whose loader supplied the
script. -/
theorem ExecuteScript_namespace (h : Host) (rt : Runtime) (fileName : CStr)
    (sysPath : Option (List PyStr)) (code : Code) (globals locals : Dict)
    (hc : PyCall.evalCode code globals locals ∈
      (ExecuteScript h rt fileName sysPath).state.calls) :
    ∃ (g : Names) (source : PyStr) (importer : Loader),
      (SetExecutableName h fileName).2 = .ok g ∧
      (source = g.g_FileName ∨ source = g.g_ExclusiveZipFileName ∨
        source = g.g_SharedZipFileName) ∧
      rt.zipimporter source = some importer ∧
      rt.get_code importer "cx_Freeze__init__" = some code ∧
      PyCall.dictNew ∈ (ExecuteScript h rt fileName sysPath).state.calls ∧
      locals = globals ∧
      globals = [("__builtins__", .builtins), ("FILE_NAME", .str g.g_FileName),
        ("DIR_NAME", .str g.g_DirName),
        ("EXCLUSIVE_ZIP_FILE_NAME", .str g.g_ExclusiveZipFileName),
        ("SHARED_ZIP_FILE_NAME", .str g.g_SharedZipFileName),
        ("INITSCRIPT_ZIP_FILE_NAME", .str source)] := by
  have hstage : ∀ (l : List PyCall) (n : Nat), n < 5 → (∀ c ∈ l, c.stage ≤ n) →
      PyCall.evalCode code globals locals ∉ l := by
    intro l n hn hl hm
    have := hl _ hm
    simp only [PyCall.stage] at this
    omega
  rcases ExecuteScript_cases h rt fileName sysPath with
    ⟨sc, hS, hrun⟩ |
    ⟨sc, e, hS, hrun⟩ | ⟨sc, g, e, s1, hS, hP, hrun⟩ | ⟨sc, g, s1, e, s2, hS, hP, hG, hrun⟩ |
    ⟨sc, g, s1, importer, s2, e, s3, hS, hP, hG, hD, hrun⟩ |
    ⟨sc, g, s1, importer, s2, dict, s3, hS, hP, hG, hD, hrest⟩
  · rw [hrun] at hc
    simp [PyState.initial] at hc
  · rw [hrun] at hc
    simp [PyState.initial] at hc
  · rw [hrun] at hc
    exact absurd hc (hstage _ 1 (by decide)
      (ExecuteScript_SetPathToSearch_error h rt fileName sysPath sc g s1 e hS hP).2)
  · rw [hrun] at hc
    exact absurd hc (hstage _ 2 (by decide)
      (ExecuteScript_GetImporter_error h rt fileName sysPath sc g s1 s2 e hS hP hG).2)
  · rw [hrun] at hc
    exact absurd hc (hstage _ 3 (by decide)
      (calls_after_Populate rt sysPath g s1 s2 s3 importer _ hP hG hD).1)
  · obtain ⟨hs3, hnew⟩ := calls_after_Populate rt sysPath g s1 s2 s3 importer _ hP hG hD
    have hdict := PopulateInitScriptDict_ok rt g s2 s3 dict hD
    have hsrc : ∃ source, (source = g.g_FileName ∨ source = g.g_ExclusiveZipFileName ∨
        source = g.g_SharedZipFileName) ∧ rt.zipimporter source = some importer ∧
        s2.g_InitScriptZipFileName = some source := by
      rcases GetImporter_ok_cases rt.toInterp g s1 s2 importer hG with
        ⟨a, b⟩ | ⟨_, a, b⟩ | ⟨_, _, a, b⟩
      · exact ⟨_, Or.inl rfl, a, b⟩
      · exact ⟨_, Or.inr (Or.inl rfl), a, b⟩
      · exact ⟨_, Or.inr (Or.inr rfl), a, b⟩
    obtain ⟨source, hsel, hbind, hinit⟩ := hsrc
    rw [hinit] at hdict
    have hmem : ∀ (c2 : Code) (st : PyState),
        st = (s3.call (.get_code importer "cx_Freeze__init__")).call (.evalCode c2 dict dict) →
        PyCall.evalCode code globals locals ∈ st.calls →
        code = c2 ∧ globals = dict ∧ locals = dict := by
      intro c2 st hst hm
      subst hst
      simp only [PyState.call, List.mem_append, List.mem_singleton] at hm
      rcases hm with (hm | hm) | hm
      · exact absurd hm (hstage _ 3 (by decide) hs3)
      · simp at hm
      · simpa using hm
    rcases hrest with ⟨hnone, hrun⟩ | ⟨c2, hcode, ⟨e, _, hrun⟩ | ⟨_, hrun⟩⟩
    · rw [hrun] at hc
      simp only [PyState.call, List.mem_append, List.mem_singleton] at hc
      rcases hc with hc | hc
      · exact absurd hc (hstage _ 3 (by decide) hs3)
      · simp at hc
    · rw [hrun] at hc ⊢
      obtain ⟨h1, h2, h3⟩ := hmem c2 _ rfl hc
      subst h1 h2 h3
      exact ⟨g, source, importer, by rw [hS], hsel, hbind, hcode,
        by simp [PyState.call, hnew], rfl, hdict⟩
    · rw [hrun] at hc ⊢
      obtain ⟨h1, h2, h3⟩ := hmem c2 _ rfl hc
      subst h1 h2 h3
      exact ⟨g, source, importer, by rw [hS], hsel, hbind, hcode,
        by simp [PyState.call, hnew], rfl, hdict⟩

/-- Witness of C13: the run of `/a/b/app.bin` with modules in the shared
archive evaluates the script in the dictionary of the six names. -/
theorem ExecuteScript_namespace_witness :
    ∃ (g : Names) (source : PyStr) (importer : Loader),
      (SetExecutableName unreadableLinkHost "/a/b/app.bin".toList).2 = .ok g ∧
      (source = g.g_FileName ∨ source = g.g_ExclusiveZipFileName ∨
        source = g.g_SharedZipFileName) ∧
      (sharedRuntime none).zipimporter source = some importer ∧
      (sharedRuntime none).get_code importer "cx_Freeze__init__" = some { id := 3 } ∧
      PyCall.dictNew ∈ (ExecuteScript unreadableLinkHost (sharedRuntime none)
        "/a/b/app.bin".toList (some [])).state.calls ∧
      [("__builtins__", PyVal.builtins), ("FILE_NAME", .str "/a/b/app.bin".toList),
        ("DIR_NAME", .str "/a/b".toList),
        ("EXCLUSIVE_ZIP_FILE_NAME", .str "/a/b/app.zip".toList),
        ("SHARED_ZIP_FILE_NAME", .str "/a/b/library.zip".toList),
        ("INITSCRIPT_ZIP_FILE_NAME", .str "/a/b/library.zip".toList)] =
      [("__builtins__", PyVal.builtins), ("FILE_NAME", .str "/a/b/app.bin".toList),
        ("DIR_NAME", .str "/a/b".toList),
        ("EXCLUSIVE_ZIP_FILE_NAME", .str "/a/b/app.zip".toList),
        ("SHARED_ZIP_FILE_NAME", .str "/a/b/library.zip".toList),
        ("INITSCRIPT_ZIP_FILE_NAME", .str "/a/b/library.zip".toList)] ∧
      [("__builtins__", PyVal.builtins), ("FILE_NAME", .str "/a/b/app.bin".toList),
        ("DIR_NAME", .str "/a/b".toList),
        ("EXCLUSIVE_ZIP_FILE_NAME", .str "/a/b/app.zip".toList),
        ("SHARED_ZIP_FILE_NAME", .str "/a/b/library.zip".toList),
        ("INITSCRIPT_ZIP_FILE_NAME", .str "/a/b/library.zip".toList)] =
      [("__builtins__", .builtins), ("FILE_NAME", .str g.g_FileName),
        ("DIR_NAME", .str g.g_DirName),
        ("EXCLUSIVE_ZIP_FILE_NAME", .str g.g_ExclusiveZipFileName),
        ("SHARED_ZIP_FILE_NAME", .str g.g_SharedZipFileName),
        ("INITSCRIPT_ZIP_FILE_NAME", .str source)] :=
  ExecuteScript_namespace unreadableLinkHost (sharedRuntime none) "/a/b/app.bin".toList
    (some []) { id := 3 } _ _ (by decide)

/-- C14: `ExecuteScript` ends with `return 0` exactly when `SetExecutableName`,
`SetPathToSearch`, `GetImporter`, `PopulateInitScriptDict`, the lookup of the
initialization script and its evaluation all succeed; in the GUI host the value
returned is `0` exactly then, and whenever it returns another value that value
is `-1`. -/
theorem ExecuteScript_status (h : Host) (rt : Runtime) (gui : Gui) (fileName : CStr)
    (sysPath : Option (List PyStr)) :
    ((ExecuteScript h rt fileName sysPath).outcome = .ok ↔
      ∃ (g : Names) (s1 s2 s3 : PyState) (importer : Loader) (dict : Dict) (code : Code),
        (SetExecutableName h fileName).2 = .ok g ∧
        SetPathToSearch rt.toInterp g (PyState.initial sysPath) = (.ok (), s1) ∧
        GetImporter rt.toInterp g s1 = (.ok importer, s2) ∧
        PopulateInitScriptDict rt g (PyDict_New rt s2).1 (PyDict_New rt s2).2 =
          (.ok dict, s3) ∧
        rt.get_code importer "cx_Freeze__init__" = some code ∧
        rt.evalCode code dict dict = none) ∧
    ((Win32GUI.ExecuteScript h rt gui fileName sysPath).1 = .returned 0 ↔
      (ExecuteScript h rt fileName sysPath).outcome = .ok) ∧
    (∀ v, (Win32GUI.ExecuteScript h rt gui fileName sysPath).1 = .returned v →
      v = 0 ∨ (v = -1 ∧ v < 0)) ∧
    (∀ con : Console,
      (Console.ExecuteScript h rt con fileName sysPath = .returned 0 ↔
        (ExecuteScript h rt fileName sysPath).outcome = .ok) ∧
      (∀ v, Console.ExecuteScript h rt con fileName sysPath = .returned v →
        v = 0 ∨ (v = -1 ∧ v < 0))) := by
  have hcon : ∀ (con : Console) (v : Int),
      Console.ExecuteScript h rt con fileName sysPath = .returned v →
      ((ExecuteScript h rt fileName sysPath).outcome = .ok ∧ v = 0) ∨
      ((ExecuteScript h rt fileName sysPath).outcome ≠ .ok ∧ v = -1) := by
    intro con v hv
    unfold Console.ExecuteScript at hv
    split at hv
    · next ho => exact Or.inl ⟨ho, by simpa using hv.symm⟩
    · next msg ho => simp [Console.FatalError] at hv
    · next e ho =>
      refine Or.inr ⟨by rw [ho]; simp, ?_⟩
      unfold Console.FatalScriptError at hv
      split at hv
      · simp at hv
      · simpa using hv.symm
    · simp at hv
  have hret : ∀ v, (Win32GUI.ExecuteScript h rt gui fileName sysPath).1 = .returned v →
      ((ExecuteScript h rt fileName sysPath).outcome = .ok ∧ v = 0) ∨
      ((ExecuteScript h rt fileName sysPath).outcome ≠ .ok ∧ v = -1) := by
    intro v hv
    unfold Win32GUI.ExecuteScript at hv
    split at hv
    · next ho => exact Or.inl ⟨ho, by simpa using hv.symm⟩
    · next msg ho =>
      exact Or.inr ⟨by rw [ho]; simp, by simpa [Win32GUI.FatalError] using hv.symm⟩
    · next e ho => exact Or.inr ⟨by rw [ho]; simp, FatalScriptError_returned gui e v hv⟩
    · simp at hv
  refine ⟨⟨ExecuteScript_ok_steps h rt fileName sysPath, ?_⟩, ⟨fun hv => ?_, fun ho => ?_⟩,
    fun v hv => ?_, fun con => ⟨⟨fun hv => ?_, fun ho => ?_⟩, fun v hv => ?_⟩⟩
  · rintro ⟨g, s1, s2, s3, importer, dict, code, hS, hP, hG, hD, hc, he⟩
    exact ExecuteScript_ok_of_steps h rt fileName sysPath g s1 s2 s3 importer dict code
      hS hP hG hD hc he
  · rcases hret 0 hv with ⟨ho, _⟩ | ⟨_, h0⟩
    · exact ho
    · exact absurd h0 (by decide)
  · simp [Win32GUI.ExecuteScript, ho]
  · rcases hret v hv with ⟨_, h0⟩ | ⟨_, h1⟩
    · exact Or.inl h0
    · exact Or.inr ⟨h1, by rw [h1]; decide⟩
  · rcases hcon con 0 hv with ⟨ho, _⟩ | ⟨_, h0⟩
    · exact ho
    · exact absurd h0 (by decide)
  · simp [Console.ExecuteScript, ho]
  · rcases hcon con v hv with ⟨_, h0⟩ | ⟨_, h1⟩
    · exact Or.inl h0
    · exact Or.inr ⟨h1, by rw [h1]; decide⟩

/-- Witness of C14: a script raising a plain error in the GUI host, with no
hook installed and no traceback module, makes `ExecuteScript` return `-1`. -/
theorem ExecuteScript_status_witness :
    (Win32GUI.ExecuteScript unreadableLinkHost
      (sharedRuntime (some { isSystemExit := false, value := .other 9 })) bareGui
      "/a/b/app.bin".toList (some [])).1 = .returned (-1) ∧
    ((-1 : Int) = 0 ∨ ((-1 : Int) = -1 ∧ (-1 : Int) < 0)) :=
  ⟨by rfl, (ExecuteScript_status unreadableLinkHost
    (sharedRuntime (some { isSystemExit := false, value := .other 9 })) bareGui
    "/a/b/app.bin".toList (some [])).2.2.1 (-1) (by rfl)⟩

/-- C15: the first failing step of `ExecuteScript` ends the run. When
`SetExecutableName` fails, `sys.path` is as before and no call into the
interpreter was made; when `SetPathToSearch` fails, neither `zipimport` was
imported nor `zipimporter` called; when `GetImporter` or
`PopulateInitScriptDict` fails, `get_code` was not called and no code was
evaluated. In each case the run ends in the fatal error of that step. -/
theorem ExecuteScript_short_circuit (h : Host) (rt : Runtime) (fileName : CStr)
    (sysPath : Option (List PyStr)) :
    (∀ e, (SetExecutableName h fileName).2 = .error e →
      (ExecuteScript h rt fileName sysPath).outcome = .fatal e ∧
      (ExecuteScript h rt fileName sysPath).state.sysPath = sysPath ∧
      (ExecuteScript h rt fileName sysPath).state.calls = []) ∧
    (∀ g e s1, (SetExecutableName h fileName).2 = .ok g →
      SetPathToSearch rt.toInterp g (PyState.initial sysPath) = (.error e, s1) →
      (ExecuteScript h rt fileName sysPath).outcome = .fatal e ∧
      ∀ c ∈ (ExecuteScript h rt fileName sysPath).state.calls,
        (∀ name, c ≠ .importModule name) ∧ (∀ name, c ≠ .zipimporter name)) ∧
    (∀ g s1 e s2, (SetExecutableName h fileName).2 = .ok g →
      SetPathToSearch rt.toInterp g (PyState.initial sysPath) = (.ok (), s1) →
      GetImporter rt.toInterp g s1 = (.error e, s2) →
      (ExecuteScript h rt fileName sysPath).outcome = .fatal e ∧
      ∀ c ∈ (ExecuteScript h rt fileName sysPath).state.calls,
        (∀ importer name, c ≠ .get_code importer name) ∧
        (∀ code globals locals, c ≠ .evalCode code globals locals)) ∧
    (∀ g s1 importer s2 e s3, (SetExecutableName h fileName).2 = .ok g →
      SetPathToSearch rt.toInterp g (PyState.initial sysPath) = (.ok (), s1) →
      GetImporter rt.toInterp g s1 = (.ok importer, s2) →
      PopulateInitScriptDict rt g (PyDict_New rt s2).1 (PyDict_New rt s2).2 = (.error e, s3) →
      (ExecuteScript h rt fileName sysPath).outcome = .fatal e ∧
      ∀ c ∈ (ExecuteScript h rt fileName sysPath).state.calls,
        (∀ importer name, c ≠ .get_code importer name) ∧
        (∀ code globals locals, c ≠ .evalCode code globals locals)) := by
  have pair : ∀ (r : Result Names), (SetExecutableName h fileName).2 = r →
      SetExecutableName h fileName = ((SetExecutableName h fileName).1, r) := by
    intro r hr; rw [← hr]
  refine ⟨fun e hS => ?_, fun g e s1 hS hP => ?_, fun g s1 e s2 hS hP hG => ?_,
    fun g s1 importer s2 e s3 hS hP hG hD => ?_⟩
  · rw [ExecuteScript_SetExecutableName_error h rt fileName sysPath _ e (pair _ hS)]
    exact ⟨rfl, rfl, rfl⟩
  · obtain ⟨hrun, hst⟩ :=
      ExecuteScript_SetPathToSearch_error h rt fileName sysPath _ g s1 e (pair _ hS) hP
    rw [hrun]
    refine ⟨rfl, fun c hc => ⟨fun name hcn => ?_, fun name hcn => ?_⟩⟩
    · have := hst c hc; rw [hcn] at this; simp [PyCall.stage] at this
    · have := hst c hc; rw [hcn] at this; simp [PyCall.stage] at this
  · obtain ⟨hrun, hst⟩ :=
      ExecuteScript_GetImporter_error h rt fileName sysPath _ g s1 s2 e (pair _ hS) hP hG
    rw [hrun]
    refine ⟨rfl, fun c hc => ⟨fun importer name hcn => ?_, fun code gl lo hcn => ?_⟩⟩
    · have := hst c hc; rw [hcn] at this; simp [PyCall.stage] at this
    · have := hst c hc; rw [hcn] at this; simp [PyCall.stage] at this
  · obtain ⟨hrun, hst⟩ :=
      ExecuteScript_Populate_error h rt fileName sysPath _ g s1 s2 s3 importer e
        (pair _ hS) hP hG hD
    rw [hrun]
    refine ⟨rfl, fun c hc => ⟨fun importer name hcn => ?_, fun code gl lo hcn => ?_⟩⟩
    · have := hst c hc; rw [hcn] at this; simp [PyCall.stage] at this
    · have := hst c hc; rw [hcn] at this; simp [PyCall.stage] at this

/-- Witness of C15: `/nowhere` cannot be stat-ed in `cycleHost`, so the run
ends at once and `sys.path` keeps its one entry. -/
theorem ExecuteScript_short_circuit_witness :
    (SetExecutableName cycleHost "/nowhere".toList).2 = .error "unable to stat file" ∧
    (ExecuteScript cycleHost (sharedRuntime none) "/nowhere".toList
      (some ["/usr/lib".toList])).outcome = .fatal "unable to stat file" ∧
    (ExecuteScript cycleHost (sharedRuntime none) "/nowhere".toList
      (some ["/usr/lib".toList])).state.sysPath = some ["/usr/lib".toList] ∧
    (ExecuteScript cycleHost (sharedRuntime none) "/nowhere".toList
      (some ["/usr/lib".toList])).state.calls = [] :=
  ⟨by rfl, (ExecuteScript_short_circuit cycleHost (sharedRuntime none) "/nowhere".toList
    (some ["/usr/lib".toList])).1 "unable to stat file" (by rfl)⟩

/-- C16 as stated fails: a `SystemExit` whose code is the integer `2 ^ 31` does
not fit the C `long` of the GUI host; `PyInt_AsLong` returns `-1` and the
process ends with the status `-1`, not `2 ^ 31`. -/
theorem FatalScriptError_code_out_of_range :
    bareGui.getattr (.other 4) "code" = some (.int (2 ^ 31)) ∧
    Win32GUI.FatalScriptError bareGui { isSystemExit := true, value := .other 4 } =
      (.exited (-1), []) ∧
    Win32GUI.ExecuteScript unreadableLinkHost
      (sharedRuntime (some { isSystemExit := true, value := .other 4 })) bareGui
      "/a/b/app.bin".toList (some []) = (.exited (-1), []) :=
  ⟨by rfl, by rfl, by rfl⟩

/-- C16, amended: in the GUI host, when the initialization script raises
`SystemExit` with an integer code `n` that fits a C `long`
(`-2 ^ 31 ≤ n < 2 ^ 31`), the process ends with the exit status `n` and no
message box is shown. -/
theorem FatalScriptError_integer_code (gui : Gui) (e : PyExc) (n : Int)
    (hse : e.isSystemExit = true) (hcode : gui.getattr e.value "code" = some (.int n))
    (hlo : -(2 ^ 31 : Int) ≤ n) (hhi : n < (2 ^ 31 : Int)) :
    Win32GUI.FatalScriptError gui e = (.exited n, []) ∧
    ∀ (h : Host) (rt : Runtime) (fileName : CStr) (sysPath : Option (List PyStr)),
      (ExecuteScript h rt fileName sysPath).outcome = .scriptError e →
      Win32GUI.ExecuteScript h rt gui fileName sysPath = (.exited n, []) := by
  have key : Win32GUI.FatalScriptError gui e = (.exited n, []) := by
    rw [HandleSystemExit_int gui e n hse hcode, PyInt_AsLong_fits n hlo hhi]
  exact ⟨key, fun h rt fileName sysPath ho => by
    rw [Win32GUI_ExecuteScript_scriptError h rt gui fileName sysPath e ho, key]⟩

/-- Witness of the amended C16: the code 7 gives the exit status 7. -/
theorem FatalScriptError_integer_code_witness :
    Win32GUI.FatalScriptError bareGui { isSystemExit := true, value := .other 1 } =
      (.exited 7, []) :=
  (FatalScriptError_integer_code bareGui { isSystemExit := true, value := .other 1 } 7
    rfl (by rfl) (by decide) (by decide)).1

/-- C17: in the GUI host, when the initialization script raises `SystemExit`
with a code that is neither an integer nor `None` and has a string form, one
message box with that string as its text is shown (its caption is the
attribute `caption` of the exception when that is a string, and
`cx_Freeze: Application Terminated` otherwise) and the process ends with the
exit status 1. -/
theorem FatalScriptError_message_code (gui : Gui) (e : PyExc) (payload : PyObj)
    (message : PyStr) (hse : e.isSystemExit = true)
    (hcode : gui.getattr e.value "code" = some payload) (hnone : payload ≠ .none)
    (hint : ∀ n, payload ≠ .int n) (hstr : PyObject_Str gui payload = some message) :
    Win32GUI.FatalScriptError gui e =
      (.exited 1,
        [{ text := message,
           caption := Win32GUI.captionOf gui e.value "cx_Freeze: Application Terminated" }]) ∧
    ∀ (h : Host) (rt : Runtime) (fileName : CStr) (sysPath : Option (List PyStr)),
      (ExecuteScript h rt fileName sysPath).outcome = .scriptError e →
      Win32GUI.ExecuteScript h rt gui fileName sysPath =
        (.exited 1,
          [{ text := message,
             caption :=
               Win32GUI.captionOf gui e.value "cx_Freeze: Application Terminated" }]) := by
  have key : Win32GUI.FatalScriptError gui e =
      (.exited 1,
        [{ text := message,
           caption :=
             Win32GUI.captionOf gui e.value "cx_Freeze: Application Terminated" }]) := by
    cases payload with
    | none => exact absurd rfl hnone
    | int n => exact absurd rfl (hint n)
    | str t =>
      simp only [PyObject_Str, Option.some.injEq] at hstr
      simp [Win32GUI.FatalScriptError, Win32GUI.HandleSystemExitException, hse, hcode,
        PyObject_Str, hstr, Win32GUI.DisplayMessageFromPythonObjects]
    | other i =>
      simp only [PyObject_Str] at hstr
      simp [Win32GUI.FatalScriptError, Win32GUI.HandleSystemExitException, hse, hcode,
        PyObject_Str, hstr, Win32GUI.DisplayMessageFromPythonObjects]
  exact ⟨key, fun h rt fileName sysPath ho => by
    rw [Win32GUI_ExecuteScript_scriptError h rt gui fileName sysPath e ho, key]⟩

/-- Witness of C17: the code `bye` shows the text `bye` and gives the exit
status 1. -/
theorem FatalScriptError_message_code_witness :
    Win32GUI.FatalScriptError bareGui { isSystemExit := true, value := .other 2 } =
      (.exited 1,
        [{ text := "bye".toList,
           caption := Win32GUI.captionOf bareGui (.other 2)
             "cx_Freeze: Application Terminated" }]) :=
  (FatalScriptError_message_code bareGui { isSystemExit := true, value := .other 2 }
    (.str "bye".toList) "bye".toList rfl (by rfl) (by decide) (by intro n; exact nofun)
    rfl).1

/-- C18: in the GUI host, when the initialization script raises `SystemExit`
whose code is `None`, the process ends with the exit status 0 and no message
box is shown. -/
theorem FatalScriptError_none_code (gui : Gui) (e : PyExc) (hse : e.isSystemExit = true)
    (hcode : gui.getattr e.value "code" = some .none) :
    Win32GUI.FatalScriptError gui e = (.exited 0, []) ∧
    ∀ (h : Host) (rt : Runtime) (fileName : CStr) (sysPath : Option (List PyStr)),
      (ExecuteScript h rt fileName sysPath).outcome = .scriptError e →
      Win32GUI.ExecuteScript h rt gui fileName sysPath = (.exited 0, []) := by
  have key : Win32GUI.FatalScriptError gui e = (.exited 0, []) := by
    simp [Win32GUI.FatalScriptError, Win32GUI.HandleSystemExitException, hse, hcode]
  exact ⟨key, fun h rt fileName sysPath ho => by
    rw [Win32GUI_ExecuteScript_scriptError h rt gui fileName sysPath e ho, key]⟩

/-- Witness of C18 on the `SystemExit` value 3 of `bareGui`, whose code is `None`. -/
theorem FatalScriptError_none_code_witness :
    Win32GUI.FatalScriptError bareGui { isSystemExit := true, value := .other 3 } =
      (.exited 0, []) :=
  (FatalScriptError_none_code bareGui { isSystemExit := true, value := .other 3 }
    rfl (by rfl)).1

/-- C19 fails on the code for a chain of 25 or more links. In every run of
`SetExecutableName` that leaves the loop through `break`, and so in every run
with a defined result, `DIR_NAME` is `FILE_NAME` cut at its last separator (a
strict prefix of it, or empty) and both archive names are derived from that
same `FILE_NAME`. But the names are computed from the C variable `fileName`,
not from `g_FileName`: after 25 links, as from `/a/l` in `chain25Host`, the
loop ends without `break`, `g_FileName` is the path reached, `/b/app`, while
`fileName` was last assigned the path of the 25th link, in another directory,
and its buffer has been released; the names come from whatever that memory
holds, and no result is defined. -/
theorem SetExecutableName_dirname_of_last_link :
    (∀ (h : Host) (P : CStr) (g : Names), (SetExecutableName h P).2 = .ok g →
      GetDirName g.g_FileName = .ok g.g_DirName ∧
      (∃ rest, g.g_FileName = g.g_DirName ++ rest ∧ (g.g_DirName = [] ∨ rest ≠ [])) ∧
      g.g_ExclusiveZipFileName = exclusiveZip g.g_FileName ∧
      g.g_SharedZipFileName = sharedZip g.g_DirName) ∧
    (followLinks chain25Host 25 "/a/l".toList = some "/b/app".toList ∧
      chain25Host.lstat "/b/app".toList = .notLink ∧
      (∃ v : LoopVars,
        (SetExecutableName.loop chain25Host 25
          { g_FileName := "/a/l".toList, fileName := "/a/l".toList,
            linkData := chain25Host.stack }).2 = .ok v ∧
        v.g_FileName = "/b/app".toList ∧
        v.fileName = "/a/lllllllllllllllllllllllll".toList ∧ v.released = true) ∧
      (SetExecutableName chain25Host "/a/l".toList).2 = .undefined) := by
  refine ⟨fun h P g hS => ?_, by rfl, by rfl, ⟨_, by rfl, by rfl, by rfl, by rfl⟩, by rfl⟩
  obtain ⟨hd, he, hs⟩ := SetExecutableName_ok_names h P g hS
  refine ⟨by rw [hd]; exact GetDirName_eq_spec _, ?_, he, hs⟩
  have htake : specDirName g.g_FileName =
      g.g_FileName.take (GetDirName.scan g.g_FileName g.g_FileName.length) := by
    have h1 := GetDirName_eq g.g_FileName
    rw [GetDirName_eq_spec] at h1
    injection h1
  refine ⟨g.g_FileName.drop (GetDirName.scan g.g_FileName g.g_FileName.length), ?_, ?_⟩
  · rw [hd, htake, List.take_append_drop]
  · by_cases hne : 1 ≤ g.g_FileName.length
    · right
      intro hnil
      have hlt := specDirName_length_lt g.g_FileName hne
      have hlen := congrArg List.length (List.take_append_drop
        (GetDirName.scan g.g_FileName g.g_FileName.length) g.g_FileName)
      rw [← htake, hnil] at hlen
      simp only [List.append_nil] at hlen
      omega
    · left
      have h0 : g.g_FileName = [] := List.length_eq_zero.mp (by omega)
      rw [hd, h0]
      rfl

/-- Witness of C19: the run on `/usr/bin/app` in `chainHost` leaves the loop
through `break`, and its names are derived from the stored `FILE_NAME`. -/
theorem SetExecutableName_dirname_of_last_link_witness :
    (SetExecutableName chainHost "/usr/bin/app".toList).2 =
      .ok { g_FileName := "/opt/app/run.bin".toList, g_DirName := "/opt/app".toList,
            g_ExclusiveZipFileName := "/opt/app/run.zip".toList,
            g_SharedZipFileName := "/opt/app/library.zip".toList } ∧
    (GetDirName "/opt/app/run.bin".toList = .ok "/opt/app".toList ∧
      (∃ rest, "/opt/app/run.bin".toList = "/opt/app".toList ++ rest ∧
        ("/opt/app".toList = [] ∨ rest ≠ [])) ∧
      "/opt/app/run.zip".toList = exclusiveZip "/opt/app/run.bin".toList ∧
      "/opt/app/library.zip".toList = sharedZip "/opt/app".toList) :=
  ⟨by rfl, SetExecutableName_dirname_of_last_link.1 chainHost "/usr/bin/app".toList
    { g_FileName := "/opt/app/run.bin".toList, g_DirName := "/opt/app".toList,
      g_ExclusiveZipFileName := "/opt/app/run.zip".toList,
      g_SharedZipFileName := "/opt/app/library.zip".toList } (by rfl)⟩

/-- C20: in every file system, cyclic ones included, `SetExecutableName` makes
at most 25 calls of `lstat` (one for each iteration of its loop) and at most
25 calls of `readlink`; on the link `/l` to itself it makes exactly 25 of
each. -/
theorem SetExecutableName_at_most_25 :
    (∀ (h : Host) (fileName : CStr),
      (SetExecutableName h fileName).1.countP SysCall.isLstat ≤ 25 ∧
      (SetExecutableName h fileName).1.countP SysCall.isReadlink ≤ 25) ∧
    (SetExecutableName cycleHost "/l".toList).1.countP SysCall.isLstat = 25 ∧
    (SetExecutableName cycleHost "/l".toList).1.countP SysCall.isReadlink = 25 := by
  refine ⟨fun h fileName => ?_, by rfl, by rfl⟩
  rw [SetExecutableName_calls]
  exact ⟨(loop_counts h 25 _).2, (loop_counts h 25 _).1⟩

/-- C21 as stated fails: in a run in which `SetExecutableName` fails (here the
path cannot be stat-ed) `SetPathToSearch` is not invoked at all and `sys.path`
is not modified. -/
theorem ExecuteScript_path_not_set :
    (SetExecutableName cycleHost "/nowhere".toList).2 = .error "unable to stat file" ∧
    (ExecuteScript cycleHost (sharedRuntime none) "/nowhere".toList
      (some ["/usr/lib".toList])).state.calls.countP PyCall.isSysPathLookup = 0 ∧
    (ExecuteScript cycleHost (sharedRuntime none) "/nowhere".toList
      (some ["/usr/lib".toList])).state.sysPath = some ["/usr/lib".toList] :=
  ⟨by rfl, by rfl, by rfl⟩

/-- C21, amended: a run of `ExecuteScript` in which `SetExecutableName` fails
does not invoke `SetPathToSearch` and leaves `sys.path` as it was; a run in
which it succeeds invokes `SetPathToSearch` exactly once, and every call of
that invocation comes before every other call into the interpreter (the import
of `zipimport`, every `zipimporter` call, the dictionary, `get_code`, the
evaluation). -/
theorem ExecuteScript_path_set_once (h : Host) (rt : Runtime) (fileName : CStr)
    (sysPath : Option (List PyStr)) :
    (∀ e, (SetExecutableName h fileName).2 = .error e →
      (ExecuteScript h rt fileName sysPath).state.calls.countP PyCall.isSysPathLookup = 0 ∧
      (ExecuteScript h rt fileName sysPath).state.sysPath = sysPath) ∧
    (∀ g, (SetExecutableName h fileName).2 = .ok g →
      (ExecuteScript h rt fileName sysPath).state.calls.countP PyCall.isSysPathLookup = 1 ∧
      ∃ post : List PyCall,
        (ExecuteScript h rt fileName sysPath).state.calls =
          (SetPathToSearch rt.toInterp g (PyState.initial sysPath)).2.calls ++ post ∧
        (∀ c ∈ (SetPathToSearch rt.toInterp g (PyState.initial sysPath)).2.calls,
          c.stage = 1) ∧
        (∀ c ∈ post, 2 ≤ c.stage)) := by
  refine ⟨fun e hS => ?_, fun g hS => ?_⟩
  · have hpair : SetExecutableName h fileName = ((SetExecutableName h fileName).1, .error e) := by
      rw [← hS]
    rw [ExecuteScript_SetExecutableName_error h rt fileName sysPath _ e hpair]
    exact ⟨rfl, rfl⟩
  · obtain ⟨post, hcalls, hpost, _⟩ := ExecuteScript_after_path h rt fileName sysPath g hS
    obtain ⟨hone, _, hstage⟩ := SetPathToSearch_lookup_count rt.toInterp g sysPath
    refine ⟨?_, post, hcalls, hstage, hpost⟩
    rw [hcalls, List.countP_append, hone]
    have : post.countP PyCall.isSysPathLookup = 0 := by
      rw [List.countP_eq_zero]
      intro c hc hl
      have := hpost c hc
      cases c <;> simp [PyCall.isSysPathLookup, PyCall.stage] at hl this
    rw [this]

/-- Witness of the amended C21: the run of `/a/b/app.bin` invokes
`SetPathToSearch` once. -/
theorem ExecuteScript_path_set_once_witness :
    (ExecuteScript unreadableLinkHost (sharedRuntime none) "/a/b/app.bin".toList
      (some [])).state.calls.countP PyCall.isSysPathLookup = 1 :=
  ((ExecuteScript_path_set_once unreadableLinkHost (sharedRuntime none)
    "/a/b/app.bin".toList (some [])).2 appNames (by rfl)).1

/-- C23: in every run of `ExecuteScript` the loader is asked for at most one
script, and only under the name `cx_Freeze__init__`. In a run that reaches the
loader (names, search path, loader and dictionary were set up) it is asked
exactly once, and it is the loader `GetImporter` returned that is asked; if it
cannot supply the script, the run ends in the fatal error
`unable to locate initialization module`, the GUI host returns the negative
status `-1` after showing that message, and no code is evaluated. -/
theorem ExecuteScript_one_script (h : Host) (rt : Runtime) (gui : Gui) (fileName : CStr)
    (sysPath : Option (List PyStr)) :
    ((ExecuteScript h rt fileName sysPath).state.calls.filter PyCall.isGetCode = [] ∨
      ∃ importer, (ExecuteScript h rt fileName sysPath).state.calls.filter PyCall.isGetCode =
        [.get_code importer "cx_Freeze__init__"]) ∧
    ∀ (g : Names) (s1 s2 s3 : PyState) (importer : Loader) (dict : Dict),
      (SetExecutableName h fileName).2 = .ok g →
      SetPathToSearch rt.toInterp g (PyState.initial sysPath) = (.ok (), s1) →
      GetImporter rt.toInterp g s1 = (.ok importer, s2) →
      PopulateInitScriptDict rt g (PyDict_New rt s2).1 (PyDict_New rt s2).2 = (.ok dict, s3) →
      (ExecuteScript h rt fileName sysPath).state.calls.filter PyCall.isGetCode =
        [.get_code importer "cx_Freeze__init__"] ∧
      (rt.get_code importer "cx_Freeze__init__" = none →
        (ExecuteScript h rt fileName sysPath).outcome =
          .fatal "unable to locate initialization module" ∧
        Win32GUI.ExecuteScript h rt gui fileName sysPath =
          (.returned (-1), [{ text := "unable to locate initialization module".toList,
                              caption := "cx_Freeze Fatal Error".toList }]) ∧
        ∀ code globals locals,
          PyCall.evalCode code globals locals ∉
            (ExecuteScript h rt fileName sysPath).state.calls) := by
  refine ⟨ExecuteScript_get_code_calls h rt fileName sysPath, ?_⟩
  intro g s1 s2 s3 importer dict hS hP hG hD
  have hs3 := calls_after_Populate rt sysPath g s1 s2 s3 importer _ hP hG hD
  have hf := filter_isGetCode_of_stage _ hs3.1
  obtain ⟨hnone, hsome⟩ := ExecuteScript_of_populated h rt fileName sysPath g s1 s2 s3
    importer dict hS hP hG hD
  refine ⟨?_, fun hc => ?_⟩
  · cases hc : rt.get_code importer "cx_Freeze__init__" with
    | none =>
      rw [(hnone hc).2, List.filter_append, hf]
      rfl
    | some code =>
      rw [hsome code hc, List.filter_append, hf]
      rfl
  · obtain ⟨hout, hcalls⟩ := hnone hc
    refine ⟨hout, ?_, ?_⟩
    · simp only [Win32GUI.ExecuteScript, hout]
      rfl
    · intro code globals locals hmem
      rw [hcalls] at hmem
      simp only [List.mem_append, List.mem_singleton] at hmem
      rcases hmem with hmem | hmem
      · have := hs3.1 _ hmem
        simp [PyCall.stage] at this
      · cases hmem

/-- Witness of C23: in the run of `/a/b/app.bin` the loader of
`/a/b/library.zip` is asked once, for `cx_Freeze__init__`. -/
theorem ExecuteScript_one_script_witness :
    (ExecuteScript unreadableLinkHost (sharedRuntime none) "/a/b/app.bin".toList
      (some [])).state.calls.filter PyCall.isGetCode =
      [.get_code ⟨3⟩ "cx_Freeze__init__"] :=
  ((ExecuteScript_one_script unreadableLinkHost (sharedRuntime none) bareGui
    "/a/b/app.bin".toList (some [])).2 appNames
    (SetPathToSearch (sharedRuntime none).toInterp appNames (PyState.initial (some []))).2
    (GetImporter (sharedRuntime none).toInterp appNames
      (SetPathToSearch (sharedRuntime none).toInterp appNames (PyState.initial (some []))).2).2
    (PopulateInitScriptDict (sharedRuntime none) appNames
      (PyDict_New (sharedRuntime none) (GetImporter (sharedRuntime none).toInterp appNames
        (SetPathToSearch (sharedRuntime none).toInterp appNames
          (PyState.initial (some []))).2).2).1
      (PyDict_New (sharedRuntime none) (GetImporter (sharedRuntime none).toInterp appNames
        (SetPathToSearch (sharedRuntime none).toInterp appNames
          (PyState.initial (some []))).2).2).2).2
    ⟨3⟩
    [("__builtins__", .builtins), ("FILE_NAME", .str "/a/b/app.bin".toList),
      ("DIR_NAME", .str "/a/b".toList),
      ("EXCLUSIVE_ZIP_FILE_NAME", .str "/a/b/app.zip".toList),
      ("SHARED_ZIP_FILE_NAME", .str "/a/b/library.zip".toList),
      ("INITSCRIPT_ZIP_FILE_NAME", .str "/a/b/library.zip".toList)]
    (by rfl) (by rfl) (by rfl) (by rfl)).1

/-- C22 as stated fails: with the module `traceback` missing from the frozen
application, a failing script whose error value has the string attribute
`caption` (no hook installed, not a `SystemExit`) is reported under the caption
`cx_Freeze: Python error in main script (traceback unavailable)`, which is
neither that attribute nor the default caption. -/
theorem FatalScriptError_caption_ignored :
    (captionGui false).excepthook = none ∧
    (captionGui false).getattr (.other 5) "caption" = some (.str "My App".toList) ∧
    Win32GUI.FatalScriptError (captionGui false) { isSystemExit := false, value := .other 5 } =
      (.returned (-1),
        [{ text := ("Cannot import traceback module.\nException: No module named traceback" ++
              "\nOriginal Exception: boom").toList,
           caption :=
             "cx_Freeze: Python error in main script (traceback unavailable)".toList }]) ∧
    "cx_Freeze: Python error in main script (traceback unavailable)".toList ≠
      "My App".toList ∧
    "cx_Freeze: Python error in main script (traceback unavailable)".toList ≠
      "cx_Freeze: Python error in main script".toList :=
  ⟨rfl, by decide, by rfl, by decide, by decide⟩

/-- C22, amended: when the script fails with an error other than `SystemExit`
and no custom hook is installed, `FatalScriptError` returns `-1`. If the
traceback can be formatted (the module `traceback` is imported, it has
`format_exception`, that call succeeds and its result joins into the text
`message`), exactly one message box is shown, its text is `message`, and its
caption is the attribute `caption` of the error value when that exists and is
a string and `cx_Freeze: Python error in main script` otherwise. If the
traceback cannot be formatted, every box shown has the caption
`cx_Freeze: Python error in main script (traceback unavailable)` or
`cx_Freeze Fatal Error`. -/
theorem FatalScriptError_caption (gui : Gui) (e : PyExc) (hse : e.isSystemExit = false)
    (hhook : gui.excepthook = none ∨ gui.excepthook = gui.origExcepthook) :
    (Win32GUI.FatalScriptError gui e).1 = .returned (-1) ∧
    (∀ result message, gui.importTraceback = true → gui.hasFormatException = true →
      gui.format_exception e = some result → cxString_Join result = some message →
      (∀ c, gui.getattr e.value "caption" = some (.str c) →
        (Win32GUI.FatalScriptError gui e).2 = [{ text := message, caption := c }]) ∧
      ((∀ c, gui.getattr e.value "caption" ≠ some (.str c)) →
        (Win32GUI.FatalScriptError gui e).2 =
          [{ text := message, caption := "cx_Freeze: Python error in main script".toList }])) ∧
    ((gui.importTraceback = false ∨ gui.hasFormatException = false ∨
        gui.format_exception e = none ∨
        ∃ result, gui.format_exception e = some result ∧ cxString_Join result = none) →
      ∀ box ∈ (Win32GUI.FatalScriptError gui e).2,
        box.caption =
          "cx_Freeze: Python error in main script (traceback unavailable)".toList ∨
        box.caption = "cx_Freeze Fatal Error".toList) := by
  rw [FatalScriptError_no_hook gui e hse hhook]
  refine ⟨?_, ?_, ?_⟩
  · unfold Win32GUI.FatalScriptError.format
    split
    · exact FatalPythonErrorNoTraceback_returned _ _ _
    · split
      · exact FatalPythonErrorNoTraceback_returned _ _ _
      · split
        · exact FatalPythonErrorNoTraceback_returned _ _ _
        · split
          · exact FatalPythonErrorNoTraceback_returned _ _ _
          · rfl
  · intro result message hi hf hr hj
    refine ⟨fun c hc => ?_, fun hc => ?_⟩
    · simp [Win32GUI.FatalScriptError.format, hi, hf, hr, hj, Win32GUI.captionOf, hc,
        Win32GUI.DisplayMessageFromPythonObjects]
    · have hcap : Win32GUI.captionOf gui e.value "cx_Freeze: Python error in main script" =
          "cx_Freeze: Python error in main script".toList := by
        unfold Win32GUI.captionOf
        split
        · rename_i c hcc
          exact absurd hcc (hc c)
        · rfl
      simp only [Win32GUI.FatalScriptError.format, hi, hf, hr, hj, hcap,
        Win32GUI.DisplayMessageFromPythonObjects, Bool.not_true, Bool.false_eq_true, if_false]
  · intro hno
    unfold Win32GUI.FatalScriptError.format
    split
    · exact FatalPythonErrorNoTraceback_captions _ _ _
    · split
      · exact FatalPythonErrorNoTraceback_captions _ _ _
      · split
        · exact FatalPythonErrorNoTraceback_captions _ _ _
        · split
          · exact FatalPythonErrorNoTraceback_captions _ _ _
          · rename_i hi hf _ result hr _ message hj
            rcases hno with h1 | h1 | h1 | ⟨r2, h1, h2⟩
            · simp [h1] at hi
            · simp [h1] at hf
            · rw [h1] at hr
              cases hr
            · rw [h1] at hr
              cases hr
              rw [h2] at hj
              cases hj

/-- Witness of the amended C22: with the module `traceback` at hand the error
value 5 is reported under its own caption `My App`, with the formatted
traceback as the text. -/
theorem FatalScriptError_caption_witness :
    Win32GUI.FatalScriptError (captionGui true) { isSystemExit := false, value := .other 5 } =
      (.returned (-1),
        [{ text := "Traceback (most recent call last):\nValueError: boom\n".toList,
           caption := "My App".toList }]) :=
  have hc := FatalScriptError_caption (captionGui true)
    { isSystemExit := false, value := .other 5 } rfl (Or.inl rfl)
  Prod.ext hc.1
    ((hc.2.1 [.str "Traceback (most recent call last):\n".toList,
        .str "ValueError: boom\n".toList]
      "Traceback (most recent call last):\nValueError: boom\n".toList
      rfl rfl rfl (by rfl)).1 "My App".toList (by decide))

/-- C24: once the arguments are prepared (every allocation before
`Py_Initialize` succeeds), whenever `ExecuteScript` returns to the entry point
with the value `v`, `main` of the console host and `WinMain` of the GUI host
return `0` if `v = 0` and `1` if `v < 0`, and `WinMain` shows no further
message box. In particular, when the script ends with an exception and
`ExecuteScript` returns, both return `1`. -/
theorem entry_point_status (h : Host) (rt : Runtime) (con : Console) (gui : Gui)
    (st : Startup) (fileName : CStr) (sysPath : Option (List PyStr)) (hw : st.wargv = true)
    (hargs : ∀ a ∈ st.args, a.1 = true) :
    (∀ v, Console.ExecuteScript h rt con fileName sysPath = .returned v →
      (v = 0 → Console.main h rt con st fileName sysPath = .returned 0) ∧
      (v < 0 → Console.main h rt con st fileName sysPath = .returned 1)) ∧
    (∀ v boxes, Win32GUI.ExecuteScript h rt gui fileName sysPath = (.returned v, boxes) →
      (v = 0 → Win32GUI.WinMain h rt gui st fileName sysPath = (.returned 0, boxes)) ∧
      (v < 0 → Win32GUI.WinMain h rt gui st fileName sysPath = (.returned 1, boxes))) ∧
    (∀ e, (ExecuteScript h rt fileName sysPath).outcome = .scriptError e →
      (∀ v, Console.ExecuteScript h rt con fileName sysPath = .returned v →
        Console.main h rt con st fileName sysPath = .returned 1) ∧
      (∀ v boxes, Win32GUI.ExecuteScript h rt gui fileName sysPath = (.returned v, boxes) →
        Win32GUI.WinMain h rt gui st fileName sysPath = (.returned 1, boxes))) := by
  refine ⟨fun v hv => ?_, fun v boxes hv => ?_, fun e he => ⟨fun v hv => ?_, fun v boxes hv => ?_⟩⟩
  · rw [Console_main_of_returned h rt con st fileName sysPath hw hargs v hv]
    constructor
    · intro h0
      simp [h0]
    · intro hneg
      simp [hneg]
  · rw [WinMain_of_returned h rt gui st fileName sysPath hw hargs v boxes hv]
    constructor
    · intro h0
      simp [h0]
    · intro hneg
      simp [hneg]
  · rw [Console_main_of_returned h rt con st fileName sysPath hw hargs v hv]
    have hv2 := hv
    simp only [Console.ExecuteScript, he, Console.FatalScriptError] at hv2
    split at hv2
    · cases hv2
    · cases hv2
      rfl
  · rw [WinMain_of_returned h rt gui st fileName sysPath hw hargs v boxes hv]
    have hv2 := hv
    simp only [Win32GUI.ExecuteScript, he] at hv2
    have := FatalScriptError_returned gui e v (by rw [hv2])
    subst this
    rfl

/-- Witness of C24: a script of `/a/b/app.bin` that ends with an exception
other than `SystemExit` makes `main` return `1`. -/
theorem entry_point_status_witness :
    Console.main unreadableLinkHost (sharedRuntime (some ⟨false, .other 9⟩)) ⟨fun _ => 0⟩
      ⟨true, [(true, 12)]⟩ "/a/b/app.bin".toList (some []) = .returned 1 :=
  ((entry_point_status unreadableLinkHost (sharedRuntime (some ⟨false, .other 9⟩))
    ⟨fun _ => 0⟩ bareGui ⟨true, [(true, 12)]⟩ "/a/b/app.bin".toList (some []) rfl
    (by simp)).1 (-1) (by rfl)).2 (by decide)

/-- C25 as stated fails: for the module path `C:\Tools\launcher`, which has no
file extension, the launcher opens `C:\Tools\laun_shortcut.lnk`, while removing
the extension and appending `_shortcut.lnk` gives
`C:\Tools\launcher_shortcut.lnk`. -/
theorem wWinMain_no_extension :
    ShortcutLauncher.wWinMain "C:\\Tools\\launcher".toList [] =
      some ({ operation := "open".toList, file := "C:\\Tools\\laun_shortcut.lnk".toList,
              parameters := [] }, 0) ∧
    winRemoveExtension "C:\\Tools\\launcher".toList ++ "_shortcut.lnk".toList =
      "C:\\Tools\\launcher_shortcut.lnk".toList ∧
    "C:\\Tools\\laun_shortcut.lnk".toList ≠ "C:\\Tools\\launcher_shortcut.lnk".toList :=
  ⟨by rfl, by rfl, by decide⟩

/-- C25, amended: for every module path whose reported form (the path cut to
999 characters) has at least four characters, the launcher opens the reported
path without its last four characters followed by `_shortcut.lnk`, passes its
own command line on, and returns 0. When the module path has at most 999
characters and ends in a dot and an extension of three characters (such as
`.exe`), that is the path with the file extension removed followed by
`_shortcut.lnk`. -/
theorem wWinMain_drops_four (modulePath lpCmdLine : List Char)
    (hlen : 4 ≤ (GetModuleFileNameW modulePath 1000).length) :
    ShortcutLauncher.wWinMain modulePath lpCmdLine =
      some ({ operation := "open".toList,
              file := (GetModuleFileNameW modulePath 1000).take
                ((GetModuleFileNameW modulePath 1000).length - 4) ++ "_shortcut.lnk".toList,
              parameters := lpCmdLine }, 0) ∧
    (∀ stem ext, modulePath = stem ++ '.' :: ext → ext.length = 3 → '.' ∉ ext →
      '\\' ∉ ext → '/' ∉ ext → modulePath.length ≤ 999 →
      ShortcutLauncher.wWinMain modulePath lpCmdLine =
        some ({ operation := "open".toList,
                file := winRemoveExtension modulePath ++ "_shortcut.lnk".toList,
                parameters := lpCmdLine }, 0)) := by
  refine ⟨wWinMain_eq modulePath lpCmdLine hlen, ?_⟩
  intro stem ext hp hext h3 h1 h2 hle
  rw [wWinMain_eq modulePath lpCmdLine hlen]
  have hrep : GetModuleFileNameW modulePath 1000 = modulePath := by
    simp only [GetModuleFileNameW]
    exact List.take_of_length_le (by omega)
  rw [hrep, hp, winRemoveExtension_dot stem ext h1 h2 h3]
  have htake : (stem ++ '.' :: ext).take ((stem ++ '.' :: ext).length - 4) = stem := by
    have hl : (stem ++ '.' :: ext).length - 4 = stem.length := by
      simp only [List.length_append, List.length_cons]
      omega
    rw [hl, List.take_left']
    rfl
  rw [htake]

/-- Witness of the amended C25: started as `C:\Thonny\thonny.exe` the launcher
opens `C:\Thonny\thonny_shortcut.lnk`. -/
theorem wWinMain_drops_four_witness :
    ShortcutLauncher.wWinMain "C:\\Thonny\\thonny.exe".toList "demo.py".toList =
      some ({ operation := "open".toList, file := "C:\\Thonny\\thonny_shortcut.lnk".toList,
              parameters := "demo.py".toList }, 0) :=
  (wWinMain_drops_four "C:\\Thonny\\thonny.exe".toList "demo.py".toList (by decide)).1

/-- C26: when `ExtAddIcon` cannot read its arguments or cannot begin the
update it returns `NULL` and never calls `EndUpdateResource`. Otherwise its
calls are `BeginUpdateResource`, some calls of `UpdateResource`, and one final
`EndUpdateResource` whose `fDiscard` is true if and only if an earlier step
failed (reading the icon file, building or adding the group icon resource, or
adding an icon image); and it returns `None` if and only if every one of
those steps and the final `EndUpdateResource` succeeded, `NULL` otherwise. -/
theorem ExtAddIcon_discards_iff_failed (api : ResourceApi) :
    ((api.parseTuple = false ∨ api.BeginUpdateResource = false) →
      (ExtAddIcon api).1 = none ∧
      ∀ d, ResourceCall.EndUpdateResource d ∉ (ExtAddIcon api).2) ∧
    (api.parseTuple = true → api.BeginUpdateResource = true →
      (∃ d updates, (ExtAddIcon api).2 =
          .BeginUpdateResource :: updates ++ [.EndUpdateResource d] ∧
        (∀ c ∈ updates, ∃ type id size, c = ResourceCall.UpdateResource type id size) ∧
        (d = true ↔ ExtAddIcon.stepsSucceed api = false)) ∧
      ((ExtAddIcon api).1 = some () ↔
        ExtAddIcon.stepsSucceed api = true ∧ api.EndUpdateResource false = true) ∧
      ((ExtAddIcon api).1 = none ↔
        ¬ (ExtAddIcon.stepsSucceed api = true ∧ api.EndUpdateResource false = true))) := by
  constructor
  · intro hfail
    cases hp : api.parseTuple with
    | false => simp [ExtAddIcon, hp]
    | true =>
      rcases hfail with hf | hf
      · rw [hp] at hf
        cases hf
      · simp [ExtAddIcon, hp, hf]
  · intro hp hb
    have hok := ExtAddIcon_steps_ok api
    have hsome : (ExtAddIcon api).1 = some () ↔
        ExtAddIcon.stepsSucceed api = true ∧ api.EndUpdateResource false = true := by
      rw [← hok]
      cases hs : (ExtAddIcon.steps api).1 <;> cases he : api.EndUpdateResource false <;>
        cases he2 : api.EndUpdateResource true <;> simp [ExtAddIcon, hp, hb, hs, he, he2]
    refine ⟨⟨!(ExtAddIcon.steps api).1, (ExtAddIcon.steps api).2, ?_,
      ExtAddIcon_steps_calls api, ?_⟩, hsome, ?_⟩
    · cases hs : (ExtAddIcon.steps api).1 <;> cases he : api.EndUpdateResource false <;>
        cases he2 : api.EndUpdateResource true <;> simp [ExtAddIcon, hp, hb, hs, he, he2]
    · cases hs : (ExtAddIcon.steps api).1 <;> cases hq : ExtAddIcon.stepsSucceed api <;>
        simp [hs, hq] at hok ⊢
    · rw [← hsome]
      cases (ExtAddIcon api).1 <;> simp

/-- Witness of C26: when adding the second of two icon images fails, the
update ends with `EndUpdateResource(handle, TRUE)` and `ExtAddIcon` returns
`NULL`. -/
theorem ExtAddIcon_discards_iff_failed_witness :
    ExtAddIcon (twoIconsApi 2) =
      (none, [.BeginUpdateResource, .UpdateResource .RT_GROUP_ICON 1 34,
        .UpdateResource .RT_ICON 1 1128, .UpdateResource .RT_ICON 2 4264,
        .EndUpdateResource true]) ∧
    ExtAddIcon.stepsSucceed (twoIconsApi 2) = false ∧
    ((ExtAddIcon (twoIconsApi 2)).1 = none ↔
      ¬ (ExtAddIcon.stepsSucceed (twoIconsApi 2) = true ∧
        (twoIconsApi 2).EndUpdateResource false = true)) :=
  ⟨by rfl, by rfl, ((ExtAddIcon_discards_iff_failed (twoIconsApi 2)).2 rfl rfl).2.2⟩

/-- C27: when the path `fileName` that `SetExecutableName` works on after the
link loop has between 1 and `MAXPATHLEN` characters, the names are derived
without error and each string built in the buffer `temp` of `MAXPATHLEN + 12`
bytes fits in it with its terminating NUL: the copy of the path, the exclusive
archive path and the shared archive path. -/
theorem SetExecutableName_names_fit (h : Host) (v : LoopVars) (h1 : 1 ≤ v.fileName.length)
    (h2 : v.fileName.length ≤ h.MAXPATHLEN) :
    ∃ g, SetExecutableName.derive v = .ok g ∧
      (strcpy v.fileName).length + 1 ≤ h.MAXPATHLEN + 12 ∧
      g.g_ExclusiveZipFileName = exclusiveZip v.fileName ∧
      g.g_ExclusiveZipFileName.length + 1 ≤ h.MAXPATHLEN + 12 ∧
      GetDirName v.fileName = .ok g.g_DirName ∧
      (strcpy (cxString_ToString g.g_DirName)).length + 1 ≤ h.MAXPATHLEN + 12 ∧
      g.g_SharedZipFileName = sharedZip g.g_DirName ∧
      g.g_SharedZipFileName.length + 1 ≤ h.MAXPATHLEN + 12 := by
  refine ⟨_, derive_ok v, ?_, rfl, ?_, GetDirName_eq_spec _, ?_, rfl, ?_⟩
  · simp only [strcpy]
    omega
  · have := exclusiveZip_length_le v.fileName
    simp only
    omega
  · have := specDirName_length_lt v.fileName h1
    simp only [strcpy, cxString_ToString]
    omega
  · have := specDirName_length_lt v.fileName h1
    simp only [sharedZip_length]
    omega

/-- Witness of C27: the names derived from `/a/b/app.bin` fit a buffer of
`4096 + 12` bytes. -/
theorem SetExecutableName_names_fit_witness :
    ∃ g, SetExecutableName.derive
        { g_FileName := "/a/b/app.bin".toList, fileName := "/a/b/app.bin".toList,
          linkData := [] } = .ok g ∧
      (strcpy "/a/b/app.bin".toList).length + 1 ≤ unreadableLinkHost.MAXPATHLEN + 12 ∧
      g.g_ExclusiveZipFileName = exclusiveZip "/a/b/app.bin".toList ∧
      g.g_ExclusiveZipFileName.length + 1 ≤ unreadableLinkHost.MAXPATHLEN + 12 ∧
      GetDirName "/a/b/app.bin".toList = .ok g.g_DirName ∧
      (strcpy (cxString_ToString g.g_DirName)).length + 1 ≤
        unreadableLinkHost.MAXPATHLEN + 12 ∧
      g.g_SharedZipFileName = sharedZip g.g_DirName ∧
      g.g_SharedZipFileName.length + 1 ≤ unreadableLinkHost.MAXPATHLEN + 12 :=
  SetExecutableName_names_fit unreadableLinkHost
    { g_FileName := "/a/b/app.bin".toList, fileName := "/a/b/app.bin".toList, linkData := [] }
    (by decide) (by decide)

/-- C28: in a link step on the current path `c` with the target `t` in which
the relative branch is taken (the first byte `readlink` left in `linkData` is
not a slash), with `d` the directory `GetDirName` gives for `c`: the step
reports the fatal error `cannot dereference link, path too large` exactly when
`length(d) + length(t) + 1 > MAXPATHLEN`; in every other case the new current
path is `d`, a slash and `t`, it has at most `MAXPATHLEN` characters, and each
string built in `temp` fits its `MAXPATHLEN + 12` bytes with the terminating
NUL. When `c` is the path `SetExecutableName` is called with and a link, the
error of the step is the error of `SetExecutableName`. -/
theorem follow_guard (h : Host) (c t d : List Char) (buf : List Byte)
    (hr : h.readlink c = some t) (hd : GetDirName c = .ok d)
    (hM : h.MAXPATHLEN + 1 < 2 ^ 63) (hc : c.length < 2 ^ 63)
    (hjoin : (sys_readlink h c buf (h.MAXPATHLEN + 1)).2[0]? ≠ some (some '/')) :
    (SetExecutableName.follow h c (sys_readlink h c buf (h.MAXPATHLEN + 1)).2
        (toSizeT (sys_readlink h c buf (h.MAXPATHLEN + 1)).1) =
        .error "cannot dereference link, path too large" ↔
      d.length + t.length + 1 > h.MAXPATHLEN) ∧
    (d.length + t.length + 1 ≤ h.MAXPATHLEN →
      SetExecutableName.follow h c (sys_readlink h c buf (h.MAXPATHLEN + 1)).2
        (toSizeT (sys_readlink h c buf (h.MAXPATHLEN + 1)).1) = .ok (d ++ '/' :: t) ∧
      (d ++ '/' :: t).length ≤ h.MAXPATHLEN ∧
      (strcpy d).length + 1 ≤ h.MAXPATHLEN + 12 ∧
      (strcat (strcpy d) "/".toList).length + 1 ≤ h.MAXPATHLEN + 12 ∧
      (d ++ '/' :: t).length + 1 ≤ h.MAXPATHLEN + 12) ∧
    (buf = h.stack → h.lstat c = .link → d.length + t.length + 1 > h.MAXPATHLEN →
      (SetExecutableName h c).2 = .error "cannot dereference link, path too large") := by
  have hd2 : d = specDirName c := by
    rw [GetDirName_eq_spec] at hd
    injection hd with e
    exact e.symm
  subst hd2
  have key := follow_after_readlink h c t buf hr hM hc hjoin
  refine ⟨?_, ?_, ?_⟩
  · rw [key]
    constructor
    · intro herr
      by_contra hle
      rw [if_neg hle] at herr
      cases herr
    · intro hgt
      rw [if_pos hgt]
  · intro hle
    rw [key, if_neg (by omega)]
    refine ⟨rfl, ?_, ?_, ?_, ?_⟩
    · simp only [List.length_append, List.length_cons]
      omega
    · simp only [strcpy]
      omega
    · have h1 : "/".toList.length = 1 := by decide
      simp only [strcat, strcpy, List.length_append, h1]
      omega
    · simp only [List.length_append, List.length_cons]
      omega
  · intro hbuf hs hgt
    subst hbuf
    rw [if_pos hgt] at key
    simp only [SetExecutableName, cxString_FromString]
    rw [show (25 : Nat) = 24 + 1 from rfl, SetExecutableName.loop]
    simp only [cxString_ToString, hs, Nat.not_lt_zero, if_false, key]

/-- Witness of C28 on the link `/usr/bin/app` with the relative target
`../lib/app/run`: the joined path is the new current path. -/
theorem follow_guard_witness :
    SetExecutableName.follow chainHost "/usr/bin/app".toList
        (sys_readlink chainHost "/usr/bin/app".toList [] (chainHost.MAXPATHLEN + 1)).2
        (toSizeT (sys_readlink chainHost "/usr/bin/app".toList []
          (chainHost.MAXPATHLEN + 1)).1) = .ok "/usr/bin/../lib/app/run".toList :=
  ((follow_guard chainHost "/usr/bin/app".toList "../lib/app/run".toList "/usr/bin".toList []
    (by rfl) (by rfl) (by decide) (by decide) (by decide)).2.1 (by decide)).1

/-- C29: for every icon directory with `n` entries (`n` is the 16-bit field
`idCount`), `CreateGroupIconResource` reports
`sizeof(GRPICONDIR) + n * sizeof(GRPICONDIRENTRY)` as the size and, when the
allocation succeeds, gives a group icon directory with the same `idReserved`,
`idType` and `idCount` and with `n` entries, of which entry `i` copies
`bWidth`, `bHeight`, `bColorCount`, `bReserved`, `wPlanes`, `wBitCount` and
`dwBytesInRes` from input entry `i` and has `nID = i + 1`. Every call by which
`ExtAddIcon` stores image `i` uses the type `RT_ICON` and the identifier
`i + 1`, the `nID` of entry `i`. -/
theorem CreateGroupIconResource_entries_match (api : ResourceApi) (iconDir : ICONDIR)
    (hn : iconDir.idCount < 2 ^ 16) :
    ∃ g, CreateGroupIconResource true iconDir =
        (some g, sizeof_GRPICONDIR + iconDir.idCount * sizeof_GRPICONDIRENTRY) ∧
      (CreateGroupIconResource false iconDir).2 =
        sizeof_GRPICONDIR + iconDir.idCount * sizeof_GRPICONDIRENTRY ∧
      g.idReserved = iconDir.idReserved ∧ g.idType = iconDir.idType ∧
      g.idCount = iconDir.idCount ∧ g.idEntries.length = iconDir.idCount ∧
      (∀ i, i < iconDir.idCount → g.idEntries[i]? =
        some { bWidth := (iconDir.idEntries i).bWidth
               bHeight := (iconDir.idEntries i).bHeight
               bColorCount := (iconDir.idEntries i).bColorCount
               bReserved := (iconDir.idEntries i).bReserved
               wPlanes := (iconDir.idEntries i).wPlanes
               wBitCount := (iconDir.idEntries i).wBitCount
               dwBytesInRes := (iconDir.idEntries i).dwBytesInRes
               nID := i + 1 }) ∧
      (∀ i c, (ExtAddIcon.icons api iconDir 0 iconDir.idCount).2[i]? = some c →
        ∃ e, g.idEntries[i]? = some e ∧ e.nID = i + 1 ∧
          c = ResourceCall.UpdateResource .RT_ICON e.nID (iconDir.idEntries i).dwBytesInRes) := by
  have hsize : (sizeof_GRPICONDIR + sizeof_GRPICONDIRENTRY * iconDir.idCount) % 2 ^ 32 =
      sizeof_GRPICONDIR + iconDir.idCount * sizeof_GRPICONDIRENTRY := by
    simp only [sizeof_GRPICONDIR, sizeof_GRPICONDIRENTRY]
    omega
  have hget : ∀ i, i < iconDir.idCount →
      (CreateGroupIconResource.entries iconDir 0 iconDir.idCount)[i]? =
        some { bWidth := (iconDir.idEntries i).bWidth
               bHeight := (iconDir.idEntries i).bHeight
               bColorCount := (iconDir.idEntries i).bColorCount
               bReserved := (iconDir.idEntries i).bReserved
               wPlanes := (iconDir.idEntries i).wPlanes
               wBitCount := (iconDir.idEntries i).wBitCount
               dwBytesInRes := (iconDir.idEntries i).dwBytesInRes
               nID := i + 1 } := by
    intro i hi
    have := CreateGroupIconResource_entries_get iconDir iconDir.idCount 0 i hi
    simp only [Nat.zero_add] at this
    rw [this, Nat.mod_eq_of_lt (by omega)]
  refine ⟨{ idReserved := iconDir.idReserved
            idType := iconDir.idType
            idCount := iconDir.idCount
            idEntries := CreateGroupIconResource.entries iconDir 0 iconDir.idCount },
    ?_, ?_, rfl, rfl, rfl, CreateGroupIconResource_entries_length _ _ _, hget, ?_⟩
  · simp only [CreateGroupIconResource, hsize, Bool.not_true, Bool.false_eq_true, if_false]
  · simp only [CreateGroupIconResource, hsize, Bool.not_false, if_true]
  · intro i c hc
    obtain ⟨hi, hcall⟩ := ExtAddIcon_icons_get api iconDir iconDir.idCount 0 i c hc
    simp only [Nat.zero_add] at hcall
    rw [Nat.mod_eq_of_lt (by omega)] at hcall
    exact ⟨_, hget i hi, rfl, hcall⟩

/-- Witness of C29 on an icon file with two images: the group icon resource
takes 34 bytes and its entries carry the identifiers 1 and 2. -/
theorem CreateGroupIconResource_entries_match_witness :
    ∃ g, CreateGroupIconResource true twoIcons = (some g, 6 + 2 * 14) ∧
      (CreateGroupIconResource false twoIcons).2 = 6 + 2 * 14 ∧
      g.idReserved = 0 ∧ g.idType = 1 ∧ g.idCount = 2 ∧ g.idEntries.length = 2 ∧
      (∀ i, i < 2 → g.idEntries[i]? =
        some { bWidth := (twoIcons.idEntries i).bWidth
               bHeight := (twoIcons.idEntries i).bHeight
               bColorCount := (twoIcons.idEntries i).bColorCount
               bReserved := (twoIcons.idEntries i).bReserved
               wPlanes := (twoIcons.idEntries i).wPlanes
               wBitCount := (twoIcons.idEntries i).wBitCount
               dwBytesInRes := (twoIcons.idEntries i).dwBytesInRes
               nID := i + 1 }) ∧
      (∀ i c, (ExtAddIcon.icons (twoIconsApi 0) twoIcons 0 2).2[i]? = some c →
        ∃ e, g.idEntries[i]? = some e ∧ e.nID = i + 1 ∧
          c = ResourceCall.UpdateResource .RT_ICON e.nID (twoIcons.idEntries i).dwBytesInRes) :=
  CreateGroupIconResource_entries_match (twoIconsApi 0) twoIcons (by decide)

/-- C30: the entry points of `ThonnyRunner37` and `ThonnyRunner310` return 10
when the command line cannot be parsed, otherwise -1 when the startup script
raises an error, and otherwise 1; they never return 0. -/
theorem ThonnyRunner_status (env : Runner) :
    (env.CommandLineToArgvW = false →
      (ThonnyRunner37.wWinMain env).1 = 10 ∧ (ThonnyRunner310.wWinMain env).1 = 10) ∧
    (env.CommandLineToArgvW = true → env.PyRun_String = false →
      (ThonnyRunner37.wWinMain env).1 = -1 ∧ (ThonnyRunner310.wWinMain env).1 = -1) ∧
    (env.CommandLineToArgvW = true → env.PyRun_String = true →
      (ThonnyRunner37.wWinMain env).1 = 1 ∧ (ThonnyRunner310.wWinMain env).1 = 1) ∧
    (ThonnyRunner37.wWinMain env).1 ≠ 0 ∧ (ThonnyRunner310.wWinMain env).1 ≠ 0 := by
  cases hc : env.CommandLineToArgvW <;> cases hp : env.PyRun_String <;>
    simp [ThonnyRunner37.wWinMain, ThonnyRunner310.wWinMain, hc, hp]

/-- Witness of C30: a startup script that raises an error makes the runner
return -1. -/
theorem ThonnyRunner_status_witness :
    (ThonnyRunner37.wWinMain ⟨true, false, "boom".toList⟩).1 = -1 ∧
    (ThonnyRunner310.wWinMain ⟨true, false, "boom".toList⟩).1 = -1 :=
  (ThonnyRunner_status ⟨true, false, "boom".toList⟩).2.1 rfl rfl

end Thonny
